import Mathlib

/-!
Verification of the entity-simulation core of Project Aetheria.

This file is a shallow embedding, in Lean 4, of the simulation code in
`src/utils/entitySystem.ts` (entity creation and the `EntityAI` behaviour
controller), `src/utils/entityManager.ts` (the `EntityManager`: spawning,
per-tick update, lifecycle, reproduction, capacity) and
`src/utils/pathfinding.ts` (the A* path finder), together with theorems
about the embedded definitions.

Modelling conventions
* JavaScript numbers are modelled as exact rationals (`ℚ`); decimal literals
  such as `0.01` denote the exact rational.
* `Math.random()` is modelled as consuming the head of an explicit stream of
  rationals (`List ℚ`) carried in the manager state; an exhausted stream
  yields 0.
* `Math.sqrt` is irrational-valued, so it is kept abstract: the behaviour
  functions take an arbitrary function `sq : ℚ → ℚ` as a parameter and no
  theorem below constrains it.
* `uuidv4()` is modelled by a fresh-id counter (`nextId`) in the manager.
* Object references are modelled by keys: entities are referred to by their
  numeric id, tiles by their grid coordinates.
* The THREE.js meshes, the `VisualizationManager` calls and `Date.now()`
  bookkeeping are omitted: they never read or write simulation fields
  (position, needs, health, age, inventory, status) of any entity.
-/

/-- Biome types from `src/types/world.ts` (`BiomeType`). -/
inductive BiomeType
  | deep_ocean | ocean | shallow_water | river | lake
  | beach | rocky_shore
  | grassland | deciduous_forest | coniferous_forest | hills | mountains
  | taiga | tundra | snow | ice | glacier
  | desert | savanna | mesa | badlands
  | swamp | marsh | rainforest | tropical_forest
  | volcanic | corrupted | enchanted_forest | sky_island
  deriving DecidableEq, Repr

/-- Models the JavaScript test `tile.type.includes('forest')`: the biome names
whose string representation contains the substring "forest". -/
def BiomeType.nameIncludesForest : BiomeType → Bool
  | .deciduous_forest | .coniferous_forest | .rainforest
  | .tropical_forest | .enchanted_forest => true
  | _ => false

/-- Resource types from `src/types/world.ts` (`ResourceType`). -/
inductive ResourceType
  | wood | stone | food | water
  | iron | gold | silver | coal | crystal | gem
  | mana | ancient_artifact
  deriving DecidableEq, Repr

/-- A resource stack (`Resource` in `src/types/world.ts`). -/
structure Resource where
  type : ResourceType
  quantity : ℚ
  discovered : Bool
  deriving DecidableEq, Repr

/-- Entity types from `src/types/world.ts` (`EntityType`). -/
inductive EntityType
  | human | elf | dwarf | orc
  | wolf | bear | deer | rabbit | bird | fish
  | dragon | demon | zombie | skeleton | elemental | bandit
  deriving DecidableEq, Repr

/-- The list of all entity types (used for fuel bounds). -/
def allEntityTypes : List EntityType :=
  [.human, .elf, .dwarf, .orc, .wolf, .bear, .deer, .rabbit, .bird, .fish,
   .dragon, .demon, .zombie, .skeleton, .elemental, .bandit]

/-- The `attributes` record of an entity. -/
structure Attributes where
  strength : ℚ
  intelligence : ℚ
  speed : ℚ
  resilience : ℚ
  deriving DecidableEq, Repr

/-- The `needs` record of an entity. -/
structure Needs where
  hunger : ℚ
  thirst : ℚ
  rest : ℚ
  social : ℚ
  deriving DecidableEq, Repr

/-- A continuous position over grid coordinates. -/
structure Position where
  x : ℚ
  y : ℚ
  deriving DecidableEq, Repr

/-- An entity (`Entity` in `src/types/world.ts`); the `id` is a numeric stand-in
for the uuid string, `mesh`/`faction`/`lastPosition`/animation fields are
omitted (never touched by the embedded code). -/
structure Entity where
  id : Nat
  type : EntityType
  name : String
  age : ℚ
  maxAge : ℚ
  health : ℚ
  maxHealth : ℚ
  position : Position
  attributes : Attributes
  needs : Needs
  inventory : List Resource
  status : List String
  deriving DecidableEq, Repr

/-- A world tile (`Tile` in `src/types/world.ts`), restricted to the fields the
simulation core reads or writes.  `entities` holds entity ids (the source holds
object references).  `walkable` is optional in the source, but every use tests
`walkable === false` or `walkable !== false`, under which `undefined` behaves
exactly like `true`, so a plain `Bool` is faithful.  The per-search A* fields
(`gCost`/`hCost`/`fCost`/`parent`) are reset at the start of every search in
the source, so they live in the search state of the path finder instead. -/
structure Tile where
  x : Nat
  y : Nat
  type : BiomeType
  height : ℚ
  walkable : Bool
  resources : List Resource
  entities : List Nat
  deriving DecidableEq, Repr

/-- AI states (`AIState` in `src/utils/entitySystem.ts`). -/
inductive AIState
  | idle | moving | gathering | hunting | fleeing
  | building | fighting | sleeping | dying | reproducing
  deriving DecidableEq, Repr

/-- The mutable per-entity controller state of `EntityAI`
(`src/utils/entitySystem.ts`).  `targetTile` and `path` hold grid coordinates
(the source holds `Tile` references into the grid array), `targetEntity` holds
an entity id (the source holds an `Entity` reference). -/
structure EntityAI where
  currentState : AIState
  targetTile : Option (Nat × Nat)
  targetEntity : Option Nat
  path : List (Nat × Nat)
  ticksSinceLastAction : ℚ
  ticksToNextStateChange : ℚ
  deriving DecidableEq, Repr

/-- Population density settings. -/
inductive Density
  | low | medium | high
  deriving DecidableEq, Repr

/-- Causes passed to `killEntity`. -/
inductive DeathCause
  | old_age | health | random
  deriving DecidableEq, Repr

/-- The `EntityManager` state (`src/utils/entityManager.ts`).  The source keeps
two insertion-ordered `Map`s keyed by entity id (`entities` and `entityAIs`)
that always hold exactly the same keys; they are fused into one
insertion-ordered association list.  `rng` is the stream modelling the ambient
`Math.random()`, `nextId` models uuid freshness. -/
structure EntityManager where
  entities : List (Entity × EntityAI)
  tiles : List (List Tile)
  entityPopulationDensity : Density
  reproductionProbability : ℚ
  deathProbability : ℚ
  agingRate : ℚ
  nextId : Nat
  rng : List ℚ
  deriving Repr

/-- Draw one value from the ambient random stream (`Math.random()`). -/
def nextRandom (m : EntityManager) : ℚ × EntityManager :=
  (m.rng.headD 0, { m with rng := m.rng.tail })

/-- Name lists by type (`generateEntityName` in `src/utils/entitySystem.ts`). -/
def entityNames : EntityType → List String
  | .human => ["Alex", "Jamie", "Morgan", "Taylor", "Jordan", "Casey", "Robin", "Quinn", "Riley", "Avery"]
  | .elf => ["Elrond", "Galadriel", "Legolas", "Arwen", "Tauriel", "Thranduil", "Celeborn", "Eärwen", "Finrod", "Lúthien"]
  | .dwarf => ["Thorin", "Gimli", "Balin", "Dwalin", "Fíli", "Kíli", "Glóin", "Óin", "Bifur", "Bofur"]
  | .orc => ["Gromm", "Zugdug", "Krag", "Rukh", "Muzgash", "Grishnak", "Bolg", "Azog", "Ugluk", "Lurtz"]
  | .wolf => ["Alpha", "Shadow", "Fang", "Luna", "Ghost", "Storm", "Timber", "Blizzard", "Savage", "Howler"]
  | .bear => ["Grizzly", "Kodiak", "Bruno", "Honey", "Ursa", "Teddy", "Claw", "Moose", "Thunder", "Shaggy"]
  | .deer => ["Bambi", "Buck", "Stag", "Doe", "Dasher", "Prancer", "Forest", "Speckle", "Maple", "Swift"]
  | .rabbit => ["Hopper", "Thumper", "Cottontail", "Flopsy", "Mopsy", "Peter", "Benny", "Roger", "Jasper", "Hazel"]
  | .bird => ["Robin", "Sparrow", "Jay", "Swift", "Hawk", "Raven", "Wren", "Finch", "Eagle", "Falcon"]
  | .fish => ["Fins", "Bubbles", "Scales", "Nemo", "Marlin", "Dory", "Wave", "Splash", "Shimmer", "Gill"]
  | .dragon => ["Smaug", "Drogon", "Glaurung", "Rhaegal", "Viserion", "Balerion", "Meraxes", "Vermithrax", "Alduin", "Fafnir"]
  | .demon => ["Abaddon", "Baal", "Lilith", "Mephistopheles", "Asmodeus", "Beelzebub", "Moloch", "Belial", "Mammon", "Legion"]
  | .zombie => ["Shuffler", "Rotter", "Lurcher", "Biter", "Walker", "Shambler", "Moaner", "Creeper", "Stinker", "Lurch"]
  | .skeleton => ["Rattlebones", "Marrow", "Skully", "Ribs", "Clatters", "Bones", "Creaks", "Dusty", "Hollow", "Grim"]
  | .elemental => ["Ember", "Gust", "Pebble", "Splash", "Bolt", "Quake", "Frost", "Blaze", "Torrent", "Spark"]
  | .bandit => ["Cutthroat", "Knuckles", "Blade", "Shadow", "Scar", "Knives", "Dagger", "Rogue", "Crook", "Mugger"]

/-- `generateEntityName`: picks `names[type][Math.floor(r * list.length)]` from
one random draw `r` (the source falls back to "Unknown" only for a missing
type key, which cannot happen). -/
def generateEntityName (ty : EntityType) (r : ℚ) : String :=
  let nameList := entityNames ty
  nameList.getD (⌊r * nameList.length⌋).toNat "Unknown"

/-- `createEntity` from `src/utils/entitySystem.ts`: the base entity followed
by the per-type customisation switch.  The uuid is modelled by the caller's
fresh id `nid`; the name generation consumes one random draw. -/
def createEntity (ty : EntityType) (x y : ℚ) (nid : Nat) (rng : List ℚ) :
    Entity × List ℚ :=
  let name := generateEntityName ty (rng.headD 0)
  let rng := rng.tail
  let base : Entity :=
    { id := nid, type := ty, name := name,
      age := 0, maxAge := 100, health := 100, maxHealth := 100,
      position := { x := x, y := y },
      attributes := { strength := 10, intelligence := 10, speed := 10, resilience := 10 },
      needs := { hunger := 1.0, thirst := 1.0, rest := 1.0, social := 1.0 },
      inventory := [], status := [] }
  let e :=
    match ty with
    | .human =>
      { base with
          maxAge := 80,
          attributes := { base.attributes with strength := 10, intelligence := 15, speed := 10, resilience := 10 } }
    | .elf =>
      { base with
          maxAge := 500,
          attributes := { base.attributes with strength := 8, intelligence := 18, speed := 12, resilience := 8 } }
    | .dwarf =>
      { base with
          maxAge := 250,
          attributes := { base.attributes with strength := 15, intelligence := 12, speed := 8, resilience := 15 } }
    | .orc =>
      { base with
          maxAge := 60,
          attributes := { base.attributes with strength := 18, intelligence := 8, speed := 10, resilience := 12 } }
    | .wolf =>
      { base with
          maxAge := 15, maxHealth := 80,
          attributes := { base.attributes with strength := 12, intelligence := 8, speed := 15, resilience := 10 } }
    | .bear =>
      { base with
          maxAge := 25, maxHealth := 150,
          attributes := { base.attributes with strength := 18, intelligence := 7, speed := 8, resilience := 15 } }
    | .deer =>
      { base with
          maxAge := 12, maxHealth := 70,
          attributes := { base.attributes with strength := 6, intelligence := 6, speed := 16, resilience := 8 } }
    | .rabbit =>
      { base with
          maxAge := 8, maxHealth := 30,
          attributes := { base.attributes with strength := 3, intelligence := 5, speed := 18, resilience := 4 } }
    | .fish =>
      { base with
          maxAge := 5, maxHealth := 20,
          attributes := { base.attributes with strength := 2, intelligence := 2, speed := 8, resilience := 3 } }
    | .bird =>
      { base with
          maxAge := 5, maxHealth := 15,
          attributes := { base.attributes with strength := 2, intelligence := 6, speed := 20, resilience := 3 } }
    | .dragon =>
      { base with
          maxAge := 1000, maxHealth := 500,
          attributes := { base.attributes with strength := 30, intelligence := 20, speed := 15, resilience := 30 } }
    | .demon =>
      { base with
          maxAge := 888, maxHealth := 300,
          attributes := { base.attributes with strength := 25, intelligence := 18, speed := 18, resilience := 25 } }
    | .zombie =>
      { base with
          maxAge := 1000, maxHealth := 150,
          needs := { base.needs with hunger := 0.2, thirst := 1.0, rest := 1.0, social := 0.5 },
          attributes := { base.attributes with strength := 15, intelligence := 2, speed := 5, resilience := 20 } }
    | .skeleton =>
      { base with
          maxAge := 1000, maxHealth := 100,
          needs := { base.needs with hunger := 1.0, thirst := 1.0, rest := 1.0, social := 0.3 },
          attributes := { base.attributes with strength := 10, intelligence := 4, speed := 8, resilience := 15 } }
    | .bandit =>
      { base with
          maxAge := 60,
          attributes := { base.attributes with strength := 12, intelligence := 10, speed := 12, resilience := 10 } }
    | .elemental =>
      { base with
          maxAge := 300, maxHealth := 250,
          attributes := { base.attributes with strength := 20, intelligence := 15, speed := 10, resilience := 20 } }
  (e, rng)

/-- `tiles[x][y]` for natural-number indices. -/
def gridGet? (tiles : List (List Tile)) (x y : Nat) : Option Tile :=
  (tiles[x]?).bind (fun row => row[y]?)

/-- JavaScript array indexing `l[q]` by an arbitrary number `q`: an element for
an integral in-range index, `undefined` otherwise. -/
def jsIndexQ {α : Type} (l : List α) (q : ℚ) : Option α :=
  if q.den = 1 ∧ 0 ≤ q.num ∧ q.num < l.length then l[q.num.toNat]? else none

/-- Replace the tile at natural coordinates `(x, y)` by `f` applied to it. -/
def updateTile (tiles : List (List Tile)) (x y : Nat) (f : Tile → Tile) :
    List (List Tile) :=
  match tiles[x]? with
  | none => tiles
  | some row =>
    match row[y]? with
    | none => tiles
    | some t => tiles.set x (row.set y (f t))

/-- `isSuitableTileForEntity` from `src/utils/entityManager.ts`, with the
random stream threaded through: the zombie/skeleton branch draws from
`Math.random()` when (and only when) the tile is not corrupted, exactly as the
short-circuiting `tile.type === 'corrupted' || Math.random() < 0.2` does. -/
def isSuitableTileForEntity (ty : EntityType) (tile : Tile) (rng : List ℚ) :
    Bool × List ℚ :=
  if tile.walkable = false then (false, rng)
  else if tile.type = .deep_ocean ∨ tile.type = .ocean then
    (decide (ty = .fish), rng)
  else if tile.type = .shallow_water ∨ tile.type = .river ∨ tile.type = .lake then
    (decide (ty = .fish), rng)
  else if ty = .elf then (tile.type.nameIncludesForest, rng)
  else if ty = .dwarf then (decide (tile.type = .mountains ∨ tile.type = .hills), rng)
  else if ty = .orc then (decide (tile.type = .badlands ∨ tile.type = .savanna), rng)
  else if ty = .wolf then (tile.type.nameIncludesForest || decide (tile.type = .taiga), rng)
  else if ty = .bear then
    (tile.type.nameIncludesForest || decide (tile.type = .taiga ∨ tile.type = .mountains), rng)
  else if ty = .deer then (tile.type.nameIncludesForest || decide (tile.type = .grassland), rng)
  else if ty = .rabbit then (decide (tile.type = .grassland), rng)
  else if ty = .bird then (tile.type.nameIncludesForest || decide (tile.type = .grassland), rng)
  else if ty = .dragon then (decide (tile.type = .mountains ∨ tile.type = .volcanic), rng)
  else if ty = .demon then (decide (tile.type = .volcanic ∨ tile.type = .corrupted), rng)
  else if ty = .zombie ∨ ty = .skeleton then
    if tile.type = .corrupted then (true, rng)
    else (decide (rng.headD 0 < 0.2), rng.tail)
  else (decide (tile.height > 0.25), rng)

/-- A freshly constructed `EntityAI` (its field initialisers). -/
def initEntityAI : EntityAI :=
  { currentState := .idle, targetTile := none, targetEntity := none,
    path := [], ticksSinceLastAction := 0, ticksToNextStateChange := 0 }

/-- `spawnEntity` from `src/utils/entityManager.ts`: bounds check, suitability
check, entity + AI creation, insertion into the entity map and into the tile's
occupancy list.  Coordinates are integers, as in the `Tile` data model.  (On a
ragged grid the inner lookup can miss where the source would throw; grids are
rectangular.) -/
def spawnEntity (m : EntityManager) (ty : EntityType) (x y : Int) :
    Option Entity × EntityManager :=
  if x < 0 ∨ x ≥ m.tiles.length ∨ y < 0 ∨ y ≥ (m.tiles.headD []).length then
    (none, m)
  else
    match gridGet? m.tiles x.toNat y.toNat with
    | none => (none, m)
    | some tile =>
      let res := isSuitableTileForEntity ty tile m.rng
      let m := { m with rng := res.2 }
      if res.1 = false then (none, m)
      else
        let created := createEntity ty x y m.nextId m.rng
        let entity := created.1
        let m := { m with rng := created.2, nextId := m.nextId + 1 }
        let m := { m with entities := m.entities ++ [(entity, initEntityAI)] }
        let newTiles := updateTile m.tiles x.toNat y.toNat
          (fun t => { t with entities := t.entities ++ [entity.id] })
        let m := { m with tiles := newTiles }
        (some entity, m)

/-- `getPopulationDensityMultiplier`. -/
def getPopulationDensityMultiplier (m : EntityManager) : ℚ :=
  match m.entityPopulationDensity with
  | .low => 0.5
  | .medium => 1.0
  | .high => 2.0

/-- `getEntityCountByType`: the number of entities of the given type. -/
def getEntityCountByType (m : EntityManager) (ty : EntityType) : Nat :=
  m.entities.countP (fun p => p.1.type = ty)

/-- The base population caps (`baseMaxCounts` in `getMaxEntityCount`). -/
def baseMaxCounts : EntityType → Nat
  | .human => 100 | .elf => 80 | .dwarf => 60 | .orc => 70
  | .wolf => 30 | .bear => 15 | .deer => 40 | .rabbit => 60
  | .bird => 80 | .fish => 100
  | .dragon => 3 | .demon => 5 | .zombie => 50 | .skeleton => 70
  | .elemental => 10 | .bandit => 25

/-- `getMaxEntityCount`: the density-adjusted population cap for a type. -/
def getMaxEntityCount (m : EntityManager) (ty : EntityType) : Nat :=
  let baseMax := baseMaxCounts ty
  match m.entityPopulationDensity with
  | .low => (⌊(baseMax : ℚ) * 0.5⌋).toNat
  | .medium => baseMax
  | .high => (⌊(baseMax : ℚ) * 2⌋).toNat

/-- `setPopulationDensity`: stores the setting and switches the probability
pair. -/
def setPopulationDensity (m : EntityManager) (d : Density) : EntityManager :=
  let m := { m with entityPopulationDensity := d }
  match d with
  | .low => { m with reproductionProbability := 0.0005, deathProbability := 0.001 }
  | .medium => { m with reproductionProbability := 0.001, deathProbability := 0.0005 }
  | .high => { m with reproductionProbability := 0.002, deathProbability := 0.0002 }

/-- `getNearbyTiles`: the tiles within Chebyshev range of `(x, y)`, centre
excluded, in the source's `dx`-outer/`dy`-inner scan order.  The source indexes
`this.tiles[x + dx][y + dy]` with the entity's raw (possibly fractional)
position; `jsIndexQ` models that indexing (a fractional index would make the
source throw on the inner access; such positions do not pass the bounds test
here either, so they contribute no tiles). -/
def getNearbyTiles (tiles : List (List Tile)) (x y : ℚ) (range : Int) :
    List Tile :=
  ((List.range (2 * range.toNat + 1)).flatMap (fun dxi =>
    (List.range (2 * range.toNat + 1)).filterMap (fun dyi =>
      let dx : Int := dxi - range
      let dy : Int := dyi - range
      if dx = 0 ∧ dy = 0 then none
      else
        let nx := x + dx
        let ny := y + dy
        if 0 ≤ nx ∧ nx < tiles.length ∧ 0 ≤ ny ∧ ny < (tiles.headD []).length then
          (jsIndexQ tiles nx).bind (fun row => jsIndexQ row ny)
        else none)))

/-- The entity/AI pair at index `i` of the insertion-ordered entity map. -/
def getEnt (m : EntityManager) (i : Nat) : Option (Entity × EntityAI) :=
  m.entities[i]?

/-- Replace the entity/AI pair at index `i`. -/
def setEnt (m : EntityManager) (i : Nat) (p : Entity × EntityAI) : EntityManager :=
  { m with entities := m.entities.set i p }

/-- Mutate the entity at index `i` in place. -/
def modifyEntity (m : EntityManager) (i : Nat) (f : Entity → Entity) : EntityManager :=
  match m.entities[i]? with
  | none => m
  | some (e, ai) => setEnt m i (f e, ai)

/-- Mutate the entity with id `tid` in place (models writing through a live
object reference held by another entity's AI). -/
def modifyEntityById (m : EntityManager) (tid : Nat) (f : Entity → Entity) : EntityManager :=
  { m with entities := m.entities.map (fun p => if p.1.id = tid then (f p.1, p.2) else p) }

/-- Resolve a tile's occupancy ids to the entities of the store (the source
stores live object references in `tile.entities`). -/
def resolveEntities (m : EntityManager) (ids : List Nat) : List Entity :=
  ids.filterMap (fun tid => (m.entities.find? (fun p => p.1.id = tid)).map (fun p => p.1))

/-- Add `q` to the first inventory stack of type `rt` (models mutating the
result of `inventory.find(...)`). -/
def addToFirst (inv : List Resource) (rt : ResourceType) (q : ℚ) : List Resource :=
  match inv with
  | [] => []
  | r :: rest =>
    if r.type = rt then { r with quantity := r.quantity + q } :: rest
    else r :: addToFirst rest rt q

/-- `EntityAI.updateNeeds`: per-tick decay of the four needs with clamping to
[0,1], health damage for critical hunger/thirst, ageing by `0.01 × dt`, and
senescence damage past 90% of `maxAge`; a pure function of the entity. -/
def updateNeeds (e : Entity) (deltaTime : ℚ) : Entity :=
  let n := e.needs
  let n :=
    { n with
        hunger := n.hunger - 0.01 * deltaTime,
        thirst := n.thirst - 0.015 * deltaTime,
        rest := n.rest - 0.005 * deltaTime,
        social := n.social - 0.002 * deltaTime }
  let n :=
    { n with
        hunger := max 0 (min 1 n.hunger),
        thirst := max 0 (min 1 n.thirst),
        rest := max 0 (min 1 n.rest),
        social := max 0 (min 1 n.social) }
  let e := { e with needs := n }
  let e := if e.needs.hunger ≤ 0.1 then { e with health := e.health - 0.05 * deltaTime } else e
  let e := if e.needs.thirst ≤ 0.1 then { e with health := e.health - 0.1 * deltaTime } else e
  let e := { e with age := e.age + 0.01 * deltaTime }
  if e.age ≥ e.maxAge * 0.9 then { e with health := e.health - 0.02 * deltaTime } else e

/-- `EntityAI.die`: zero the health, push the "dead" tag, enter `dying`. -/
def die (m : EntityManager) (i : Nat) : EntityManager :=
  match m.entities[i]? with
  | none => m
  | some (e, ai) =>
    setEnt m i
      ({ e with health := 0, status := e.status ++ ["dead"] },
       { ai with currentState := .dying })

/-- `EntityAI.isPredator`. -/
def isPredator (ty : EntityType) : Bool :=
  [EntityType.wolf, .bear, .dragon, .demon, .orc].contains ty

/-- `EntityAI.getPreyTypes`. -/
def getPreyTypes : EntityType → List EntityType
  | .wolf => [.rabbit, .deer]
  | .bear => [.fish, .deer, .human]
  | .dragon => [.human, .elf, .dwarf, .orc, .wolf, .bear]
  | .orc => [.human, .elf]
  | .demon => [.human, .elf, .dwarf, .orc]
  | _ => []

/-- `EntityAI.canReproduce`: adult age window and at least 70% health. -/
def canReproduce (e : Entity) : Bool :=
  decide (e.age ≥ e.maxAge * 0.3 ∧ e.age ≤ e.maxAge * 0.7 ∧ e.health ≥ e.maxHealth * 0.7)

/-- The five water biomes used by the AI and the path finder. -/
def waterBiomes : List BiomeType :=
  [.deep_ocean, .ocean, .shallow_water, .river, .lake]

/-- `EntityAI.canEntityWalkOnBiome`. -/
def canEntityWalkOnBiome (ty : EntityType) (biomeType : BiomeType) : Bool :=
  if ty = .fish then waterBiomes.contains biomeType
  else if ty = .bird then true
  else if [BiomeType.deep_ocean, .ocean].contains biomeType then false
  else
    match ty with
    | .elf => !([BiomeType.deep_ocean, .ocean, .volcanic].contains biomeType)
    | .dwarf => !(waterBiomes.contains biomeType)
    | .orc => !([BiomeType.deep_ocean, .ocean].contains biomeType)
    | _ => !([BiomeType.deep_ocean, .ocean].contains biomeType)

/-- `EntityAI.getCurrentTile`: the tile under the floored position, `none` out
of bounds. -/
def getCurrentTile (tiles : List (List Tile)) (pos : Position) : Option Tile :=
  let x := ⌊pos.x⌋
  let y := ⌊pos.y⌋
  if 0 ≤ x ∧ x < tiles.length ∧ 0 ≤ y ∧ y < (tiles.headD []).length then
    gridGet? tiles x.toNat y.toNat
  else none

/-- `EntityAI.getNeighbors`: the up-to-8 surrounding tiles, in the source's
scan order. -/
def getNeighbors (tiles : List (List Tile)) (tile : Tile) : List Tile :=
  (List.range 3).flatMap (fun dxi =>
    (List.range 3).filterMap (fun dyi =>
      let dx : Int := dxi - 1
      let dy : Int := dyi - 1
      if dx = 0 ∧ dy = 0 then none
      else
        let nx := (tile.x : Int) + dx
        let ny := (tile.y : Int) + dy
        if 0 ≤ nx ∧ nx < tiles.length ∧ 0 ≤ ny ∧ ny < (tiles.headD []).length then
          gridGet? tiles nx.toNat ny.toNat
        else none))

/-- `EntityAI.getEntityTile` is a stub in the source: it always returns null. -/
def getEntityTile (_entity : Entity) : Option (Nat × Nat) :=
  none

/-- `EntityAI.findTilesByType`: all tiles of the given biomes, scanned x-outer
then y-inner. -/
def findTilesByType (tiles : List (List Tile)) (types : List BiomeType) : List Tile :=
  tiles.flatMap (fun row => row.filter (fun t => types.contains t.type))

/-- `EntityAI.findTilesWithResource`: all tiles holding a positive stack of the
given resource. -/
def findTilesWithResource (tiles : List (List Tile)) (resourceType : ResourceType) : List Tile :=
  tiles.flatMap (fun row =>
    row.filter (fun t => t.resources.any (fun r => decide (r.type = resourceType ∧ r.quantity > 0))))

/-- `EntityAI.findClosestTile`: scan keeping the strictly closest tile, with
`Infinity` as the initial best distance (modelled by `none`). -/
def findClosestTile (sq : ℚ → ℚ) (e : Entity) (tileList : List Tile) : Option Tile :=
  match tileList with
  | [] => none
  | t0 :: _ =>
    some ((tileList.foldl (fun (best : Tile × Option ℚ) t =>
      let dx := (t.x : ℚ) - e.position.x
      let dy := (t.y : ℚ) - e.position.y
      let distance := sq (dx * dx + dy * dy)
      match best.2 with
      | none => (t, some distance)
      | some b => if distance < b then (t, some distance) else best) (t0, none)).1)

/-- The closest-entity scans inlined in `findPreyToHunt` and
`findSocialInteraction` (`closestDistance` starts at `Infinity`, modelled by
`none`; strictly closer wins). -/
def findClosestEntity (sq : ℚ → ℚ) (self : Entity) (l : List Entity) : Option Entity :=
  (l.foldl (fun (best : Option Entity × Option ℚ) other =>
    let dx := other.position.x - self.position.x
    let dy := other.position.y - self.position.y
    let distance := sq (dx * dx + dy * dy)
    match best.2 with
    | none => (some other, some distance)
    | some b => if distance < b then (some other, some distance) else best) (none, none)).1

/-- `EntityAI.moveRandomly`: pick a random walkable neighbour of the current
tile and enter `moving` with a one-tile path. -/
def moveRandomly (m : EntityManager) (i : Nat) : EntityManager :=
  match m.entities[i]? with
  | none => m
  | some (e, ai) =>
    match getCurrentTile m.tiles e.position with
    | none => m
    | some currentTile =>
      let neighbors := getNeighbors m.tiles currentTile
      let walkableNeighbors := neighbors.filter
        (fun t => (t.walkable != false) && canEntityWalkOnBiome e.type t.type)
      if walkableNeighbors.length > 0 then
        let res := nextRandom m
        let m := res.2
        match walkableNeighbors[(⌊res.1 * walkableNeighbors.length⌋).toNat]? with
        | none => m
        | some t =>
          setEnt m i (e,
            { ai with targetTile := some (t.x, t.y), path := [(t.x, t.y)], currentState := .moving })
      else m

/-- `EntityAI.findWaterSource`: walk toward the closest water tile, or wander. -/
def findWaterSource (sq : ℚ → ℚ) (m : EntityManager) (i : Nat) : EntityManager :=
  match m.entities[i]? with
  | none => m
  | some (e, ai) =>
    let waterTiles := findTilesByType m.tiles waterBiomes
    if waterTiles.length > 0 then
      match findClosestTile sq e waterTiles with
      | some closestWaterTile =>
        setEnt m i (e,
          { ai with targetTile := some (closestWaterTile.x, closestWaterTile.y), currentState := .moving })
      | none => m
    else moveRandomly m i

/-- `EntityAI.findPreyToHunt`: collect all living prey on the whole grid, lock
onto the closest one, or wander. -/
def findPreyToHunt (sq : ℚ → ℚ) (m : EntityManager) (i : Nat) : EntityManager :=
  match m.entities[i]? with
  | none => m
  | some (e, ai) =>
    let preyTypes := getPreyTypes e.type
    let preyEntities := m.tiles.flatMap (fun row => row.flatMap (fun tile =>
      (resolveEntities m tile.entities).filter
        (fun p => preyTypes.contains p.type && decide (p.health > 0))))
    match findClosestEntity sq e preyEntities with
    | some closestPrey =>
      setEnt m i (e, { ai with targetEntity := some closestPrey.id, currentState := .hunting })
    | none => moveRandomly m i

/-- `EntityAI.findFoodSource`: predators hunt, the rest walk to the closest
food tile, or wander. -/
def findFoodSource (sq : ℚ → ℚ) (m : EntityManager) (i : Nat) : EntityManager :=
  match m.entities[i]? with
  | none => m
  | some (e, _ai) =>
    if isPredator e.type then findPreyToHunt sq m i
    else
      let foodTiles := findTilesWithResource m.tiles .food
      if foodTiles.length > 0 then
        match m.entities[i]?, findClosestTile sq e foodTiles with
        | some (e, ai), some closestFoodTile =>
          setEnt m i (e,
            { ai with targetTile := some (closestFoodTile.x, closestFoodTile.y), currentState := .moving })
        | _, _ => m
      else moveRandomly m i

/-- `EntityAI.findSocialInteraction`: walk toward the closest living entity of
the same type (the target tile comes from the `getEntityTile` stub), or
wander. -/
def findSocialInteraction (sq : ℚ → ℚ) (m : EntityManager) (i : Nat) : EntityManager :=
  match m.entities[i]? with
  | none => m
  | some (e, ai) =>
    let socialEntities := m.tiles.flatMap (fun row => row.flatMap (fun tile =>
      (resolveEntities m tile.entities).filter
        (fun p => decide (p.type = e.type ∧ p.id ≠ e.id ∧ p.health > 0))))
    match findClosestEntity sq e socialEntities with
    | some closestEntity =>
      setEnt m i (e,
        { ai with targetEntity := some closestEntity.id,
                  targetTile := getEntityTile closestEntity, currentState := .moving })
    | none => moveRandomly m i

/-- `EntityAI.handleIdleState`: throttled decision making in the source's
priority order (thirst, hunger, rest, social/reproduction, random stroll). -/
def handleIdleState (sq : ℚ → ℚ) (m : EntityManager) (i : Nat) : EntityManager :=
  match m.entities[i]? with
  | none => m
  | some (e, ai) =>
    if ai.ticksSinceLastAction < 1 then m
    else
      let ai := { ai with ticksSinceLastAction := 0 }
      let m := setEnt m i (e, ai)
      if e.needs.thirst < 0.3 then findWaterSource sq m i
      else if e.needs.hunger < 0.3 then findFoodSource sq m i
      else if e.needs.rest < 0.2 then
        setEnt m i (e, { ai with currentState := .sleeping, ticksToNextStateChange := 5 })
      else if e.needs.social < 0.3 ∨ (e.needs.social > 0.7 ∧ canReproduce e) then
        findSocialInteraction sq m i
      else
        let res := nextRandom m
        if res.1 < 0.3 then moveRandomly res.2 i else res.2

/-- `EntityAI.arriveAtTarget`: dispatch on what was reached — water quenches
thirst, food starts gathering, a conspecific socialises and possibly starts
reproduction.  (The source's first test also compares the biome against the
literal string 'water', which is not a member of `BiomeType`.) -/
def arriveAtTarget (m : EntityManager) (i : Nat) : EntityManager :=
  match m.entities[i]? with
  | none => m
  | some (e, ai) =>
    match ai.targetTile with
    | none => setEnt m i (e, { ai with currentState := .idle })
    | some tt =>
      match gridGet? m.tiles tt.1 tt.2 with
      | none => setEnt m i (e, { ai with currentState := .idle })
      | some tile =>
        if tile.type = .shallow_water ∨ tile.type = .ocean ∨ tile.type = .river ∨ tile.type = .lake then
          setEnt m i ({ e with needs := { e.needs with thirst := 1.0 } }, { ai with currentState := .idle })
        else if tile.resources.any (fun r => decide (r.type = .food ∧ r.quantity > 0)) then
          setEnt m i (e, { ai with currentState := .gathering })
        else if (resolveEntities m tile.entities).any (fun p => decide (p.id ≠ e.id ∧ p.type = e.type)) then
          let e := { e with needs := { e.needs with social := 1.0 } }
          if canReproduce e &&
              (resolveEntities m tile.entities).any (fun p =>
                decide (p.id ≠ e.id ∧ p.type = e.type ∧ p.age ≥ p.maxAge * 0.3 ∧ p.age ≤ p.maxAge * 0.7)) then
            setEnt m i (e, { ai with currentState := .reproducing })
          else
            setEnt m i (e, { ai with currentState := .idle })
        else
          setEnt m i (e, { ai with currentState := .idle })

/-- `EntityAI.handleMovingState`: follow the path; snap to the next tile within
epsilon 0.1 and dispatch `arriveAtTarget` at the destination, otherwise advance
by `speed × 0.01` along the normalised direction.  (At distance exactly 0 the
source divides 0 by 0 giving NaN; in `ℚ` the division yields 0.) -/
def handleMovingState (sq : ℚ → ℚ) (m : EntityManager) (i : Nat) : EntityManager :=
  match m.entities[i]? with
  | none => m
  | some (e, ai) =>
    if ai.path = [] ∨ ai.targetTile = none then
      setEnt m i (e, { ai with currentState := .idle })
    else
      match ai.path with
      | [] => m
      | nextTile :: rest =>
        let dx := (nextTile.1 : ℚ) - e.position.x
        let dy := (nextTile.2 : ℚ) - e.position.y
        let distance := sq (dx * dx + dy * dy)
        if distance < 0.1 then
          let e := { e with position := { x := (nextTile.1 : ℚ), y := (nextTile.2 : ℚ) } }
          let ai := { ai with path := rest }
          let m := setEnt m i (e, ai)
          if rest = [] then
            if ai.targetTile = some nextTile then arriveAtTarget m i
            else setEnt m i (e, { ai with currentState := .idle })
          else m
        else
          let speed := e.attributes.speed * 0.01
          let normalizedDx := dx / distance
          let normalizedDy := dy / distance
          setEnt m i
            ({ e with position :=
                { x := e.position.x + normalizedDx * speed,
                  y := e.position.y + normalizedDy * speed } }, ai)

/-- `EntityAI.handleGatheringState`: after a short delay, move up to one unit
of the tile's first resource into the inventory, partially restore hunger for
food, drop depleted stacks, then return to idle. -/
def handleGatheringState (m : EntityManager) (i : Nat) : EntityManager :=
  match m.entities[i]? with
  | none => m
  | some (e, ai) =>
    if ai.ticksSinceLastAction < 2 then
      setEnt m i (e, { ai with ticksSinceLastAction := ai.ticksSinceLastAction + 0.1 })
    else
      match ai.targetTile with
      | none => setEnt m i (e, { ai with currentState := .idle })
      | some tt =>
        match gridGet? m.tiles tt.1 tt.2 with
        | none => setEnt m i (e, { ai with ticksSinceLastAction := 0, currentState := .idle })
        | some tile =>
          match tile.resources with
          | [] =>
            setEnt m i (e, { ai with ticksSinceLastAction := 0, currentState := .idle })
          | r0 :: rest =>
            let gatherAmount := min 1 r0.quantity
            let r0' := { r0 with quantity := r0.quantity - gatherAmount }
            let e :=
              if e.inventory.any (fun r => r.type = r0.type) then
                { e with inventory := addToFirst e.inventory r0.type gatherAmount }
              else
                { e with inventory := e.inventory ++ [{ type := r0.type, quantity := gatherAmount, discovered := true }] }
            let e :=
              if r0.type = .food then
                { e with needs := { e.needs with hunger := min 1 (e.needs.hunger + 0.3) } }
              else e
            let newResources :=
              if r0'.quantity ≤ 0 then (r0' :: rest).filter (fun r => decide (r.quantity > 0))
              else r0' :: rest
            let m := { m with tiles := updateTile m.tiles tt.1 tt.2 (fun t => { t with resources := newResources }) }
            setEnt m i (e, { ai with ticksSinceLastAction := 0, currentState := .idle })

/-- `EntityAI.handleHuntingState`: within strike range deal
`strength × 0.2` damage and tag the target "wounded" (a possible flee roll is
drawn and discarded); on a kill add 2 + ⌊random × 3⌋ food and go idle; out of
range fall back to `moving` toward the `getEntityTile` stub.  (A target whose
entry left the store is modelled as lost; the source would keep mutating the
detached object.) -/
def handleHuntingState (sq : ℚ → ℚ) (m : EntityManager) (i : Nat) : EntityManager :=
  match m.entities[i]? with
  | none => m
  | some (e, ai) =>
    match ai.targetEntity with
    | none => setEnt m i (e, { ai with currentState := .idle })
    | some tid =>
      match m.entities.find? (fun p => p.1.id = tid) with
      | none => setEnt m i (e, { ai with currentState := .idle })
      | some (target, _) =>
        let dx := target.position.x - e.position.x
        let dy := target.position.y - e.position.y
        let distanceToTarget := sq (dx * dx + dy * dy)
        if distanceToTarget < 1.0 then
          let damage := e.attributes.strength * 0.2
          let newHealth := target.health - damage
          let m := modifyEntityById m tid
            (fun t => { t with health := t.health - damage, status := t.status ++ ["wounded"] })
          let m := if newHealth < target.maxHealth * 0.3 then (nextRandom m).2 else m
          if newHealth ≤ 0 then
            let res := nextRandom m
            let m := res.2
            let foodAmount : ℚ := 2 + ((⌊res.1 * 3⌋ : ℤ) : ℚ)
            let e :=
              if e.inventory.any (fun r => r.type = ResourceType.food) then
                { e with inventory := addToFirst e.inventory .food foodAmount }
              else
                { e with inventory := e.inventory ++ [{ type := .food, quantity := foodAmount, discovered := true }] }
            setEnt m i (e, { ai with targetEntity := none, currentState := .idle })
          else m
        else
          setEnt m i (e, { ai with currentState := .moving, targetTile := getEntityTile target })

/-- `EntityAI.handleFleeingState`: move directly away from the threat at
`speed × 0.012`, drop back to idle beyond distance 10.  (At distance 0 the
source computes NaN; in `ℚ` the normalised direction is 0.) -/
def handleFleeingState (sq : ℚ → ℚ) (m : EntityManager) (i : Nat) : EntityManager :=
  match m.entities[i]? with
  | none => m
  | some (e, ai) =>
    match ai.targetEntity with
    | none => setEnt m i (e, { ai with currentState := .idle })
    | some tid =>
      match m.entities.find? (fun p => p.1.id = tid) with
      | none => setEnt m i (e, { ai with currentState := .idle })
      | some (target, _) =>
        let dx := e.position.x - target.position.x
        let dy := e.position.y - target.position.y
        let distance := sq (dx * dx + dy * dy)
        let normalizedDx := dx / distance
        let normalizedDy := dy / distance
        let speed := e.attributes.speed * 0.012
        let e :=
          { e with position :=
              { x := e.position.x + normalizedDx * speed,
                y := e.position.y + normalizedDy * speed } }
        if distance > 10 then
          setEnt m i (e, { ai with currentState := .idle, targetEntity := none })
        else
          setEnt m i (e, ai)

/-- `EntityAI.handleSleepingState`: count the sleep timer down, restore 0.1
rest (clamped to 1), wake to idle when the timer runs out. -/
def handleSleepingState (m : EntityManager) (i : Nat) : EntityManager :=
  match m.entities[i]? with
  | none => m
  | some (e, ai) =>
    let ai := { ai with ticksToNextStateChange := ai.ticksToNextStateChange - 1 }
    let e := { e with needs := { e.needs with rest := min 1.0 (e.needs.rest + 0.1) } }
    if ai.ticksToNextStateChange ≤ 0 then
      setEnt m i (e, { ai with currentState := .idle })
    else
      setEnt m i (e, ai)

/-- `EntityAI.handleBuildingState` is unimplemented: return to idle. -/
def handleBuildingState (m : EntityManager) (i : Nat) : EntityManager :=
  match m.entities[i]? with
  | none => m
  | some (e, ai) => setEnt m i (e, { ai with currentState := .idle })

/-- `EntityAI.handleReproducingState` is unimplemented: return to idle. -/
def handleReproducingState (m : EntityManager) (i : Nat) : EntityManager :=
  match m.entities[i]? with
  | none => m
  | some (e, ai) => setEnt m i (e, { ai with currentState := .idle })

/-- `EntityAI.handleDyingState`: push another "dead" tag while awaiting
removal. -/
def handleDyingState (m : EntityManager) (i : Nat) : EntityManager :=
  match m.entities[i]? with
  | none => m
  | some (e, ai) => setEnt m i ({ e with status := e.status ++ ["dead"] }, ai)

/-- `EntityAI.handleFightingState` delegates to the hunting logic. -/
def handleFightingState (sq : ℚ → ℚ) (m : EntityManager) (i : Nat) : EntityManager :=
  handleHuntingState sq m i

/-- `EntityAI.update`: accumulate the action timer, divert to `die` when
health is gone, otherwise decay needs and dispatch on the current state. -/
def EntityAI.update (sq : ℚ → ℚ) (m : EntityManager) (i : Nat) (deltaTime : ℚ) : EntityManager :=
  match m.entities[i]? with
  | none => m
  | some (e, ai) =>
    let ai := { ai with ticksSinceLastAction := ai.ticksSinceLastAction + deltaTime }
    let m := setEnt m i (e, ai)
    if e.health ≤ 0 then die m i
    else
      let m := modifyEntity m i (fun e => updateNeeds e deltaTime)
      match ai.currentState with
      | .idle => handleIdleState sq m i
      | .moving => handleMovingState sq m i
      | .gathering => handleGatheringState m i
      | .hunting => handleHuntingState sq m i
      | .fleeing => handleFleeingState sq m i
      | .building => handleBuildingState m i
      | .fighting => handleFightingState sq m i
      | .sleeping => handleSleepingState m i
      | .reproducing => handleReproducingState m i
      | .dying => handleDyingState m i

/-- `EntityManager.killEntity`: delete the entity (and its AI) from the store
and splice its id out of the occupancy list of the tile under its raw position.
(With a fractional or out-of-range position the source's `this.tiles[x][y]`
is `undefined` and the splice would throw; the model then skips the tile
update.)  The visualization-removal call is omitted. -/
def killEntity (m : EntityManager) (i : Nat) : EntityManager :=
  match m.entities[i]? with
  | none => m
  | some (e, _) =>
    let tileLookup := (jsIndexQ m.tiles e.position.x).bind (fun row => jsIndexQ row e.position.y)
    let m := { m with entities := m.entities.eraseIdx i }
    match tileLookup with
    | none => m
    | some tile =>
      { m with tiles := updateTile m.tiles tile.x tile.y (fun t => { t with entities := t.entities.erase e.id }) }

/-- `EntityManager.reproduceEntity`: below the type's population cap, filter
the tiles within range 2 of the parent through the suitability predicate
(threading the random stream through the filter, left to right), spawn a child
of the same type on a randomly chosen suitable tile, and tag the parent
"reproduced".  (The source arms a host `setTimeout` to drop the tag later;
that timer lives outside the tick model.) -/
def reproduceEntity (m : EntityManager) (i : Nat) : EntityManager :=
  match m.entities[i]? with
  | none => m
  | some (e, _) =>
    let entityCount := getEntityCountByType m e.type
    let maxCount := getMaxEntityCount m e.type
    if entityCount ≥ maxCount then m
    else
      let possibleTiles := getNearbyTiles m.tiles e.position.x e.position.y 2
      let filtered := possibleTiles.foldl
        (fun (acc : List Tile × List ℚ) t =>
          let res := isSuitableTileForEntity e.type t acc.2
          (if res.1 then acc.1 ++ [t] else acc.1, res.2))
        ([], m.rng)
      let suitableTiles := filtered.1
      let m := { m with rng := filtered.2 }
      if suitableTiles.length = 0 then m
      else
        let res := nextRandom m
        let m := res.2
        match suitableTiles[(⌊res.1 * suitableTiles.length⌋).toNat]? with
        | none => m
        | some chosenTile =>
          let spawned := spawnEntity m e.type chosenTile.x chosenTile.y
          let m := spawned.2
          modifyEntity m i (fun e => { e with status := e.status ++ ["reproduced"] })

/-- `EntityManager.processLifecycleEvents`: skip the undead types, age the
entity, then — in this order — kill on `age ≥ maxAge` ("old_age"), on a random
draw below `deathProbability × delta` ("random"), or on `health ≤ 0`
("health"); otherwise possibly reproduce when the age window and a second draw
allow it.  Returns the cause passed to `killEntity`, `none` when the entity
survived.  (The source also reads the tile under the entity into an unused
local.) -/
def processLifecycleEvents (m : EntityManager) (i : Nat) (delta : ℚ) :
    EntityManager × Option DeathCause :=
  match m.entities[i]? with
  | none => (m, none)
  | some (e, ai) =>
    if e.type = .skeleton ∨ e.type = .zombie then (m, none)
    else
      let e := { e with age := e.age + m.agingRate * delta }
      let m := setEnt m i (e, ai)
      if e.age ≥ e.maxAge then (killEntity m i, some .old_age)
      else
        let res := nextRandom m
        let m := res.2
        if res.1 < m.deathProbability * delta then (killEntity m i, some .random)
        else if e.health ≤ 0 then (killEntity m i, some .health)
        else
          let canRep := decide (e.age ≥ e.maxAge * 0.2 ∧ e.age ≤ e.maxAge * 0.8)
          let populationMultiplier := getPopulationDensityMultiplier m
          if canRep then
            let res2 := nextRandom m
            let m := res2.2
            if res2.1 < m.reproductionProbability * delta * populationMultiplier then
              (reproduceEntity m i, none)
            else (m, none)
          else (m, none)

/-- One iteration of the `EntityManager.update` loop body for the entry at
index `i`: run the entity's AI, then its lifecycle events.  The Boolean
records whether the entry was deleted.  (The per-entity visualization call is
omitted.) -/
def updateStep (sq : ℚ → ℚ) (m : EntityManager) (i : Nat) (delta : ℚ) :
    EntityManager × Bool :=
  let m := EntityAI.update sq m i delta
  let res := processLifecycleEvents m i delta
  (res.1, res.2.isSome)

/-- The `for (const [id, entity] of this.entities.entries())` loop of
`EntityManager.update` under JavaScript `Map` iteration semantics: entries are
visited in insertion order, an entry deleted mid-iteration (always the one
being processed, by `killEntity`) is simply gone, and entries appended
mid-iteration (children born by `reproduceEntity`) are visited before the loop
ends.  `i` is the position of the next unvisited entry; deleting the current
entry shifts the list left so the position stays, otherwise it advances. -/
def updateLoop (sq : ℚ → ℚ) : Nat → EntityManager → Nat → ℚ → EntityManager
  | 0, m, _, _ => m
  | fuel + 1, m, i, delta =>
    if i < m.entities.length then
      let res := updateStep sq m i delta
      updateLoop sq fuel res.1 (if res.2 then i else i + 1) delta
    else m

/-- Fuel that the population caps keep the update loop from ever exhausting:
spawns of each type are capped, kills and plain visits each consume a pending
entry. -/
def updateFuel (m : EntityManager) : Nat :=
  2 * m.entities.length +
    (allEntityTypes.map (fun ty => getMaxEntityCount m ty + m.entities.length)).sum + 1

/-- `EntityManager.update`: process every entity — AI first, then lifecycle —
in one pass over the entity map.  (`Date.now()` bookkeeping is omitted.) -/
def EntityManager.update (sq : ℚ → ℚ) (m : EntityManager) (delta : ℚ) : EntityManager :=
  updateLoop sq (updateFuel m) m 0 delta

/-- Grid coordinates used by the path finder; tiles are identified by their
position in the grid array (the source passes `Tile` references into that
array, and `tile.x`/`tile.y` are those coordinates). -/
abbrev GridPos := Nat × Nat

/-- `calculateHeuristic` from `src/utils/pathfinding.ts`: Manhattan distance
between the tiles' coordinates. -/
def calculateHeuristic (a b : GridPos) : ℚ :=
  |(a.1 : ℚ) - (b.1 : ℚ)| + |(a.2 : ℚ) - (b.2 : ℚ)|

/-- `getNeighbors` from `src/utils/pathfinding.ts` (the same 8-cell scan as the
AI's), on coordinates. -/
def neighborPositions (tiles : List (List Tile)) (p : GridPos) : List GridPos :=
  (List.range 3).flatMap (fun dxi =>
    (List.range 3).filterMap (fun dyi =>
      let dx : Int := dxi - 1
      let dy : Int := dyi - 1
      if dx = 0 ∧ dy = 0 then none
      else
        let nx := (p.1 : Int) + dx
        let ny := (p.2 : Int) + dy
        if 0 ≤ nx ∧ nx < tiles.length ∧ 0 ≤ ny ∧ ny < (tiles.headD []).length then
          some (nx.toNat, ny.toNat)
        else none))

/-- `getTerrainModifier` from `src/utils/pathfinding.ts`. -/
def getTerrainModifier (biomeType : BiomeType) (entityType : EntityType) : ℚ :=
  if entityType = .fish then
    if waterBiomes.contains biomeType then 1.0 else 20.0
  else if entityType = .bird then 1.0
  else
    match biomeType with
    | .deep_ocean | .ocean => 20.0
    | .shallow_water | .river | .lake => 5.0
    | .beach | .rocky_shore => 1.5
    | .mountains | .snow | .glacier => 3.0
    | .hills | .volcanic => 2.0
    | .desert | .badlands => 1.5
    | .swamp | .marsh => 2.5
    | .grassland | .savanna => 1.0
    | .deciduous_forest | .coniferous_forest | .taiga
    | .rainforest | .tropical_forest | .enchanted_forest => 1.3
    | _ => 1.0

/-- `getMovementCost` from `src/utils/pathfinding.ts`: diagonal 1.4 vs
orthogonal 1, scaled by the terrain modifier of the destination, plus twice
the height difference. -/
def getMovementCost (a b : Tile) (entityType : EntityType) : ℚ :=
  let cost : ℚ := if a.x ≠ b.x ∧ a.y ≠ b.y then 1.4 else 1
  let cost := cost * getTerrainModifier b.type entityType
  cost + |b.height - a.height| * 2

/-- `isWalkableForEntity` from `src/utils/pathfinding.ts`. -/
def isWalkableForEntity (tile : Tile) (entityType : EntityType) : Bool :=
  if tile.walkable = false then false
  else if entityType = .fish then waterBiomes.contains tile.type
  else if entityType = .bird then true
  else if entityType = .dragon then true
  else if [BiomeType.deep_ocean, .ocean].contains tile.type then false
  else true

/-- The per-search A* bookkeeping: the source stores `gCost`/`hCost`/`fCost`/
`parent` on the tiles and resets them all before every search, so they are
modelled as finite maps that start empty. -/
structure SearchState where
  openSet : List GridPos
  closedSet : List GridPos
  gCost : GridPos → Option ℚ
  hCost : GridPos → Option ℚ
  fCost : GridPos → Option ℚ
  parent : GridPos → Option GridPos

/-- The JavaScript expression `(x || Infinity)` applied to an optional cost:
`undefined` — and, `0` being falsy, also the cost `0` — becomes `Infinity`. -/
def jsOrInf (v : Option ℚ) : WithTop ℚ :=
  match v with
  | none => ⊤
  | some q => if q = 0 then ⊤ else (q : WithTop ℚ)

/-- The lowest-f-cost scan of `findPath` (starting from index 0, ties broken
toward the lower h cost, otherwise toward the earlier index). -/
def findLowestAux (fC hC : GridPos → Option ℚ) :
    List GridPos → Nat → Nat × GridPos → Nat × GridPos
  | [], _, best => best
  | p :: rest, i, best =>
    let best :=
      if jsOrInf (fC p) < jsOrInf (fC best.2) then (i, p)
      else if jsOrInf (fC p) = jsOrInf (fC best.2) ∧ jsOrInf (hC p) < jsOrInf (hC best.2) then (i, p)
      else best
    findLowestAux fC hC rest (i + 1) best

/-- The index (and position) of the open-set entry the source's selection loop
settles on. -/
def findLowestIndex (openSet : List GridPos) (fC hC : GridPos → Option ℚ) :
    Nat × GridPos :=
  match openSet with
  | [] => (0, (0, 0))
  | p0 :: rest => findLowestAux fC hC rest 1 (0, p0)

/-- The body of the neighbour loop of `findPath`: skip closed or
non-traversable neighbours, otherwise relax the tentative g cost
(`(currentTile.gCost || 0) + cost`), update the cost fields and parent, and
push genuinely new tiles onto the open set. -/
def processNeighbor (tiles : List (List Tile)) (entityType : EntityType)
    (target current : GridPos) (st : SearchState) (n : GridPos) : SearchState :=
  if st.closedSet.contains n then st
  else
    match gridGet? tiles n.1 n.2, gridGet? tiles current.1 current.2 with
    | some ntile, some ctile =>
      if isWalkableForEntity ntile entityType = false then st
      else
        let tentativeGCost := (st.gCost current).getD 0 + getMovementCost ctile ntile entityType
        let isNewPath := st.openSet.contains n = false
        if isNewPath ∨ (tentativeGCost : WithTop ℚ) < jsOrInf (st.gCost n) then
          let h := calculateHeuristic n target
          let st :=
            { st with
                gCost := fun p => if p = n then some tentativeGCost else st.gCost p,
                hCost := fun p => if p = n then some h else st.hCost p,
                fCost := fun p => if p = n then some (tentativeGCost + h) else st.fCost p,
                parent := fun p => if p = n then some current else st.parent p }
          if isNewPath then { st with openSet := st.openSet ++ [n] } else st
        else st
    | _, _ => st

/-- `reconstructPath`: follow the parent chain, building the list front-first
(the source unshifts into an array).  The fuel is instantiated with a bound on
the chain length. -/
def reconstructPath (parent : GridPos → Option GridPos) : Nat → GridPos → List GridPos
  | 0, t => [t]
  | fuel + 1, t =>
    match parent t with
    | none => [t]
    | some p => reconstructPath parent fuel p ++ [t]

/-- The main loop of `findPath`: pick the open tile with the lowest f cost,
return the reconstructed path when it is the target, otherwise move it to the
closed set and relax its neighbours. -/
def aStarLoop (tiles : List (List Tile)) (entityType : EntityType) (target : GridPos) :
    Nat → SearchState → List GridPos
  | 0, _ => []
  | fuel + 1, st =>
    if st.openSet.isEmpty then []
    else
      let sel := findLowestIndex st.openSet st.fCost st.hCost
      let current := sel.2
      if current = target then reconstructPath st.parent (st.closedSet.length + 1) current
      else
        let st := { st with openSet := st.openSet.eraseIdx sel.1, closedSet := st.closedSet ++ [current] }
        let st := (neighborPositions tiles current).foldl
          (fun st n => processNeighbor tiles entityType target current st n) st
        aStarLoop tiles entityType target fuel st

/-- The number of tiles of the grid (bounds the number of loop iterations). -/
def totalTiles (tiles : List (List Tile)) : Nat :=
  (tiles.map List.length).sum

/-- `findPath` from `src/utils/pathfinding.ts`: reset per-tile search fields
(the fresh `SearchState`), seed the open set with the start tile and its
heuristic costs, and run the A* loop.  Returns the tile sequence from start to
target, or `[]` when the search exhausts the open set. -/
def findPath (tiles : List (List Tile)) (startTile targetTile : GridPos)
    (entityType : EntityType) : List GridPos :=
  let h0 := calculateHeuristic startTile targetTile
  let st : SearchState :=
    { openSet := [startTile], closedSet := [],
      gCost := fun p => if p = startTile then some 0 else none,
      hCost := fun p => if p = startTile then some h0 else none,
      fCost := fun p => if p = startTile then some h0 else none,
      parent := fun _ => none }
  aStarLoop tiles entityType targetTile (totalTiles tiles + 1) st

/-- A plain tile for concrete scenarios. -/
def mkTile (x y : Nat) (b : BiomeType) (h : ℚ) (w : Bool) : Tile :=
  { x := x, y := y, type := b, height := h, walkable := w, resources := [], entities := [] }

/-- A 1×1 grassland world with no entities (medium density defaults). -/
def grassMgr : EntityManager :=
  { entities := [], tiles := [[mkTile 0 0 .grassland 0.5 true]],
    entityPopulationDensity := .medium,
    reproductionProbability := 0.001, deathProbability := 0.0005, agingRate := 0.01,
    nextId := 0, rng := [0.5, 0.5, 0.5] }

/-- An ocean tile (walkable flag set, as for any water tile the generator marks
swimmable). -/
def oceanTileEx : Tile := mkTile 0 0 .ocean 0.1 true

/-- C5 counterexample.  The claim says `spawnEntity('fish', x, y)` returns null
on every grassland tile; on this walkable grassland tile of height 0.5 the
spawn succeeds. -/
theorem fish_spawns_on_grassland_counterexample :
    (gridGet? grassMgr.tiles 0 0).map Tile.type = some BiomeType.grassland ∧
    (gridGet? grassMgr.tiles 0 0).map Tile.walkable = some true ∧
    (spawnEntity grassMgr .fish 0 0).1.isSome = true := by
  refine ⟨by simp [grassMgr, gridGet?, mkTile], by simp [grassMgr, gridGet?, mkTile], ?_⟩
  norm_num +decide [spawnEntity, grassMgr, gridGet?, mkTile, isSuitableTileForEntity,
    BiomeType.nameIncludesForest, createEntity, generateEntityName, entityNames]

/-- C5 amended: on a grassland tile the suitability predicate for a fish is
exactly `walkable ∧ height > 0.25` (the fall-through land rule), with no
random draw consumed, so `spawnEntity('fish', ·)` succeeds on any walkable
grassland tile of height above 0.25 and fails only below. -/
theorem fish_on_grassland_suitability (tile : Tile) (rng : List ℚ)
    (h : tile.type = .grassland) :
    isSuitableTileForEntity .fish tile rng
      = (tile.walkable && decide (tile.height > 0.25), rng) := by
  unfold isSuitableTileForEntity
  rcases tile with ⟨x, y, ty, ht, w, res, ents⟩
  simp only at h
  subst h
  cases w <;> simp

/-- C5 amended, witness at a concrete tile and stream. -/
theorem fish_on_grassland_suitability_witness :
    isSuitableTileForEntity .fish (mkTile 0 0 .grassland 0.5 true) [0.7]
      = (true, [0.7]) := by
  have h := fish_on_grassland_suitability (mkTile 0 0 .grassland 0.5 true) [0.7] (by simp [mkTile])
  rw [h]
  norm_num [mkTile]

/-- A human with exhausted health and an age past its maximum. -/
def deadOldHuman : Entity :=
  { id := 0, type := .human, name := "Alex", age := 100, maxAge := 80,
    health := 0, maxHealth := 100,
    position := { x := 0, y := 0 },
    attributes := { strength := 10, intelligence := 15, speed := 10, resilience := 10 },
    needs := { hunger := 1, thirst := 1, rest := 1, social := 1 },
    inventory := [], status := [] }

/-- A world holding only `deadOldHuman`. -/
def lifecycleMgr : EntityManager :=
  { entities := [(deadOldHuman, initEntityAI)],
    tiles := [[mkTile 0 0 .grassland 0.5 true]],
    entityPopulationDensity := .medium,
    reproductionProbability := 0.001, deathProbability := 0.0005, agingRate := 0.01,
    nextId := 1, rng := [0.9, 0.9] }

/-- C2 counterexample.  The claim says an entity with both `health ≤ 0` and
`age ≥ maxAge` is removed with cause "health"; the code checks old age first
and removes this entity with cause "old_age". -/
theorem death_cause_counterexample :
    deadOldHuman.health ≤ 0 ∧ deadOldHuman.age ≥ deadOldHuman.maxAge ∧
    (processLifecycleEvents lifecycleMgr 0 1).2 = some DeathCause.old_age ∧
    some DeathCause.old_age ≠ some DeathCause.health := by
  norm_num +decide [processLifecycleEvents, lifecycleMgr, deadOldHuman, initEntityAI,
    setEnt, killEntity, nextRandom, mkTile, jsIndexQ, updateTile]

/-- C2 amended: for a non-undead entity the death causes are evaluated, after
ageing by `agingRate × delta`, in the fixed priority order (a) aged
`age ≥ maxAge` → "old_age", (b) random draw `< deathProbability × delta` →
"random", (c) `health ≤ 0` → "health"; the first satisfied cause wins and
removes the entity, so an entity with both `health ≤ 0` and `age ≥ maxAge` is
removed with cause "old_age", and an entity with `health ≤ 0` is removed
whatever the other checks say. -/
theorem death_cause_priority (m : EntityManager) (i : Nat) (e : Entity) (ai : EntityAI)
    (delta : ℚ) (h : m.entities[i]? = some (e, ai))
    (hty : e.type ≠ .skeleton ∧ e.type ≠ .zombie) :
    (e.age + m.agingRate * delta ≥ e.maxAge →
        (processLifecycleEvents m i delta).2 = some .old_age) ∧
    (¬ e.age + m.agingRate * delta ≥ e.maxAge →
        m.rng.headD 0 < m.deathProbability * delta →
        (processLifecycleEvents m i delta).2 = some .random) ∧
    (¬ e.age + m.agingRate * delta ≥ e.maxAge →
        ¬ m.rng.headD 0 < m.deathProbability * delta → e.health ≤ 0 →
        (processLifecycleEvents m i delta).2 = some .health) ∧
    (e.health ≤ 0 ∧ e.age + m.agingRate * delta ≥ e.maxAge →
        (processLifecycleEvents m i delta).2 = some .old_age) ∧
    (e.health ≤ 0 → (processLifecycleEvents m i delta).1.entities.length + 1
        = m.entities.length) := by
  have hi : i < m.entities.length := (List.getElem?_eq_some.mp h).1
  have hkill : ∀ m' : EntityManager, m'.entities.length = m.entities.length →
      m'.entities[i]? = some ({ e with age := e.age + m.agingRate * delta }, ai) →
      (killEntity m' i).entities.length + 1 = m.entities.length := by
    intro m' hlen h'
    unfold killEntity
    rw [h']
    have hi' : i < m'.entities.length := hlen ▸ hi
    simp only []
    split
    · simp [List.length_eraseIdx, hi, hi', hlen]
      omega
    · simp [List.length_eraseIdx, hi, hi', hlen]
      omega
  unfold processLifecycleEvents
  simp only [h]
  have hnot : ¬ (e.type = .skeleton ∨ e.type = .zombie) := by
    rintro (hc | hc)
    · exact hty.1 hc
    · exact hty.2 hc
  rw [if_neg hnot]
  set ma := { m with entities := m.entities.set i ({ e with age := e.age + m.agingRate * delta }, ai) } with hma
  have hlen : ma.entities.length = m.entities.length := by simp [hma]
  have hget : ma.entities[i]? = some ({ e with age := e.age + m.agingRate * delta }, ai) := by
    simp [hma, List.getElem?_set_self, hi]
  constructor
  · intro hage
    simp only [setEnt, nextRandom]
    rw [if_pos (by simpa using hage)]
  constructor
  · intro hage hroll
    simp only [setEnt, nextRandom]
    rw [if_neg (by simpa using hage), if_pos (by simpa using hroll)]
  constructor
  · intro hage hroll hh
    simp only [setEnt, nextRandom]
    rw [if_neg (by simpa using hage), if_neg (by simpa using hroll), if_pos (by simpa using hh)]
  constructor
  · intro hboth
    simp only [setEnt, nextRandom]
    rw [if_pos (by simpa using hboth.2)]
  · intro hh
    simp only [setEnt, nextRandom]
    by_cases hage : e.age + m.agingRate * delta ≥ e.maxAge
    · rw [if_pos (by simpa using hage)]
      exact hkill ma hlen hget
    · rw [if_neg (by simpa using hage)]
      by_cases hroll : m.rng.headD 0 < m.deathProbability * delta
      · rw [if_pos (by simpa using hroll)]
        exact hkill { ma with rng := ma.rng.tail } (by simp [hlen]) (by simp [hget])
      · rw [if_neg (by simpa using hroll), if_pos (by simpa using hh)]
        exact hkill { ma with rng := ma.rng.tail } (by simp [hlen]) (by simp [hget])

/-- C2 amended, witness: the dead and over-aged human is removed with cause
"old_age". -/
theorem death_cause_priority_witness :
    (processLifecycleEvents lifecycleMgr 0 1).2 = some DeathCause.old_age :=
  (death_cause_priority lifecycleMgr 0 deadOldHuman initEntityAI 1
      (by simp [lifecycleMgr]) (by simp [deadOldHuman])).1
    (by norm_num [deadOldHuman, lifecycleMgr])

/-- The grassland world with a random stream whose first draw is below 0.2. -/
def zombieMgrA : EntityManager := { grassMgr with rng := [0.1, 0.5] }

/-- The same world, the first draw at or above 0.2. -/
def zombieMgrB : EntityManager := { grassMgr with rng := [0.3, 0.5] }

/-- C10 counterexample.  The claim says the predicate consults the random
source on any non-corrupted tile; on this (non-corrupted) ocean tile the
zombie suitability is decided deterministically — the water branch fires
before the zombie branch — so no draw is consulted and the result is `false`
for every stream. -/
theorem zombie_suitability_deterministic_on_ocean :
    oceanTileEx.type ≠ BiomeType.corrupted ∧
    (fun rng : List ℚ => isSuitableTileForEntity .zombie oceanTileEx rng)
      = (fun rng => (false, rng)) := by
  constructor
  · simp [oceanTileEx, mkTile]
  · funext rng
    simp [isSuitableTileForEntity, oceanTileEx, mkTile]

-- For every type other than zombie or skeleton the spawn suitability
-- predicate neither reads nor consumes the random stream.
set_option maxHeartbeats 1000000 in
theorem suitability_no_draw_of_not_undead (ty : EntityType) (h1 : ty ≠ .zombie)
    (h2 : ty ≠ .skeleton) (tile : Tile) (r1 r2 : List ℚ) :
    (isSuitableTileForEntity ty tile r1).1 = (isSuitableTileForEntity ty tile r2).1 ∧
    (isSuitableTileForEntity ty tile r1).2 = r1 := by
  cases ty
  case zombie => exact absurd rfl h1
  case skeleton => exact absurd rfl h2
  all_goals
    refine ⟨?_, ?_⟩ <;>
      simp [isSuitableTileForEntity, apply_ite Prod.fst, apply_ite Prod.snd, ite_self]

/-- The suitability draw for a zombie on the grassland tile, below 0.2. -/
theorem zombie_suit_A :
    isSuitableTileForEntity .zombie (mkTile 0 0 .grassland (1/2) true) [1/10, 1/2]
      = (true, [1/2]) := by
  unfold isSuitableTileForEntity
  norm_num +decide [mkTile, decide_eq_true_eq]

/-- The suitability draw for a zombie on the grassland tile, at 0.3. -/
theorem zombie_suit_B :
    isSuitableTileForEntity .zombie (mkTile 0 0 .grassland (1/2) true) [3/10, 1/2]
      = (false, [1/2]) := by
  unfold isSuitableTileForEntity
  norm_num +decide [mkTile, decide_eq_true_eq]

/-- C10 amended: the zombie/skeleton suitability consults the random source
exactly on walkable, non-water, non-corrupted tiles, where it returns
`draw < 0.2`; for every other entity type the predicate is a function of the
type and the tile alone (it neither reads nor consumes the stream); and two
`spawnEntity` calls for a zombie with identical arguments on stores that are
identical apart from the random stream can return a non-null entity and null
respectively. -/
theorem zombie_suitability_randomness (tile : Tile) (rng : List ℚ)
    (hw : tile.walkable = true) (hwater : ¬ tile.type ∈ waterBiomes)
    (hcor : tile.type ≠ .corrupted) :
    (∀ ty, ty = EntityType.zombie ∨ ty = EntityType.skeleton →
      isSuitableTileForEntity ty tile rng = (decide (rng.headD 0 < 0.2), rng.tail)) ∧
    (∀ ty : EntityType, ty ≠ .zombie → ty ≠ .skeleton → ∀ tile' : Tile, ∀ r1 r2 : List ℚ,
      (isSuitableTileForEntity ty tile' r1).1 = (isSuitableTileForEntity ty tile' r2).1 ∧
      (isSuitableTileForEntity ty tile' r1).2 = r1) ∧
    (spawnEntity zombieMgrA .zombie 0 0).1.isSome = true ∧
    (spawnEntity zombieMgrB .zombie 0 0).1.isSome = false ∧
    zombieMgrB = { zombieMgrA with rng := [0.3, 0.5] } := by
  refine ⟨?_, ?_, ?_, ?_, rfl⟩
  · intro ty hty
    simp [waterBiomes] at hwater
    unfold isSuitableTileForEntity
    rcases hty with h | h <;> subst h <;>
      simp [hw, hwater.1, hwater.2.1, hwater.2.2.1, hwater.2.2.2.1, hwater.2.2.2.2, hcor]
  · intro ty h1 h2 tile' r1 r2
    exact suitability_no_draw_of_not_undead ty h1 h2 tile' r1 r2
  · unfold spawnEntity
    norm_num +decide [zombieMgrA, grassMgr, gridGet?, zombie_suit_A]
  · unfold spawnEntity
    norm_num +decide [zombieMgrB, grassMgr, gridGet?, zombie_suit_B]

/-- C10 amended, witness on a concrete walkable grassland tile. -/
theorem zombie_suitability_randomness_witness :
    (∀ ty, ty = EntityType.zombie ∨ ty = EntityType.skeleton →
      isSuitableTileForEntity ty (mkTile 0 0 .grassland 0.5 true) [0.1]
        = (decide (([0.1] : List ℚ).headD 0 < 0.2), ([0.1] : List ℚ).tail)) ∧
    (∀ ty : EntityType, ty ≠ .zombie → ty ≠ .skeleton → ∀ tile' : Tile, ∀ r1 r2 : List ℚ,
      (isSuitableTileForEntity ty tile' r1).1 = (isSuitableTileForEntity ty tile' r2).1 ∧
      (isSuitableTileForEntity ty tile' r1).2 = r1) ∧
    (spawnEntity zombieMgrA .zombie 0 0).1.isSome = true ∧
    (spawnEntity zombieMgrB .zombie 0 0).1.isSome = false ∧
    zombieMgrB = { zombieMgrA with rng := [0.3, 0.5] } :=
  zombie_suitability_randomness (mkTile 0 0 .grassland 0.5 true) [0.1]
    (by simp [mkTile]) (by simp [mkTile, waterBiomes]) (by simp [mkTile])

/-- C1 (confirmed): a spawn request with out-of-bounds coordinates or at a
tile that fails the suitability predicate (under the ambient random stream)
returns null, and the set of entities owned by the manager is unchanged; the
embedded `spawnEntity` is a total function, so no exception is involved. -/
theorem spawnEntity_invalid_returns_null (m : EntityManager) (ty : EntityType)
    (x y : Int)
    (h : (x < 0 ∨ x ≥ m.tiles.length ∨ y < 0 ∨ y ≥ (m.tiles.headD []).length) ∨
      (∃ tile, gridGet? m.tiles x.toNat y.toNat = some tile ∧
        (isSuitableTileForEntity ty tile m.rng).1 = false)) :
    (spawnEntity m ty x y).1 = none ∧ (spawnEntity m ty x y).2.entities = m.entities := by
  unfold spawnEntity
  by_cases hb : x < 0 ∨ x ≥ m.tiles.length ∨ y < 0 ∨ y ≥ (m.tiles.headD []).length
  · rw [if_pos hb]
    exact ⟨rfl, rfl⟩
  · rw [if_neg hb]
    rcases h with h | ⟨tile, hget, hsuit⟩
    · exact absurd h hb
    · rw [hget]
      simp [hsuit]

/-- C1, witness: an out-of-bounds spawn on the 1×1 grassland world. -/
theorem spawnEntity_invalid_returns_null_witness :
    (spawnEntity grassMgr .human (-1) 0).1 = none ∧
    (spawnEntity grassMgr .human (-1) 0).2.entities = grassMgr.entities :=
  spawnEntity_invalid_returns_null grassMgr .human (-1) 0 (Or.inl (by norm_num))

/-- `createEntity` yields an entity of the requested type. -/
theorem createEntity_type (ty : EntityType) (x y : ℚ) (nid : Nat) (rng : List ℚ) :
    (createEntity ty x y nid rng).1.type = ty := by
  cases ty <;> rfl

/-- `spawnEntity` never changes the density setting. -/
theorem spawnEntity_density (m : EntityManager) (ty : EntityType) (x y : Int) :
    (spawnEntity m ty x y).2.entityPopulationDensity = m.entityPopulationDensity := by
  simp only [spawnEntity]
  split
  · rfl
  · split
    · rfl
    · split <;> rfl

/-- `spawnEntity` either leaves the entity map unchanged or appends exactly one
entity of the requested type. -/
theorem spawnEntity_entities (m : EntityManager) (ty : EntityType) (x y : Int) :
    (spawnEntity m ty x y).2.entities = m.entities ∨
    ∃ e, (spawnEntity m ty x y).2.entities = m.entities ++ [(e, initEntityAI)] ∧
      e.type = ty := by
  simp only [spawnEntity]
  split
  · exact Or.inl rfl
  · split
    · exact Or.inl rfl
    · split
      · exact Or.inl rfl
      · exact Or.inr ⟨_, rfl, createEntity_type ..⟩

/-- Replacing an element without changing the counted property keeps `countP`. -/
theorem countP_set_congr {α : Type} (l : List α) (i : Nat) (a b : α) (p : α → Bool)
    (h : l[i]? = some a) (hpb : p b = p a) : (l.set i b).countP p = l.countP p := by
  induction l generalizing i with
  | nil => simp at h
  | cons hd tl ih =>
    cases i with
    | zero =>
      simp at h
      subst h
      simp [List.countP_cons, hpb]
    | succ j =>
      simp at h
      simp [List.countP_cons, ih j h]

/-- `modifyEntity` with a type-preserving mutation keeps every type count. -/
theorem getEntityCountByType_modifyEntity (m : EntityManager) (i : Nat)
    (f : Entity → Entity) (τ : EntityType) (hf : ∀ e, (f e).type = e.type) :
    getEntityCountByType (modifyEntity m i f) τ = getEntityCountByType m τ := by
  simp only [modifyEntity]
  split
  · rfl
  · rename_i e ai h
    unfold getEntityCountByType setEnt
    exact countP_set_congr m.entities i (e, ai) (f e, ai) _ h (by simp [hf])

/-- `modifyEntity` never changes the density setting. -/
theorem modifyEntity_density (m : EntityManager) (i : Nat) (f : Entity → Entity) :
    (modifyEntity m i f).entityPopulationDensity = m.entityPopulationDensity := by
  simp only [modifyEntity]
  split <;> rfl

/-- The population cap only reads the density setting. -/
theorem getMaxEntityCount_congr (m m' : EntityManager) (ty : EntityType)
    (h : m'.entityPopulationDensity = m.entityPopulationDensity) :
    getMaxEntityCount m' ty = getMaxEntityCount m ty := by
  unfold getMaxEntityCount
  rw [h]

/-- `reproduceEntity` never changes the density setting. -/
theorem reproduceEntity_density (m : EntityManager) (i : Nat) :
    (reproduceEntity m i).entityPopulationDensity = m.entityPopulationDensity := by
  simp only [reproduceEntity]
  split
  · rfl
  · split
    · rfl
    · split
      · rfl
      · split
        · rfl
        · rw [modifyEntity_density, spawnEntity_density]
          rfl

/-- `spawnEntity` keeps a type count below a bound when the bound was strict
for the spawned type. -/
theorem spawnEntity_count_le (m : EntityManager) (ty τ : EntityType) (x y : Int)
    (cap : Nat) (h : getEntityCountByType m τ ≤ cap)
    (hlt : τ = ty → getEntityCountByType m τ < cap) :
    getEntityCountByType (spawnEntity m ty x y).2 τ ≤ cap := by
  rcases spawnEntity_entities m ty x y with hsp | ⟨child, hsp, hty⟩
  · unfold getEntityCountByType at h ⊢
    rw [hsp]
    exact h
  · unfold getEntityCountByType at h hlt ⊢
    rw [hsp, List.countP_append]
    by_cases hττ : τ = ty
    · have hstrict := hlt hττ
      have : List.countP (fun p => decide (p.1.type = τ)) [(child, initEntityAI)] ≤ 1 := by
        simp only [List.countP_cons, List.countP_nil]
        split_ifs <;> omega
      omega
    · have : List.countP (fun p => decide (p.1.type = τ)) [(child, initEntityAI)] = 0 := by
        simp [List.countP_cons, hty]
        exact fun hh => absurd hh.symm hττ
      omega

/-- One reproduction event keeps every type count within the cap: at capacity
it spawns nothing, below capacity it adds at most one entity of the parent's
type. -/
theorem reproduceEntity_count_le (m : EntityManager) (i : Nat) (τ : EntityType)
    (h : getEntityCountByType m τ ≤ getMaxEntityCount m τ) :
    getEntityCountByType (reproduceEntity m i) τ ≤ getMaxEntityCount m τ := by
  simp only [reproduceEntity]
  split
  · exact h
  · rename_i e ai hei
    split
    · exact h
    · split
      · exact h
      · split
        · exact h
        · rename_i hcap hsuit hchosen
          rw [getEntityCountByType_modifyEntity _ _
              (fun e0 => { e0 with status := e0.status ++ ["reproduced"] }) τ (fun _ => rfl)]
          apply spawnEntity_count_le
          · exact h
          · intro hττ
            subst hττ
            have hlt2 : ¬ getEntityCountByType m e.type ≥ getMaxEntityCount m e.type := by
              assumption
            show getEntityCountByType m e.type < getMaxEntityCount m e.type
            omega

/-- C3 (confirmed): starting within capacity, no sequence of reproduction
events ever pushes the count of a type above `getMaxEntityCount` for the
prevailing (unchanged) density setting; and for humans the cap is
⌊100 × 0.5⌋ = 50 at low density and ⌊100 × 2⌋ = 200 at high density. -/
theorem population_capacity_invariant (m0 : EntityManager) (events : List Nat)
    (τ : EntityType)
    (h : getEntityCountByType m0 τ ≤ getMaxEntityCount m0 τ) :
    getEntityCountByType (events.foldl reproduceEntity m0) τ
      ≤ getMaxEntityCount (events.foldl reproduceEntity m0) τ ∧
    (∀ m : EntityManager, m.entityPopulationDensity = .low →
        getMaxEntityCount m .human = 50) ∧
    (∀ m : EntityManager, m.entityPopulationDensity = .high →
        getMaxEntityCount m .human = 200) := by
  refine ⟨?_, ?_, ?_⟩
  · induction events generalizing m0 with
    | nil => exact h
    | cons i rest ih =>
      simp only [List.foldl_cons]
      apply ih
      rw [getMaxEntityCount_congr m0 (reproduceEntity m0 i) τ (reproduceEntity_density m0 i)]
      exact reproduceEntity_count_le m0 i τ h
  · intro m hm
    unfold getMaxEntityCount baseMaxCounts
    rw [hm]
    norm_num
    decide
  · intro m hm
    unfold getMaxEntityCount baseMaxCounts
    rw [hm]
    norm_num
    decide

/-- C3, witness: one reproduction event on the empty grassland world. -/
theorem population_capacity_invariant_witness :
    getEntityCountByType (([0] : List Nat).foldl reproduceEntity grassMgr) .human
      ≤ getMaxEntityCount (([0] : List Nat).foldl reproduceEntity grassMgr) .human ∧
    (∀ m : EntityManager, m.entityPopulationDensity = .low →
        getMaxEntityCount m .human = 50) ∧
    (∀ m : EntityManager, m.entityPopulationDensity = .high →
        getMaxEntityCount m .human = 200) :=
  population_capacity_invariant grassMgr [0] .human
    (by norm_num [getEntityCountByType, grassMgr, getMaxEntityCount, baseMaxCounts])

/-- All four needs lie in [0,1]. -/
def needs01 (e : Entity) : Prop :=
  0 ≤ e.needs.hunger ∧ e.needs.hunger ≤ 1 ∧
  0 ≤ e.needs.thirst ∧ e.needs.thirst ≤ 1 ∧
  0 ≤ e.needs.rest ∧ e.needs.rest ≤ 1 ∧
  0 ≤ e.needs.social ∧ e.needs.social ≤ 1

/-- Every stored id is below the fresh-id counter (uuid freshness). -/
def Fresh (m : EntityManager) : Prop :=
  ∀ p ∈ m.entities, p.1.id < m.nextId

/-- The stored ids are pairwise distinct (uuid uniqueness). -/
def IdsNodup (m : EntityManager) : Prop :=
  (m.entities.map (fun p => p.1.id)).Nodup

/-- Well-formedness that every code-created store satisfies: fresh unique ids
and non-negative strengths. -/
def Good (m : EntityManager) : Prop :=
  Fresh m ∧ IdsNodup m ∧ ∀ p ∈ m.entities, 0 ≤ p.1.attributes.strength

/-- How one tick step may transform a single surviving entity: identity,
type, bounds and attributes are preserved, health never rises above
`max health 0`, needs stay in [0,1], and at `dt = 0` the age is untouched. -/
def Tracked (delta : ℚ) (e e' : Entity) : Prop :=
  e'.id = e.id ∧ e'.type = e.type ∧ e'.maxHealth = e.maxHealth ∧
  e'.maxAge = e.maxAge ∧ e'.attributes = e.attributes ∧
  e'.health ≤ max e.health 0 ∧
  (needs01 e → needs01 e') ∧
  (delta = 0 → e'.age = e.age)

/-- The composable contract of every sub-step of the per-tick update:
needs stay in [0,1] across the step, undead entities are never deleted, and
(on a well-formed store) surviving old entities evolve by `Tracked`. -/
def StepOK (delta : ℚ) (a b : EntityManager) : Prop :=
  ((∀ p ∈ a.entities, needs01 p.1) → ∀ p' ∈ b.entities, needs01 p'.1) ∧
  (∀ p ∈ a.entities, p.1.type = .zombie ∨ p.1.type = .skeleton →
      ∃ p' ∈ b.entities, p'.1.id = p.1.id ∧ p'.1.type = p.1.type) ∧
  (Good a → Good b ∧ a.nextId ≤ b.nextId ∧
      ∀ p' ∈ b.entities, p'.1.id < a.nextId →
        ∃ p ∈ a.entities, p.1.id = p'.1.id ∧ Tracked delta p.1 p'.1)

theorem tracked_refl (delta : ℚ) (e : Entity) : Tracked delta e e :=
  ⟨rfl, rfl, rfl, rfl, rfl, le_max_left _ _, id, fun _ => rfl⟩

theorem tracked_trans {delta : ℚ} {a b c : Entity}
    (h1 : Tracked delta a b) (h2 : Tracked delta b c) : Tracked delta a c := by
  obtain ⟨i1, t1, mh1, ma1, at1, h1h, n1, ag1⟩ := h1
  obtain ⟨i2, t2, mh2, ma2, at2, h2h, n2, ag2⟩ := h2
  refine ⟨i2.trans i1, t2.trans t1, mh2.trans mh1, ma2.trans ma1, at2.trans at1, ?_,
    fun hn => n2 (n1 hn), fun hz => (ag2 hz).trans (ag1 hz)⟩
  exact h2h.trans (max_le (h1h.trans (le_refl _)) (le_max_right _ _))

theorem stepOK_refl (delta : ℚ) (m : EntityManager) : StepOK delta m m := by
  refine ⟨fun h => h, fun p hp _ => ⟨p, hp, rfl, rfl⟩, fun hg => ⟨hg, le_refl _, ?_⟩⟩
  exact fun p' hp' _ => ⟨p', hp', rfl, tracked_refl delta p'.1⟩

theorem stepOK_trans {delta : ℚ} {a b c : EntityManager}
    (h1 : StepOK delta a b) (h2 : StepOK delta b c) : StepOK delta a c := by
  obtain ⟨n1, u1, g1⟩ := h1
  obtain ⟨n2, u2, g2⟩ := h2
  refine ⟨fun h => n2 (n1 h), ?_, ?_⟩
  · intro p hp hundead
    obtain ⟨p', hp', hid, hty⟩ := u1 p hp hundead
    obtain ⟨p'', hp'', hid', hty'⟩ := u2 p' hp' (hty ▸ hundead)
    exact ⟨p'', hp'', hid'.trans hid, hty'.trans hty⟩
  · intro hg
    obtain ⟨hgb, hmono, hback⟩ := g1 hg
    obtain ⟨hgc, hmono2, hback2⟩ := g2 hgb
    refine ⟨hgc, hmono.trans hmono2, ?_⟩
    intro p'' hp'' hlt
    obtain ⟨p', hp', hid', ht'⟩ := hback2 p'' hp'' (lt_of_lt_of_le hlt hmono)
    obtain ⟨p, hp, hid, ht⟩ := hback p' hp' (hid' ▸ hlt)
    exact ⟨p, hp, hid.trans hid', tracked_trans ht ht'⟩

/-- A sub-step that leaves the entity map and the id counter untouched
(random draws, tile mutations, plain returns) satisfies the contract. -/
theorem stepOK_of_entities_eq (delta : ℚ) (a b : EntityManager)
    (he : b.entities = a.entities) (hn : b.nextId = a.nextId) : StepOK delta a b := by
  refine ⟨fun h => he ▸ h, fun p hp _ => ⟨p, he ▸ hp, rfl, rfl⟩, fun hg => ?_⟩
  obtain ⟨hf, hnd, hs⟩ := hg
  refine ⟨⟨?_, ?_, ?_⟩, le_of_eq hn.symm, ?_⟩
  · intro p hp
    rw [he] at hp
    rw [hn]
    exact hf p hp
  · unfold IdsNodup
    rw [he]
    exact hnd
  · intro p hp
    rw [he] at hp
    exact hs p hp
  · intro p' hp' _
    rw [he] at hp'
    exact ⟨p', hp', rfl, tracked_refl delta p'.1⟩

theorem mem_set_self {α : Type} (l : List α) (i : Nat) (a : α) (h : i < l.length) :
    a ∈ l.set i a := by
  induction l generalizing i with
  | nil => simp at h
  | cons hd tl ih =>
    cases i with
    | zero => simp
    | succ j =>
      simp at h
      simp [ih j h]

theorem mem_set_of_ne {α : Type} (l : List α) (i : Nat) (a b p : α)
    (hmem : p ∈ l) (hi : l[i]? = some a) (hne : p ≠ a) : p ∈ l.set i b := by
  induction l generalizing i with
  | nil => simp at hmem
  | cons hd tl ih =>
    cases i with
    | zero =>
      simp at hi
      subst hi
      rcases List.mem_cons.mp hmem with h | h
      · exact absurd h hne
      · simp [h]
    | succ j =>
      simp at hi
      rcases List.mem_cons.mp hmem with h | h
      · simp [h]
      · simp [ih j h hi]

theorem set_getElem?_self {α : Type} (l : List α) (i : Nat) (a : α)
    (h : l[i]? = some a) : l.set i a = l := by
  induction l generalizing i with
  | nil => rfl
  | cons hd tl ih =>
    cases i with
    | zero =>
      simp at h
      simp [h]
    | succ j =>
      simp at h
      simp [ih j h]

theorem mem_eraseIdx_of_ne {α : Type} (l : List α) (i : Nat) (a p : α)
    (hmem : p ∈ l) (hi : l[i]? = some a) (hne : p ≠ a) : p ∈ l.eraseIdx i := by
  induction l generalizing i with
  | nil => simp at hmem
  | cons hd tl ih =>
    cases i with
    | zero =>
      simp at hi
      subst hi
      rcases List.mem_cons.mp hmem with h | h
      · exact absurd h hne
      · simpa [List.eraseIdx] using h
    | succ j =>
      simp at hi
      rcases List.mem_cons.mp hmem with h | h
      · simp [List.eraseIdx, h]
      · simp [List.eraseIdx, ih j h hi]

theorem mem_of_getElem?_aux {α : Type} (l : List α) (i : Nat) (a : α)
    (h : l[i]? = some a) : a ∈ l := by
  induction l generalizing i with
  | nil => simp at h
  | cons hd tl ih =>
    cases i with
    | zero =>
      simp at h
      simp [h]
    | succ j =>
      simp at h
      simp [ih j h]

/-- Replacing the entry at `i` by a `Tracked`-related pair satisfies the
step contract. -/
theorem stepOK_setEnt (delta : ℚ) (m : EntityManager) (i : Nat)
    (e : Entity) (ai : EntityAI) (e' : Entity) (ai' : EntityAI)
    (h : m.entities[i]? = some (e, ai))
    (hid : e'.id = e.id) (htype : e'.type = e.type)
    (hneeds : needs01 e → needs01 e')
    (ht : Good m → Tracked delta e e') :
    StepOK delta m (setEnt m i (e', ai')) := by
  have hmem : (e, ai) ∈ m.entities := mem_of_getElem?_aux _ _ _ h
  have hlen : i < m.entities.length := (List.getElem?_eq_some.mp h).1
  refine ⟨?_, ?_, ?_⟩
  · intro hall p' hp'
    rcases List.mem_or_eq_of_mem_set hp' with hold | hnew
    · exact hall p' hold
    · subst hnew
      exact hneeds (hall (e, ai) hmem)
  · intro p hp hundead
    by_cases hpe : p = (e, ai)
    · refine ⟨(e', ai'), mem_set_self _ _ _ hlen, ?_, ?_⟩
      · rw [hpe]
        exact hid
      · rw [hpe]
        exact htype
    · exact ⟨p, mem_set_of_ne _ _ _ _ _ hp h hpe, rfl, rfl⟩
  · intro hg
    obtain ⟨hf, hnd, hs⟩ := hg
    have htr := ht ⟨hf, hnd, hs⟩
    refine ⟨⟨?_, ?_, ?_⟩, le_refl _, ?_⟩
    · intro p hp
      rcases List.mem_or_eq_of_mem_set hp with hold | hnew
      · exact hf p hold
      · subst hnew
        show e'.id < m.nextId
        rw [hid]
        exact hf (e, ai) hmem
    · unfold IdsNodup
      show ((m.entities.set i (e', ai')).map (fun p => p.1.id)).Nodup
      rw [List.map_set]
      have : (m.entities.map (fun p => p.1.id))[i]? = some e'.id := by
        rw [List.getElem?_map, h]
        simp [hid]
      rw [set_getElem?_self _ _ _ this]
      exact hnd
    · intro p hp
      rcases List.mem_or_eq_of_mem_set hp with hold | hnew
      · exact hs p hold
      · subst hnew
        show 0 ≤ e'.attributes.strength
        rw [htr.2.2.2.2.1]
        exact hs (e, ai) hmem
    · intro p' hp' _
      rcases List.mem_or_eq_of_mem_set hp' with hold | hnew
      · exact ⟨p', hold, rfl, tracked_refl delta p'.1⟩
      · subst hnew
        exact ⟨(e, ai), hmem, hid.symm ▸ rfl, htr⟩

/-- Mutating the entity at `i` in place with a `Tracked`-respecting function
satisfies the step contract. -/
theorem stepOK_modifyEntity (delta : ℚ) (m : EntityManager) (i : Nat)
    (f : Entity → Entity)
    (hid : ∀ e, (f e).id = e.id) (htype : ∀ e, (f e).type = e.type)
    (hneeds : ∀ e, needs01 e → needs01 (f e))
    (ht : Good m → ∀ e, Tracked delta e (f e)) :
    StepOK delta m (modifyEntity m i f) := by
  unfold modifyEntity
  split
  · exact stepOK_refl delta m
  · rename_i e ai h
    exact stepOK_setEnt delta m i e ai (f e) ai h (hid e) (htype e)
      (hneeds e) (fun hg => ht hg e)

/-- Mutating the entity with a given id through a live reference satisfies the
step contract. -/
theorem stepOK_modifyEntityById (delta : ℚ) (m : EntityManager) (tid : Nat)
    (f : Entity → Entity)
    (hid : ∀ e, (f e).id = e.id) (htype : ∀ e, (f e).type = e.type)
    (hneeds : ∀ e, needs01 e → needs01 (f e))
    (ht : Good m → ∀ e, Tracked delta e (f e)) :
    StepOK delta m (modifyEntityById m tid f) := by
  unfold modifyEntityById
  set g := fun p : Entity × EntityAI => if p.1.id = tid then (f p.1, p.2) else p with hg
  have hgid : ∀ p : Entity × EntityAI, (g p).1.id = p.1.id := by
    intro p
    by_cases hc : p.1.id = tid <;> simp [hg, hc, hid]
  have hgtype : ∀ p : Entity × EntityAI, (g p).1.type = p.1.type := by
    intro p
    by_cases hc : p.1.id = tid <;> simp [hg, hc, htype]
  have hgt : Good m → ∀ p : Entity × EntityAI, Tracked delta p.1 (g p).1 := by
    intro hgood p
    by_cases hc : p.1.id = tid <;> simp [hg, hc]
    · exact ht hgood p.1
    · exact tracked_refl delta p.1
  refine ⟨?_, ?_, ?_⟩
  · intro hall p' hp'
    simp only [List.mem_map] at hp'
    obtain ⟨p, hp, rfl⟩ := hp'
    by_cases hc : p.1.id = tid <;> simp [hg, hc]
    · exact hneeds p.1 (hall p hp)
    · exact hall p hp
  · intro p hp hundead
    exact ⟨g p, List.mem_map_of_mem g hp, hgid p, hgtype p⟩
  · intro hgood
    obtain ⟨hf, hnd, hs⟩ := hgood
    refine ⟨⟨?_, ?_, ?_⟩, le_refl _, ?_⟩
    · intro p' hp'
      simp only [List.mem_map] at hp'
      obtain ⟨p, hp, rfl⟩ := hp'
      show (g p).1.id < m.nextId
      rw [hgid p]
      exact hf p hp
    · unfold IdsNodup
      show ((m.entities.map g).map (fun p => p.1.id)).Nodup
      rw [List.map_map]
      have : ((fun p : Entity × EntityAI => p.1.id) ∘ g) = fun p : Entity × EntityAI => p.1.id := by
        funext p
        exact hgid p
      rw [this]
      exact hnd
    · intro p' hp'
      simp only [List.mem_map] at hp'
      obtain ⟨p, hp, rfl⟩ := hp'
      show 0 ≤ (g p).1.attributes.strength
      rw [(hgt ⟨hf, hnd, hs⟩ p).2.2.2.2.1]
      exact hs p hp
    · intro p' hp' _
      simp only [List.mem_map] at hp'
      obtain ⟨p, hp, rfl⟩ := hp'
      exact ⟨p, hp, (hgid p).symm, hgt ⟨hf, hnd, hs⟩ p⟩

/-- `killEntity` leaves the id counter alone. -/
theorem killEntity_nextId (m : EntityManager) (i : Nat) :
    (killEntity m i).nextId = m.nextId := by
  simp only [killEntity]
  split
  · rfl
  · split <;> rfl

/-- `killEntity` on a non-undead entry satisfies the step contract: it deletes
exactly the processed entry. -/
theorem stepOK_killEntity (delta : ℚ) (m : EntityManager) (i : Nat)
    (e : Entity) (ai : EntityAI) (h : m.entities[i]? = some (e, ai))
    (hty : ¬ (e.type = .zombie ∨ e.type = .skeleton)) :
    StepOK delta m (killEntity m i) := by
  have hker : (killEntity m i).entities = m.entities.eraseIdx i := by
    simp only [killEntity, h]
    split <;> rfl
  have hnext := killEntity_nextId m i
  have hsub : ∀ p, p ∈ (killEntity m i).entities → p ∈ m.entities := by
    intro p hp
    rw [hker] at hp
    exact List.eraseIdx_subset m.entities i hp
  refine ⟨?_, ?_, ?_⟩
  · intro hall p' hp'
    exact hall p' (hsub p' hp')
  · intro p hp hundead
    refine ⟨p, ?_, rfl, rfl⟩
    rw [hker]
    refine mem_eraseIdx_of_ne _ _ _ _ hp h ?_
    intro hpe
    rw [hpe] at hundead
    exact hty hundead
  · intro hg
    obtain ⟨hf, hnd, hs⟩ := hg
    refine ⟨⟨?_, ?_, ?_⟩, le_of_eq hnext.symm, ?_⟩
    · intro p hp
      rw [hnext]
      exact hf p (hsub p hp)
    · unfold IdsNodup
      rw [hker]
      have hsl : List.Sublist ((m.entities.eraseIdx i).map (fun p => p.1.id))
          (m.entities.map (fun p => p.1.id)) :=
        (List.eraseIdx_sublist m.entities i).map _
      exact hnd.sublist hsl
    · intro p hp
      exact hs p (hsub p hp)
    · intro p' hp' _
      exact ⟨p', hsub p' hp', rfl, tracked_refl delta p'.1⟩

theorem createEntity_id (ty : EntityType) (x y : ℚ) (nid : Nat) (rng : List ℚ) :
    (createEntity ty x y nid rng).1.id = nid := by
  cases ty <;> rfl

theorem createEntity_needs01 (ty : EntityType) (x y : ℚ) (nid : Nat) (rng : List ℚ) :
    needs01 (createEntity ty x y nid rng).1 := by
  cases ty <;> norm_num [createEntity, needs01]

theorem createEntity_strength (ty : EntityType) (x y : ℚ) (nid : Nat) (rng : List ℚ) :
    0 ≤ (createEntity ty x y nid rng).1.attributes.strength := by
  cases ty <;> norm_num [createEntity]

/-- What `spawnEntity` does to the entity map and the id counter: nothing, or
the insertion of one freshly-numbered, well-formed entity of the requested
type. -/
theorem spawnEntity_entities_ids (m : EntityManager) (ty : EntityType) (x y : Int) :
    ((spawnEntity m ty x y).2.entities = m.entities ∧
      (spawnEntity m ty x y).2.nextId = m.nextId) ∨
    (∃ e, (spawnEntity m ty x y).2.entities = m.entities ++ [(e, initEntityAI)] ∧
      e.type = ty ∧ e.id = m.nextId ∧ needs01 e ∧ 0 ≤ e.attributes.strength ∧
      (spawnEntity m ty x y).2.nextId = m.nextId + 1) := by
  simp only [spawnEntity]
  split
  · exact Or.inl ⟨rfl, rfl⟩
  · split
    · exact Or.inl ⟨rfl, rfl⟩
    · split
      · exact Or.inl ⟨rfl, rfl⟩
      · exact Or.inr ⟨_, rfl, createEntity_type .., createEntity_id ..,
          createEntity_needs01 .., createEntity_strength .., rfl⟩

/-- `spawnEntity` satisfies the step contract. -/
theorem stepOK_spawnEntity (delta : ℚ) (m : EntityManager) (ty : EntityType) (x y : Int) :
    StepOK delta m (spawnEntity m ty x y).2 := by
  rcases spawnEntity_entities_ids m ty x y with ⟨he, hn⟩ | ⟨c, he, _hty, hcid, hcneeds, hcstr, hn⟩
  · exact stepOK_of_entities_eq delta m _ he hn
  · refine ⟨?_, ?_, ?_⟩
    · intro hall p' hp'
      rw [he] at hp'
      rcases List.mem_append.mp hp' with hold | hnew
      · exact hall p' hold
      · simp at hnew
        rw [hnew]
        exact hcneeds
    · intro p hp hundead
      refine ⟨p, ?_, rfl, rfl⟩
      rw [he]
      exact List.mem_append.mpr (Or.inl hp)
    · intro hg
      obtain ⟨hf, hnd, hs⟩ := hg
      refine ⟨⟨?_, ?_, ?_⟩, ?_, ?_⟩
      · intro p hp
        rw [he] at hp
        rw [hn]
        rcases List.mem_append.mp hp with hold | hnew
        · exact (hf p hold).trans (Nat.lt_succ_self _)
        · simp at hnew
          rw [hnew, hcid]
          exact Nat.lt_succ_self _
      · unfold IdsNodup
        rw [he, List.map_append]
        simp only [List.map_cons, List.map_nil]
        rw [List.nodup_append]
        refine ⟨hnd, List.nodup_singleton _, ?_⟩
        intro a ha hb
        simp at hb
        simp only [List.mem_map] at ha
        obtain ⟨p, hp, rfl⟩ := ha
        have := hf p hp
        rw [hb, hcid] at this
        exact lt_irrefl _ this
      · intro p hp
        rw [he] at hp
        rcases List.mem_append.mp hp with hold | hnew
        · exact hs p hold
        · simp at hnew
          rw [hnew]
          exact hcstr
      · rw [hn]
        exact Nat.le_succ _
      · intro p' hp' hlt
        rw [he] at hp'
        rcases List.mem_append.mp hp' with hold | hnew
        · exact ⟨p', hold, rfl, tracked_refl delta p'.1⟩
        · simp at hnew
          rw [hnew, hcid] at hlt
          exact absurd hlt (lt_irrefl _)

-- Spawning from an entity-equal manager and then pushing a status tag on the
-- parent satisfies the step contract (the composed tail of `reproduceEntity`).
theorem stepOK_spawn_modify (delta : ℚ) (a m2 : EntityManager) (ty : EntityType)
    (x y : Int) (i : Nat)
    (hent : m2.entities = a.entities) (hnext : m2.nextId = a.nextId) :
    StepOK delta a (modifyEntity (spawnEntity m2 ty x y).2 i
      (fun e0 => { e0 with status := e0.status ++ ["reproduced"] })) := by
  refine stepOK_trans (stepOK_trans (stepOK_of_entities_eq delta a m2 hent hnext)
    (stepOK_spawnEntity delta m2 ty x y)) ?_
  exact stepOK_modifyEntity delta _ i _ (fun _ => rfl) (fun _ => rfl) (fun _ h => h)
    (fun _ e0 => ⟨rfl, rfl, rfl, rfl, rfl, le_max_left _ _, fun h => h, fun _ => rfl⟩)

-- `reproduceEntity` satisfies the step contract.
set_option maxHeartbeats 1000000 in
theorem stepOK_reproduceEntity (delta : ℚ) (m : EntityManager) (i : Nat) :
    StepOK delta m (reproduceEntity m i) := by
  simp only [reproduceEntity]
  split
  · exact stepOK_refl delta m
  · split
    · exact stepOK_refl delta m
    · split
      · exact stepOK_of_entities_eq delta m _ rfl rfl
      · split
        · exact stepOK_of_entities_eq delta m _ rfl rfl
        · exact stepOK_spawn_modify delta m _ _ _ _ i rfl rfl

theorem stepOK_setEnt_ai (delta : ℚ) (m : EntityManager) (i : Nat)
    (e : Entity) (ai ai' : EntityAI) (h : m.entities[i]? = some (e, ai)) :
    StepOK delta m (setEnt m i (e, ai')) :=
  stepOK_setEnt delta m i e ai e ai' h rfl rfl id (fun _ => tracked_refl delta e)

theorem tracked_updateNeeds (delta : ℚ) (hdelta : 0 ≤ delta) (e : Entity) :
    Tracked delta e (updateNeeds e delta) := by
  have h5 : (0 : ℚ) ≤ 0.05 * delta := by positivity
  have h10 : (0 : ℚ) ≤ 0.1 * delta := by positivity
  have h2 : (0 : ℚ) ≤ 0.02 * delta := by positivity
  simp only [updateNeeds]
  split_ifs <;>
    refine ⟨rfl, rfl, rfl, rfl, rfl, by simp only []; linarith [le_max_left e.health (0 : ℚ)],
      fun _ => ⟨le_max_left _ _, max_le (by norm_num) (min_le_left _ _),
        le_max_left _ _, max_le (by norm_num) (min_le_left _ _),
        le_max_left _ _, max_le (by norm_num) (min_le_left _ _),
        le_max_left _ _, max_le (by norm_num) (min_le_left _ _)⟩,
      fun h0 => by simp only [h0]; ring⟩

theorem stepOK_die (delta : ℚ) (m : EntityManager) (i : Nat) :
    StepOK delta m (die m i) := by
  simp only [die]
  split
  · exact stepOK_refl delta m
  · rename_i e ai h
    exact stepOK_setEnt delta m i e ai _ _ h rfl rfl (fun hn => hn)
      (fun _ => ⟨rfl, rfl, rfl, rfl, rfl, le_max_right _ _, fun hn => hn, fun _ => rfl⟩)

theorem stepOK_moveRandomly (delta : ℚ) (m : EntityManager) (i : Nat) :
    StepOK delta m (moveRandomly m i) := by
  simp only [moveRandomly]
  split
  · exact stepOK_refl delta m
  · rename_i e ai h
    split
    · exact stepOK_refl delta m
    · split
      · split
        · exact stepOK_of_entities_eq delta m _ rfl rfl
        · exact stepOK_trans (stepOK_of_entities_eq delta m _ rfl rfl)
            (stepOK_setEnt_ai delta _ i e ai _ h)
      · exact stepOK_refl delta m

theorem stepOK_findWaterSource (delta : ℚ) (sq : ℚ → ℚ) (m : EntityManager) (i : Nat) :
    StepOK delta m (findWaterSource sq m i) := by
  simp only [findWaterSource]
  split
  · exact stepOK_refl delta m
  · rename_i e ai h
    split
    · split
      · exact stepOK_setEnt_ai delta m i e ai _ h
      · exact stepOK_refl delta m
    · exact stepOK_moveRandomly delta m i

theorem stepOK_findPreyToHunt (delta : ℚ) (sq : ℚ → ℚ) (m : EntityManager) (i : Nat) :
    StepOK delta m (findPreyToHunt sq m i) := by
  simp only [findPreyToHunt]
  split
  · exact stepOK_refl delta m
  · rename_i e ai h
    split
    · exact stepOK_setEnt_ai delta m i e ai _ h
    · exact stepOK_moveRandomly delta m i

theorem stepOK_findSocialInteraction (delta : ℚ) (sq : ℚ → ℚ) (m : EntityManager) (i : Nat) :
    StepOK delta m (findSocialInteraction sq m i) := by
  simp only [findSocialInteraction]
  split
  · exact stepOK_refl delta m
  · rename_i e ai h
    split
    · exact stepOK_setEnt_ai delta m i e ai _ h
    · exact stepOK_moveRandomly delta m i

theorem stepOK_findFoodSource (delta : ℚ) (sq : ℚ → ℚ) (m : EntityManager) (i : Nat) :
    StepOK delta m (findFoodSource sq m i) := by
  simp only [findFoodSource]
  split
  · exact stepOK_refl delta m
  · rename_i e ai h
    split
    · exact stepOK_findPreyToHunt delta sq m i
    · split
      · split
        · rename_i e2 ai2 t h2 ht2
          exact stepOK_setEnt_ai delta m i e2 ai2 _ h2
        · exact stepOK_refl delta m
      · exact stepOK_moveRandomly delta m i

theorem setEnt_get (m : EntityManager) (i : Nat) (p : Entity × EntityAI)
    (h : i < m.entities.length) : (setEnt m i p).entities[i]? = some p := by
  simp [setEnt, List.getElem?_set_self, h]

/-- Writing a pair over the entry at `i` of an evolved store satisfies the
step contract, provided the new entity keeps the entry's id and type and is
`Tracked` from some original entity. -/
theorem stepOK_setEnt_after (delta : ℚ) (a b : EntityManager) (i : Nat)
    (q : Entity × EntityAI) (e' : Entity) (ai'' : EntityAI)
    (hab : StepOK delta a b)
    (hq : b.entities[i]? = some q)
    (hid : e'.id = q.1.id) (htype : e'.type = q.1.type)
    (hsrc : ∃ p ∈ a.entities, p.1.id = e'.id ∧
        ((∀ r ∈ a.entities, needs01 r.1) → needs01 e') ∧
        (Good a → Tracked delta p.1 e')) :
    StepOK delta a (setEnt b i (e', ai'')) := by
  obtain ⟨nAB, uAB, gAB⟩ := hab
  obtain ⟨p0, hp0, hp0id, hp0needs, hp0t⟩ := hsrc
  have hlen : i < b.entities.length := (List.getElem?_eq_some.mp hq).1
  have hqmem : q ∈ b.entities := mem_of_getElem?_aux _ _ _ hq
  refine ⟨?_, ?_, ?_⟩
  · intro hall p' hp'
    rcases List.mem_or_eq_of_mem_set hp' with hold | hnew
    · exact nAB hall p' hold
    · subst hnew
      exact hp0needs hall
  · intro p hp hundead
    obtain ⟨p', hp', hpid, hpty⟩ := uAB p hp hundead
    by_cases hpe : p' = q
    · refine ⟨(e', ai''), mem_set_self _ _ _ hlen, ?_, ?_⟩
      · rw [hid, ← hpe, hpid]
      · rw [htype, ← hpe, hpty]
    · exact ⟨p', mem_set_of_ne _ _ _ _ _ hp' hq hpe, hpid, hpty⟩
  · intro hg
    obtain ⟨hgb, hmono, hback⟩ := gAB hg
    obtain ⟨hfb, hndb, hsb⟩ := hgb
    have htr := hp0t hg
    refine ⟨⟨?_, ?_, ?_⟩, hmono, ?_⟩
    · intro p hp
      rcases List.mem_or_eq_of_mem_set hp with hold | hnew
      · exact hfb p hold
      · subst hnew
        show e'.id < b.nextId
        rw [hid]
        exact hfb q hqmem
    · unfold IdsNodup
      show ((b.entities.set i (e', ai'')).map (fun p => p.1.id)).Nodup
      rw [List.map_set]
      have : (b.entities.map (fun p => p.1.id))[i]? = some e'.id := by
        rw [List.getElem?_map, hq]
        simp [hid]
      rw [set_getElem?_self _ _ _ this]
      exact hndb
    · intro p hp
      rcases List.mem_or_eq_of_mem_set hp with hold | hnew
      · exact hsb p hold
      · subst hnew
        show 0 ≤ e'.attributes.strength
        rw [htr.2.2.2.2.1]
        exact hg.2.2 p0 hp0
    · intro p' hp' _
      rcases List.mem_or_eq_of_mem_set hp' with hold | hnew
      · by_cases hlt : p'.1.id < a.nextId
        · exact hback p' hold hlt
        · exact hback p' hold (by
            rename_i hlt2
            exact absurd hlt2 (by omega))
      · subst hnew
        exact ⟨p0, hp0, hp0id, htr⟩

theorem needs01_set_thirst (e : Entity) (hn : needs01 e) :
    needs01 { e with needs := { e.needs with thirst := 1.0 } } := by
  obtain ⟨a, b, _, _, c, d, f, g⟩ := hn
  exact ⟨a, b, by norm_num, by norm_num, c, d, f, g⟩

theorem needs01_set_social (e : Entity) (hn : needs01 e) :
    needs01 { e with needs := { e.needs with social := 1.0 } } := by
  obtain ⟨a, b, c, d, f, g, _, _⟩ := hn
  exact ⟨a, b, c, d, f, g, by norm_num, by norm_num⟩

theorem tracked_same_fields (delta : ℚ) (e e' : Entity)
    (h1 : e'.id = e.id) (h2 : e'.type = e.type) (h3 : e'.maxHealth = e.maxHealth)
    (h4 : e'.maxAge = e.maxAge) (h5 : e'.attributes = e.attributes)
    (h6 : e'.health = e.health) (h7 : needs01 e → needs01 e') (h8 : e'.age = e.age) :
    Tracked delta e e' :=
  ⟨h1, h2, h3, h4, h5, h6 ▸ le_max_left _ _, h7, fun _ => h8⟩

theorem stepOK_arriveAtTarget (delta : ℚ) (m : EntityManager) (i : Nat) :
    StepOK delta m (arriveAtTarget m i) := by
  simp only [arriveAtTarget]
  split
  · exact stepOK_refl delta m
  · rename_i e ai h
    split
    · exact stepOK_setEnt_ai delta m i e ai _ h
    · split
      · exact stepOK_setEnt_ai delta m i e ai _ h
      · split
        · exact stepOK_setEnt delta m i e ai _ _ h rfl rfl (needs01_set_thirst e)
            (fun _ => tracked_same_fields delta e _ rfl rfl rfl rfl rfl rfl
              (needs01_set_thirst e) rfl)
        · split
          · exact stepOK_setEnt_ai delta m i e ai _ h
          · split
            · split
              · exact stepOK_setEnt delta m i e ai _ _ h rfl rfl (needs01_set_social e)
                  (fun _ => tracked_same_fields delta e _ rfl rfl rfl rfl rfl rfl
                    (needs01_set_social e) rfl)
              · exact stepOK_setEnt delta m i e ai _ _ h rfl rfl (needs01_set_social e)
                  (fun _ => tracked_same_fields delta e _ rfl rfl rfl rfl rfl rfl
                    (needs01_set_social e) rfl)
            · exact stepOK_setEnt_ai delta m i e ai _ h

theorem stepOK_handleMovingState (delta : ℚ) (sq : ℚ → ℚ) (m : EntityManager) (i : Nat) :
    StepOK delta m (handleMovingState sq m i) := by
  simp only [handleMovingState]
  split
  · exact stepOK_refl delta m
  · rename_i e ai h
    have hlen : i < m.entities.length := (List.getElem?_eq_some.mp h).1
    have hmem : (e, ai) ∈ m.entities := mem_of_getElem?_aux _ _ _ h
    split
    · exact stepOK_setEnt_ai delta m i e ai _ h
    · split
      · exact stepOK_refl delta m
      · rename_i nextTile rest hpath
        split
        · refine ?_
          have hstep1 : StepOK delta m (setEnt m i
              ({ e with position := { x := (nextTile.1 : ℚ), y := (nextTile.2 : ℚ) } },
                { ai with path := rest })) :=
            stepOK_setEnt delta m i e ai _ _ h rfl rfl (fun hn => hn)
              (fun _ => tracked_same_fields delta e _ rfl rfl rfl rfl rfl rfl
                (fun hn => hn) rfl)
          split
          · split
            · exact stepOK_trans hstep1 (stepOK_arriveAtTarget delta _ i)
            · refine stepOK_setEnt_after delta m _ i _ _ _ hstep1
                (setEnt_get m i _ hlen) rfl rfl
                ⟨(e, ai), hmem, rfl, fun hall => hall (e, ai) hmem,
                  fun _ => tracked_same_fields delta e _ rfl rfl rfl rfl rfl rfl
                    (fun hn => hn) rfl⟩
          · exact hstep1
        · exact stepOK_setEnt delta m i e ai _ _ h rfl rfl (fun hn => hn)
            (fun _ => tracked_same_fields delta e _ rfl rfl rfl rfl rfl rfl
              (fun hn => hn) rfl)

theorem needs01_bump_hunger (e : Entity) (hn : needs01 e) :
    needs01 { e with needs := { e.needs with hunger := min 1 (e.needs.hunger + 0.3) } } := by
  obtain ⟨a, _, c, d, f, g, s0, s1⟩ := hn
  refine ⟨le_min (by norm_num) (by linarith), min_le_left _ _, c, d, f, g, s0, s1⟩

theorem needs01_bump_rest (e : Entity) (hn : needs01 e) :
    needs01 { e with needs := { e.needs with rest := min 1.0 (e.needs.rest + 0.1) } } := by
  obtain ⟨a, b, c, d, f, _, s0, s1⟩ := hn
  have h1 : (1.0 : ℚ) = 1 := by norm_num
  refine ⟨a, b, c, d, ?_, ?_, s0, s1⟩
  · rw [h1]
    exact le_min (by norm_num) (by linarith)
  · rw [h1]
    exact min_le_left _ _

set_option maxHeartbeats 2000000 in
theorem stepOK_handleGatheringState (delta : ℚ) (m : EntityManager) (i : Nat) :
    StepOK delta m (handleGatheringState m i) := by
  simp only [handleGatheringState]
  split
  · exact stepOK_refl delta m
  · rename_i e ai h
    have hmem : (e, ai) ∈ m.entities := mem_of_getElem?_aux _ _ _ h
    split
    · exact stepOK_setEnt_ai delta m i e ai _ h
    · split
      · exact stepOK_setEnt_ai delta m i e ai _ h
      · split
        · exact stepOK_setEnt_ai delta m i e ai _ h
        · split
          · exact stepOK_setEnt_ai delta m i e ai _ h
          · refine stepOK_setEnt_after delta m _ i (e, ai) _ _
              (stepOK_of_entities_eq delta m _ rfl rfl) h ?_ ?_
              ⟨(e, ai), hmem, ?_, ?_, ?_⟩
            · split_ifs <;> rfl
            · split_ifs <;> rfl
            · split_ifs <;> rfl
            · intro hall
              split_ifs
              all_goals
                first
                  | exact needs01_bump_hunger _ (hall (e, ai) hmem)
                  | exact hall (e, ai) hmem
            · intro _
              split_ifs
              all_goals
                refine tracked_same_fields delta e _ rfl rfl rfl rfl rfl rfl ?_ rfl
              all_goals
                first
                  | exact needs01_bump_hunger _
                  | exact fun hn => hn


set_option maxHeartbeats 4000000 in
theorem stepOK_handleHuntingState (delta : ℚ) (sq : ℚ → ℚ) (m : EntityManager) (i : Nat) :
    StepOK delta m (handleHuntingState sq m i) := by
  simp only [handleHuntingState]
  split
  · exact stepOK_refl delta m
  · rename_i e ai h
    have hmem : (e, ai) ∈ m.entities := mem_of_getElem?_aux _ _ _ h
    split
    · exact stepOK_setEnt_ai delta m i e ai _ h
    · rename_i tid htid
      split
      · exact stepOK_setEnt_ai delta m i e ai _ h
      · rename_i tp hfind
        split
        · refine ?_
          have hmod : StepOK delta m (modifyEntityById m tid (fun t =>
              { t with
                health := t.health - e.attributes.strength * 0.2,
                status := t.status ++ ["wounded"] })) := by
            refine stepOK_modifyEntityById delta m tid _ (fun _ => rfl) (fun _ => rfl)
              (fun _ hn => hn) ?_
            intro hg e0
            refine ⟨rfl, rfl, rfl, rfl, rfl, ?_, fun hn => hn, fun _ => rfl⟩
            have hdmg : 0 ≤ e.attributes.strength * 0.2 :=
              mul_nonneg (hg.2.2 (e, ai) hmem) (by norm_num)
            calc e0.health - e.attributes.strength * 0.2 ≤ e0.health := by linarith
              _ ≤ max e0.health 0 := le_max_left _ _
          split
          · split
            · refine stepOK_setEnt_after delta m _ i
                (if e.id = tid then
                  ({ e with
                      health := e.health - e.attributes.strength * 0.2,
                      status := e.status ++ ["wounded"] }, ai)
                 else (e, ai)) _ _
                (stepOK_trans hmod (stepOK_of_entities_eq delta _ _ rfl rfl)) ?_ ?_ ?_
                ⟨(e, ai), hmem, ?_, ?_, ?_⟩
              · show ((m.entities.map _)[i]?) = _
                simp only [List.getElem?_map, h, Option.map_some, Option.map_some']
              · split_ifs <;> rfl
              · split_ifs <;> rfl
              · split_ifs <;> rfl
              · intro hall
                split_ifs <;> exact hall (e, ai) hmem
              · intro _
                split_ifs <;>
                  exact tracked_same_fields delta e _ rfl rfl rfl rfl rfl rfl
                    (fun hn => hn) rfl
            · refine stepOK_setEnt_after delta m _ i
                (if e.id = tid then
                  ({ e with
                      health := e.health - e.attributes.strength * 0.2,
                      status := e.status ++ ["wounded"] }, ai)
                 else (e, ai)) _ _
                (stepOK_trans hmod (stepOK_of_entities_eq delta _ _ rfl rfl)) ?_ ?_ ?_
                ⟨(e, ai), hmem, ?_, ?_, ?_⟩
              · show ((m.entities.map _)[i]?) = _
                simp only [List.getElem?_map, h, Option.map_some, Option.map_some']
              · split_ifs <;> rfl
              · split_ifs <;> rfl
              · split_ifs <;> rfl
              · intro hall
                split_ifs <;> exact hall (e, ai) hmem
              · intro _
                split_ifs <;>
                  exact tracked_same_fields delta e _ rfl rfl rfl rfl rfl rfl
                    (fun hn => hn) rfl
          · split
            · exact stepOK_trans hmod (stepOK_of_entities_eq delta _ _ rfl rfl)
            · exact hmod
        · exact stepOK_setEnt_ai delta m i e ai _ h

theorem stepOK_handleFleeingState (delta : ℚ) (sq : ℚ → ℚ) (m : EntityManager) (i : Nat) :
    StepOK delta m (handleFleeingState sq m i) := by
  simp only [handleFleeingState]
  split
  · exact stepOK_refl delta m
  · rename_i e ai h
    split
    · exact stepOK_setEnt_ai delta m i e ai _ h
    · split
      · exact stepOK_setEnt_ai delta m i e ai _ h
      · split <;>
          exact stepOK_setEnt delta m i e ai _ _ h rfl rfl (fun hn => hn)
            (fun _ => tracked_same_fields delta e _ rfl rfl rfl rfl rfl rfl
              (fun hn => hn) rfl)

theorem stepOK_handleSleepingState (delta : ℚ) (m : EntityManager) (i : Nat) :
    StepOK delta m (handleSleepingState m i) := by
  simp only [handleSleepingState]
  split
  · exact stepOK_refl delta m
  · rename_i e ai h
    split <;>
      exact stepOK_setEnt delta m i e ai _ _ h rfl rfl (needs01_bump_rest e)
        (fun _ => tracked_same_fields delta e _ rfl rfl rfl rfl rfl rfl
          (needs01_bump_rest e) rfl)

theorem stepOK_handleBuildingState (delta : ℚ) (m : EntityManager) (i : Nat) :
    StepOK delta m (handleBuildingState m i) := by
  simp only [handleBuildingState]
  split
  · exact stepOK_refl delta m
  · rename_i e ai h
    exact stepOK_setEnt_ai delta m i e ai _ h

theorem stepOK_handleReproducingState (delta : ℚ) (m : EntityManager) (i : Nat) :
    StepOK delta m (handleReproducingState m i) := by
  simp only [handleReproducingState]
  split
  · exact stepOK_refl delta m
  · rename_i e ai h
    exact stepOK_setEnt_ai delta m i e ai _ h

theorem stepOK_handleDyingState (delta : ℚ) (m : EntityManager) (i : Nat) :
    StepOK delta m (handleDyingState m i) := by
  simp only [handleDyingState]
  split
  · exact stepOK_refl delta m
  · rename_i e ai h
    exact stepOK_setEnt delta m i e ai _ _ h rfl rfl (fun hn => hn)
      (fun _ => tracked_same_fields delta e _ rfl rfl rfl rfl rfl rfl
        (fun hn => hn) rfl)

theorem stepOK_handleFightingState (delta : ℚ) (sq : ℚ → ℚ) (m : EntityManager) (i : Nat) :
    StepOK delta m (handleFightingState sq m i) :=
  stepOK_handleHuntingState delta sq m i

set_option maxHeartbeats 1000000 in
theorem stepOK_handleIdleState (delta : ℚ) (sq : ℚ → ℚ) (m : EntityManager) (i : Nat) :
    StepOK delta m (handleIdleState sq m i) := by
  simp only [handleIdleState]
  split
  · exact stepOK_refl delta m
  · rename_i e ai h
    have hmem : (e, ai) ∈ m.entities := mem_of_getElem?_aux _ _ _ h
    have hlen : i < m.entities.length := (List.getElem?_eq_some.mp h).1
    split
    · exact stepOK_refl delta m
    · have h1 : StepOK delta m (setEnt m i (e, { ai with ticksSinceLastAction := 0 })) :=
        stepOK_setEnt_ai delta m i e ai _ h
      split
      · exact stepOK_trans h1 (stepOK_findWaterSource delta sq _ i)
      · split
        · exact stepOK_trans h1 (stepOK_findFoodSource delta sq _ i)
        · split
          · refine stepOK_setEnt_after delta m _ i _ _ _ h1
              (setEnt_get m i _ hlen) rfl rfl
              ⟨(e, ai), hmem, rfl, fun hall => hall (e, ai) hmem,
                fun _ => tracked_refl delta e⟩
          · split
            · exact stepOK_trans h1 (stepOK_findSocialInteraction delta sq _ i)
            · have h2 : StepOK delta m
                  (nextRandom (setEnt m i (e, { ai with ticksSinceLastAction := 0 }))).2 :=
                stepOK_trans h1 (stepOK_of_entities_eq delta
                  (setEnt m i (e, { ai with ticksSinceLastAction := 0 }))
                  (nextRandom (setEnt m i (e, { ai with ticksSinceLastAction := 0 }))).2
                  rfl rfl)
              split
              · exact stepOK_trans h2 (stepOK_moveRandomly delta _ i)
              · exact h2

theorem updateNeeds_id (e : Entity) (d : ℚ) : (updateNeeds e d).id = e.id := by
  simp only [updateNeeds]
  split_ifs <;> rfl

theorem updateNeeds_type (e : Entity) (d : ℚ) : (updateNeeds e d).type = e.type := by
  simp only [updateNeeds]
  split_ifs <;> rfl

theorem updateNeeds_needs01 (e : Entity) (d : ℚ) : needs01 (updateNeeds e d) := by
  simp only [updateNeeds]
  split_ifs <;>
    exact ⟨le_max_left _ _, max_le (by norm_num) (min_le_left _ _),
      le_max_left _ _, max_le (by norm_num) (min_le_left _ _),
      le_max_left _ _, max_le (by norm_num) (min_le_left _ _),
      le_max_left _ _, max_le (by norm_num) (min_le_left _ _)⟩

/-- `EntityAI.update` satisfies the step contract for non-negative `dt`. -/
theorem stepOK_AI_update (delta : ℚ) (hdelta : 0 ≤ delta) (sq : ℚ → ℚ)
    (m : EntityManager) (i : Nat) :
    StepOK delta m (EntityAI.update sq m i delta) := by
  simp only [EntityAI.update]
  split
  · exact stepOK_refl delta m
  · rename_i e ai h
    have h1 : StepOK delta m (setEnt m i
        (e, { ai with ticksSinceLastAction := ai.ticksSinceLastAction + delta })) :=
      stepOK_setEnt_ai delta m i e ai _ h
    split
    · exact stepOK_trans h1 (stepOK_die delta _ i)
    · have h2 : StepOK delta m (modifyEntity
          (setEnt m i (e, { ai with ticksSinceLastAction := ai.ticksSinceLastAction + delta }))
          i (fun e0 => updateNeeds e0 delta)) :=
        stepOK_trans h1 (stepOK_modifyEntity delta _ i _
          (fun e0 => updateNeeds_id e0 delta) (fun e0 => updateNeeds_type e0 delta)
          (fun e0 _ => updateNeeds_needs01 e0 delta)
          (fun _ e0 => tracked_updateNeeds delta hdelta e0))
      split
      · exact stepOK_trans h2 (stepOK_handleIdleState delta sq _ i)
      · exact stepOK_trans h2 (stepOK_handleMovingState delta sq _ i)
      · exact stepOK_trans h2 (stepOK_handleGatheringState delta _ i)
      · exact stepOK_trans h2 (stepOK_handleHuntingState delta sq _ i)
      · exact stepOK_trans h2 (stepOK_handleFleeingState delta sq _ i)
      · exact stepOK_trans h2 (stepOK_handleBuildingState delta _ i)
      · exact stepOK_trans h2 (stepOK_handleFightingState delta sq _ i)
      · exact stepOK_trans h2 (stepOK_handleSleepingState delta _ i)
      · exact stepOK_trans h2 (stepOK_handleReproducingState delta _ i)
      · exact stepOK_trans h2 (stepOK_handleDyingState delta _ i)

/-- The lifecycle pass satisfies the step contract: ageing tracks the entity,
each kill deletes a non-undead entry, reproduction only appends. -/
theorem stepOK_processLifecycleEvents (delta : ℚ) (m : EntityManager) (i : Nat) :
    StepOK delta m (processLifecycleEvents m i delta).1 := by
  simp only [processLifecycleEvents]
  split
  · exact stepOK_refl delta m
  · rename_i e ai h
    split
    · exact stepOK_refl delta m
    · rename_i hty
      have h1 : StepOK delta m (setEnt m i
          ({ e with age := e.age + m.agingRate * delta }, ai)) :=
        stepOK_setEnt delta m i e ai _ ai h rfl rfl (fun hn => hn)
          (fun _ => ⟨rfl, rfl, rfl, rfl, rfl, le_max_left _ _, fun hn => hn,
            fun h0 => by rw [h0]; ring⟩)
      have hlen : i < m.entities.length := (List.getElem?_eq_some.mp h).1
      have hget : (setEnt m i ({ e with age := e.age + m.agingRate * delta }, ai)).entities[i]? =
          some ({ e with age := e.age + m.agingRate * delta }, ai) :=
        setEnt_get m i _ hlen
      have hty' : ¬ ({ e with age := e.age + m.agingRate * delta }.type = .zombie ∨
          { e with age := e.age + m.agingRate * delta }.type = .skeleton) := by
        intro hc
        exact hty (hc.elim (fun hz => Or.inr hz) (fun hs => Or.inl hs))
      split
      · exact stepOK_trans h1 (stepOK_killEntity delta _ i _ ai hget hty')
      · have h2 : StepOK delta m (nextRandom (setEnt m i
            ({ e with age := e.age + m.agingRate * delta }, ai))).2 :=
          stepOK_trans h1 (stepOK_of_entities_eq delta
            (setEnt m i ({ e with age := e.age + m.agingRate * delta }, ai))
            (nextRandom (setEnt m i ({ e with age := e.age + m.agingRate * delta }, ai))).2
            rfl rfl)
        have hget2 : (nextRandom (setEnt m i
            ({ e with age := e.age + m.agingRate * delta }, ai))).2.entities[i]? =
            some ({ e with age := e.age + m.agingRate * delta }, ai) := hget
        split
        · exact stepOK_trans h2 (stepOK_killEntity delta _ i _ ai hget2 hty')
        · split
          · exact stepOK_trans h2 (stepOK_killEntity delta _ i _ ai hget2 hty')
          · split
            · split
              · exact stepOK_trans
                  (stepOK_trans h2 (stepOK_of_entities_eq delta _
                    (nextRandom (nextRandom (setEnt m i
                      ({ e with age := e.age + m.agingRate * delta }, ai))).2).2 rfl rfl))
                  (stepOK_reproduceEntity delta _ i)
              · exact stepOK_trans h2 (stepOK_of_entities_eq delta _
                  (nextRandom (nextRandom (setEnt m i
                    ({ e with age := e.age + m.agingRate * delta }, ai))).2).2 rfl rfl)
            · exact h2

/-- One loop iteration satisfies the step contract. -/
theorem stepOK_updateStep (delta : ℚ) (hdelta : 0 ≤ delta) (sq : ℚ → ℚ)
    (m : EntityManager) (i : Nat) :
    StepOK delta m (updateStep sq m i delta).1 :=
  stepOK_trans (stepOK_AI_update delta hdelta sq m i)
    (stepOK_processLifecycleEvents delta _ i)

/-- The whole fueled loop satisfies the step contract. -/
theorem stepOK_updateLoop (delta : ℚ) (hdelta : 0 ≤ delta) (sq : ℚ → ℚ)
    (fuel : Nat) (m : EntityManager) (i : Nat) :
    StepOK delta m (updateLoop sq fuel m i delta) := by
  induction fuel generalizing m i with
  | zero => exact stepOK_refl delta m
  | succ n ih =>
    simp only [updateLoop]
    split
    · exact stepOK_trans (stepOK_updateStep delta hdelta sq m i) (ih _ _)
    · exact stepOK_refl delta m

/-- `EntityManager.update` satisfies the step contract for non-negative `dt`:
needs stay in [0,1], undead entries survive, and on a well-formed store every
surviving pre-existing entity is `Tracked`. -/
theorem stepOK_update (delta : ℚ) (hdelta : 0 ≤ delta) (sq : ℚ → ℚ) (m : EntityManager) :
    StepOK delta m (EntityManager.update sq m delta) :=
  stepOK_updateLoop delta hdelta sq (updateFuel m) m 0

/-- C8: starting from a store whose entities' needs all lie in [0,1], any
sequence of `update` calls with non-negative `dt` keeps every need of every
entity in [0,1]; and per tick `updateNeeds` decreases each need by its
per-need rate × dt (hunger 0.01, thirst 0.015, rest 0.005, social 0.002) and
then clamps it to [0,1]. -/
theorem needs_stay_in_unit_interval (sq : ℚ → ℚ) (m : EntityManager) (dts : List ℚ)
    (hdts : ∀ d ∈ dts, 0 ≤ d)
    (h0 : ∀ p ∈ m.entities, needs01 p.1) :
    (∀ p ∈ (dts.foldl (fun mm d => EntityManager.update sq mm d) m).entities, needs01 p.1) ∧
    (∀ (e : Entity) (d : ℚ),
      (updateNeeds e d).needs.hunger = max 0 (min 1 (e.needs.hunger - 0.01 * d)) ∧
      (updateNeeds e d).needs.thirst = max 0 (min 1 (e.needs.thirst - 0.015 * d)) ∧
      (updateNeeds e d).needs.rest = max 0 (min 1 (e.needs.rest - 0.005 * d)) ∧
      (updateNeeds e d).needs.social = max 0 (min 1 (e.needs.social - 0.002 * d))) := by
  constructor
  · induction dts generalizing m with
    | nil => exact h0
    | cons d ds ih =>
      simp only [List.foldl_cons]
      exact ih (EntityManager.update sq m d)
        (fun d' hd' => hdts d' (List.mem_cons_of_mem d hd'))
        ((stepOK_update d (hdts d (List.mem_cons_self d ds)) sq m).1 h0)
  · intro e d
    simp only [updateNeeds]
    split_ifs <;> exact ⟨rfl, rfl, rfl, rfl⟩

/-- C8, witness: one `update(1)` tick on the single-human world. -/
theorem needs_stay_in_unit_interval_witness :
    (∀ d ∈ [(1 : ℚ)], 0 ≤ d) ∧
    (∀ p ∈ lifecycleMgr.entities, needs01 p.1) ∧
    (∀ p ∈ ([(1 : ℚ)].foldl (fun mm d => EntityManager.update (fun q => q) mm d)
        lifecycleMgr).entities, needs01 p.1) := by
  have h0 : ∀ p ∈ lifecycleMgr.entities, needs01 p.1 := by
    intro p hp
    simp only [lifecycleMgr, List.mem_singleton] at hp
    subst hp
    norm_num [needs01, deadOldHuman]
  exact ⟨by norm_num, h0,
    (needs_stay_in_unit_interval (fun q => q) lifecycleMgr [1] (by norm_num) h0).1⟩

/-- A zombie whose health is exhausted. -/
def c4zombie : Entity :=
  { id := 7, type := .zombie, name := "Gnash", age := 10, maxAge := 100,
    health := 0, maxHealth := 60,
    position := { x := 0, y := 0 },
    attributes := { strength := 8, intelligence := 2, speed := 4, resilience := 12 },
    needs := { hunger := 1, thirst := 1, rest := 1, social := 1 },
    inventory := [], status := [] }

/-- A world holding only `c4zombie`. -/
def c4mgr : EntityManager :=
  { entities := [(c4zombie, initEntityAI)],
    tiles := [[mkTile 0 0 .grassland 0.5 true]],
    entityPopulationDensity := .medium,
    reproductionProbability := 0.001, deathProbability := 0.0005, agingRate := 0.01,
    nextId := 8, rng := [0.9, 0.9] }

theorem c4mgr_fuel : updateFuel c4mgr = 817 := by
  norm_num [updateFuel, c4mgr, allEntityTypes, getMaxEntityCount, baseMaxCounts,
    getPopulationDensityMultiplier, c4zombie, initEntityAI]

/-- C4 counterexample.  (i) `createEntity` always sets `health := 100`, so a
fresh bird (whose `maxHealth` is 15) violates "health never exceeds
maxHealth" from its first tick; (ii) the lifecycle step skips zombies and
skeletons, so the dead zombie of `c4mgr` is tagged "dead" but survives a full
`update(1)` call — it is never removed from the store. -/
theorem health_death_counterexample :
    ((createEntity .bird 0 0 0 []).1.health = 100 ∧
     (createEntity .bird 0 0 0 []).1.maxHealth = 15 ∧
     ¬ (createEntity .bird 0 0 0 []).1.health ≤ (createEntity .bird 0 0 0 []).1.maxHealth) ∧
    (c4zombie.health ≤ 0 ∧
     ((EntityManager.update (fun q => q) c4mgr 1).entities.map
        (fun p => (p.1.id, p.1.health, p.1.status))) = [((7 : Nat), (0 : ℚ), ["dead"])]) := by
  refine ⟨⟨?_, ?_, ?_⟩, ?_, ?_⟩
  · norm_num [createEntity]
  · norm_num [createEntity]
  · norm_num [createEntity]
  · norm_num [c4zombie]
  · have hfuel : updateFuel c4mgr = 815 + 1 + 1 := by rw [c4mgr_fuel]
    show (updateLoop (fun q => q) (updateFuel c4mgr) c4mgr 0 1).entities.map _ = _
    rw [hfuel]
    norm_num +decide [updateLoop, updateStep, EntityAI.update, processLifecycleEvents,
      die, setEnt, modifyEntity, nextRandom, c4mgr, c4zombie, initEntityAI, mkTile]

/-- C4 amended: (a) when the entity at `i` has `health ≤ 0`, the AI update
diverts to `die`, which zeroes the health, pushes the "dead" tag and enters
the dying state; (b) for a non-undead entity with `health ≤ 0` the lifecycle
step reports a death cause and removes one entity from the store in that same
tick; (c) across a full `update` on a well-formed store no surviving
pre-existing entity's health ever rises above `max health 0` (so health never
exceeds `maxHealth` once it is at most `maxHealth`, but a fresh entity starts
at health 100 even when `maxHealth < 100`); (d) zombie and skeleton entries
are never removed by an update. -/
theorem health_death_discipline (sq : ℚ → ℚ) (delta : ℚ) (hdelta : 0 ≤ delta)
    (m : EntityManager) (i : Nat) (e : Entity) (ai : EntityAI)
    (h : m.entities[i]? = some (e, ai)) :
    (e.health ≤ 0 → (EntityAI.update sq m i delta).entities[i]? =
      some ({ e with health := 0, status := e.status ++ ["dead"] },
        { ai with ticksSinceLastAction := ai.ticksSinceLastAction + delta,
                  currentState := .dying })) ∧
    (e.type ≠ .skeleton → e.type ≠ .zombie → e.health ≤ 0 →
      (processLifecycleEvents m i delta).2.isSome = true ∧
      (processLifecycleEvents m i delta).1.entities.length + 1 = m.entities.length) ∧
    (Good m → ∀ p' ∈ (EntityManager.update sq m delta).entities, p'.1.id < m.nextId →
      ∃ p ∈ m.entities, p.1.id = p'.1.id ∧ p'.1.health ≤ max p.1.health 0 ∧
        p'.1.maxHealth = p.1.maxHealth) ∧
    (∀ p ∈ m.entities, p.1.type = .zombie ∨ p.1.type = .skeleton →
      ∃ p' ∈ (EntityManager.update sq m delta).entities,
        p'.1.id = p.1.id ∧ p'.1.type = p.1.type) := by
  have hlen : i < m.entities.length := (List.getElem?_eq_some.mp h).1
  refine ⟨?_, ?_, ?_, ?_⟩
  · intro hh
    simp only [EntityAI.update, h]
    rw [if_pos hh]
    simp only [die, setEnt, List.getElem?_set_self, hlen]
    simp [List.getElem?_set_self, hlen]
  · intro hsk hzo hh
    have hnot : ¬ (e.type = .skeleton ∨ e.type = .zombie) := by
      rintro (hc | hc)
      · exact hsk hc
      · exact hzo hc
    have hkill : ∀ m' : EntityManager, m'.entities.length = m.entities.length →
        m'.entities[i]? = some ({ e with age := e.age + m.agingRate * delta }, ai) →
        (killEntity m' i).entities.length + 1 = m.entities.length := by
      intro m' hlen' h'
      unfold killEntity
      rw [h']
      have hi' : i < m'.entities.length := hlen' ▸ hlen
      simp only []
      split
      · simp [List.length_eraseIdx, hlen, hi', hlen']
        omega
      · simp [List.length_eraseIdx, hlen, hi', hlen']
        omega
    simp only [processLifecycleEvents, h]
    rw [if_neg hnot]
    set ma := { m with
      entities := m.entities.set i ({ e with age := e.age + m.agingRate * delta }, ai) } with hma
    have hlen2 : ma.entities.length = m.entities.length := by simp [hma]
    have hget : ma.entities[i]? = some ({ e with age := e.age + m.agingRate * delta }, ai) := by
      simp [hma, List.getElem?_set_self, hlen]
    simp only [setEnt, nextRandom]
    by_cases hage : { e with age := e.age + m.agingRate * delta }.age ≥ e.maxAge
    · rw [if_pos (by simpa using hage)]
      exact ⟨rfl, hkill ma hlen2 hget⟩
    · rw [if_neg (by simpa using hage)]
      by_cases hroll : ma.rng.headD 0 < ma.deathProbability * delta
      · rw [if_pos (by simpa using hroll)]
        exact ⟨rfl, hkill { ma with rng := ma.rng.tail } (by simp [hlen2]) (by simp [hget])⟩
      · rw [if_neg (by simpa using hroll), if_pos (by simpa using hh)]
        exact ⟨rfl, hkill { ma with rng := ma.rng.tail } (by simp [hlen2]) (by simp [hget])⟩
  · intro hg p' hp' hlt
    obtain ⟨-, -, hback⟩ := (stepOK_update delta hdelta sq m).2.2 hg
    obtain ⟨p, hp, hid, ht⟩ := hback p' hp' hlt
    exact ⟨p, hp, hid, ht.2.2.2.2.2.1, ht.2.2.1⟩
  · intro p hp hundead
    exact (stepOK_update delta hdelta sq m).2.1 p hp hundead

/-- C4 amended, witness: the dead zombie of `c4mgr` is tagged "dead" and sent
to the dying state by the AI update. -/
theorem health_death_discipline_witness :
    (EntityAI.update (fun q => q) c4mgr 0 1).entities[0]? =
      some ({ c4zombie with health := 0, status := c4zombie.status ++ ["dead"] },
        { initEntityAI with
            ticksSinceLastAction := initEntityAI.ticksSinceLastAction + 1,
            currentState := .dying }) :=
  (health_death_discipline (fun q => q) 1 (by norm_num) c4mgr 0 c4zombie initEntityAI
      (by simp [c4mgr])).1 (by norm_num [c4zombie])

/-- A healthy sleeping human with a half-full rest need. -/
def c7sleeper : Entity :=
  { id := 0, type := .human, name := "Alex", age := 30, maxAge := 80,
    health := 90, maxHealth := 100,
    position := { x := 0, y := 0 },
    attributes := { strength := 10, intelligence := 15, speed := 10, resilience := 10 },
    needs := { hunger := 1, thirst := 1, rest := 0.5, social := 1 },
    inventory := [], status := [] }

/-- A world holding only the sleeping `c7sleeper`. -/
def c7mgr : EntityManager :=
  { entities := [(c7sleeper,
      { initEntityAI with currentState := .sleeping, ticksToNextStateChange := 5 })],
    tiles := [[mkTile 0 0 .grassland 0.5 true]],
    entityPopulationDensity := .medium,
    reproductionProbability := 0.001, deathProbability := 0.0005, agingRate := 0.01,
    nextId := 1, rng := [0.9, 0.9] }

theorem c7mgr_fuel : updateFuel c7mgr = 817 := by
  norm_num [updateFuel, c7mgr, allEntityTypes, getMaxEntityCount, baseMaxCounts,
    getPopulationDensityMultiplier, c7sleeper, initEntityAI]

/-- One unfolding of the fueled loop. -/
theorem updateLoop_succ (sq : ℚ → ℚ) (fuel : Nat) (m : EntityManager) (i : Nat) (delta : ℚ) :
    updateLoop sq (fuel + 1) m i delta =
      if i < m.entities.length then
        updateLoop sq fuel (updateStep sq m i delta).1
          (if (updateStep sq m i delta).2 then i else i + 1) delta
      else m := rfl

/-- The loop is done once the index leaves the store. -/
theorem updateLoop_stable (sq : ℚ → ℚ) (fuel : Nat) (m : EntityManager) (i : Nat)
    (delta : ℚ) (h : ¬ i < m.entities.length) : updateLoop sq fuel m i delta = m := by
  cases fuel
  · rfl
  · rw [updateLoop_succ, if_neg h]

/-- The sleeper one zero-dt AI step later: 0.1 rest restored, timer down. -/
def c7after : Entity × EntityAI :=
  ({ c7sleeper with
      needs := { hunger := 1, thirst := 1, rest := 3/5, social := 1 } },
   { initEntityAI with currentState := .sleeping, ticksToNextStateChange := 4 })

/-- `c7mgr` after the zero-dt AI pass. -/
def c7m1 : EntityManager :=
  { entities := [c7after],
    tiles := [[mkTile 0 0 .grassland 0.5 true]],
    entityPopulationDensity := .medium,
    reproductionProbability := 0.001, deathProbability := 0.0005, agingRate := 0.01,
    nextId := 1, rng := [0.9, 0.9] }

/-- `c7mgr` after the full zero-dt tick (both lifecycle draws consumed). -/
def c7m2 : EntityManager :=
  { entities := [c7after],
    tiles := [[mkTile 0 0 .grassland 0.5 true]],
    entityPopulationDensity := .medium,
    reproductionProbability := 0.001, deathProbability := 0.0005, agingRate := 0.01,
    nextId := 1, rng := [] }

set_option maxHeartbeats 1000000 in
theorem c7_ai_step : EntityAI.update (fun q => q) c7mgr 0 0 = c7m1 := by
  norm_num +decide [EntityAI.update, updateNeeds, handleSleepingState, modifyEntity,
    setEnt, min_def, max_def, c7mgr, c7m1, c7after, c7sleeper, initEntityAI, mkTile]

set_option maxHeartbeats 1000000 in
theorem c7_lifecycle_step : processLifecycleEvents c7m1 0 0 = (c7m2, none) := by
  norm_num +decide [processLifecycleEvents, getPopulationDensityMultiplier, setEnt,
    nextRandom, killEntity, reproduceEntity, c7m1, c7m2, c7after, c7sleeper,
    initEntityAI, mkTile]

set_option maxHeartbeats 1000000 in
/-- C7 counterexample.  `update(0)` is not observation-preserving: the
sleeping handler is not dt-scaled, so a zero-dt tick still restores 0.1 rest
— the sleeper's rest moves from 1/2 to 3/5 (its age stays 30). -/
theorem update_zero_counterexample :
    c7sleeper.needs.rest = 1/2 ∧
    ((EntityManager.update (fun q => q) c7mgr 0).entities.map
        (fun p => (p.1.id, p.1.needs.rest, p.1.age))) = [((0 : Nat), (3/5 : ℚ), (30 : ℚ))] ∧
    (3/5 : ℚ) ≠ 1/2 := by
  refine ⟨by norm_num [c7sleeper], ?_, by norm_num⟩
  have hstep1 : (updateStep (fun q => q) c7mgr 0 0).1 = c7m2 := by
    simp [updateStep, c7_ai_step, c7_lifecycle_step]
  have hstep2 : (updateStep (fun q => q) c7mgr 0 0).2 = false := by
    simp [updateStep, c7_ai_step, c7_lifecycle_step]
  have hfuel : updateFuel c7mgr = 815 + 1 + 1 := by rw [c7mgr_fuel]
  show (updateLoop (fun q => q) (updateFuel c7mgr) c7mgr 0 0).entities.map _ = _
  rw [hfuel, updateLoop_succ,
    if_pos (show (0 : Nat) < c7mgr.entities.length by norm_num [c7mgr]),
    hstep1, hstep2, if_neg (by norm_num),
    updateLoop_stable _ _ _ _ _ (show ¬ 0 + 1 < c7m2.entities.length by norm_num [c7m2])]
  norm_num [c7m2, c7after, c7sleeper, initEntityAI]

/-- C7 amended: a zero-dt update preserves the identity, type, age, bounds
and attributes of every surviving pre-existing entity of a well-formed store
(ageing and need decay scale with dt), but it is not a no-op on the other
observable fields: handlers that are not dt-scaled still fire, e.g. the
sleeping handler restores 0.1 rest and the dying handler pushes a "dead"
tag. -/
theorem update_zero_age_preserved (sq : ℚ → ℚ) (m : EntityManager) (hg : Good m) :
    ∀ p' ∈ (EntityManager.update sq m 0).entities, p'.1.id < m.nextId →
      ∃ p ∈ m.entities, p.1.id = p'.1.id ∧ p'.1.age = p.1.age ∧
        p'.1.type = p.1.type ∧ p'.1.maxHealth = p.1.maxHealth ∧
        p'.1.maxAge = p.1.maxAge ∧ p'.1.attributes = p.1.attributes := by
  intro p' hp' hlt
  obtain ⟨-, -, hback⟩ := (stepOK_update 0 (le_refl 0) sq m).2.2 hg
  obtain ⟨p, hp, hid, ht⟩ := hback p' hp' hlt
  exact ⟨p, hp, hid, ht.2.2.2.2.2.2.2 rfl, ht.2.1, ht.2.2.1, ht.2.2.2.1, ht.2.2.2.2.1⟩

/-- C7 amended, witness: the sleeper's store is well-formed and the age of
every survivor of `update(0)` is unchanged. -/
theorem update_zero_age_preserved_witness :
    Good c7mgr ∧
    (∀ p' ∈ (EntityManager.update (fun q => q) c7mgr 0).entities, p'.1.id < c7mgr.nextId →
      ∃ p ∈ c7mgr.entities, p.1.id = p'.1.id ∧ p'.1.age = p.1.age ∧
        p'.1.type = p.1.type ∧ p'.1.maxHealth = p.1.maxHealth ∧
        p'.1.maxAge = p.1.maxAge ∧ p'.1.attributes = p.1.attributes) := by
  have hg : Good c7mgr := by
    refine ⟨?_, ?_, ?_⟩
    · intro p hp
      simp only [c7mgr, List.mem_singleton] at hp
      subst hp
      norm_num [c7sleeper, c7mgr]
    · simp [IdsNodup, c7mgr]
    · intro p hp
      simp only [c7mgr, List.mem_singleton] at hp
      subst hp
      norm_num [c7sleeper]
  exact ⟨hg, update_zero_age_preserved (fun q => q) c7mgr hg⟩

/-- A reproduction-ready human parent (fertile age window, full health). -/
def c6parent : Entity :=
  { id := 0, type := .human, name := "Alex", age := 30, maxAge := 80,
    health := 100, maxHealth := 100,
    position := { x := 0, y := 0 },
    attributes := { strength := 10, intelligence := 15, speed := 10, resilience := 10 },
    needs := { hunger := 1, thirst := 1, rest := 1, social := 1/2 },
    inventory := [], status := [] }

/-- A 2×1 grassland world holding only the parent; the stream forces an idle
tick, survival, and a successful reproduction roll, then drives the child's
own tick. -/
def c6mgr : EntityManager :=
  { entities := [(c6parent, initEntityAI)],
    tiles := [[{ mkTile 0 0 .grassland 0.5 true with entities := [0] }],
              [mkTile 1 0 .grassland 0.5 true]],
    entityPopulationDensity := .medium,
    reproductionProbability := 0.001, deathProbability := 0.0005, agingRate := 0.01,
    nextId := 1, rng := [9/10, 9/10, 1/2000, 0, 0, 9/10, 9/10] }

/-- The parent after its AI tick: needs decayed, one idle draw consumed. -/
def c6p1 : Entity :=
  { c6parent with
    age := 3001/100,
    needs := { hunger := 99/100, thirst := 197/200, rest := 199/200, social := 249/500 } }

/-- `c6mgr` after the parent's AI pass. -/
def c6a1 : EntityManager :=
  { entities := [(c6p1, initEntityAI)],
    tiles := [[{ mkTile 0 0 .grassland 0.5 true with entities := [0] }],
              [mkTile 1 0 .grassland 0.5 true]],
    entityPopulationDensity := .medium,
    reproductionProbability := 0.001, deathProbability := 0.0005, agingRate := 0.01,
    nextId := 1, rng := [9/10, 1/2000, 0, 0, 9/10, 9/10] }

theorem c6_ai_parent : EntityAI.update (fun q => q) c6mgr 0 1 = c6a1 := by
  norm_num +decide [EntityAI.update, updateNeeds, handleIdleState, canReproduce,
    moveRandomly, findWaterSource, findFoodSource, findSocialInteraction, modifyEntity,
    setEnt, nextRandom, min_def, max_def, c6mgr, c6a1, c6parent, c6p1, initEntityAI, mkTile]

/-- The parent aged by the lifecycle step. -/
def c6p2 : Entity :=
  { c6p1 with
    age := 1501/50 }

/-- The store passed to `reproduceEntity`: parent aged, both lifecycle draws
consumed. -/
def c6mid : EntityManager :=
  { entities := [(c6p2, initEntityAI)],
    tiles := [[{ mkTile 0 0 .grassland 0.5 true with entities := [0] }],
              [mkTile 1 0 .grassland 0.5 true]],
    entityPopulationDensity := .medium,
    reproductionProbability := 0.001, deathProbability := 0.0005, agingRate := 0.01,
    nextId := 1, rng := [0, 0, 9/10, 9/10] }

theorem c6_lifecycle_parent :
    processLifecycleEvents c6a1 0 1 = (reproduceEntity c6mid 0, none) := by
  norm_num +decide [processLifecycleEvents, getPopulationDensityMultiplier, setEnt,
    nextRandom, c6a1, c6mid, c6p1, c6p2, c6parent, initEntityAI, mkTile]

/-- The child spawned on tile (1,0). -/
def c6child : Entity :=
  { id := 1, type := .human, name := "Alex", age := 0, maxAge := 80,
    health := 100, maxHealth := 100,
    position := { x := 1, y := 0 },
    attributes := { strength := 10, intelligence := 15, speed := 10, resilience := 10 },
    needs := { hunger := 1, thirst := 1, rest := 1, social := 1 },
    inventory := [], status := [] }

/-- The store after the parent's whole first-tick step: the child is appended
to the entity map (insertion order) and to tile (1,0), the parent is tagged
"reproduced". -/
def c6fin : EntityManager :=
  { entities := [({ c6p2 with status := ["reproduced"] }, initEntityAI),
                 (c6child, initEntityAI)],
    tiles := [[{ mkTile 0 0 .grassland 0.5 true with entities := [0] }],
              [{ mkTile 1 0 .grassland 0.5 true with entities := [1] }]],
    entityPopulationDensity := .medium,
    reproductionProbability := 0.001, deathProbability := 0.0005, agingRate := 0.01,
    nextId := 2, rng := [9/10, 9/10] }

set_option maxHeartbeats 2000000 in
theorem c6_reproduce : reproduceEntity c6mid 0 = c6fin := by
  norm_num +decide [reproduceEntity, getEntityCountByType, getMaxEntityCount,
    baseMaxCounts, getPopulationDensityMultiplier, getNearbyTiles, jsIndexQ,
    isSuitableTileForEntity, spawnEntity, gridGet?, createEntity, generateEntityName,
    entityNames, updateTile, modifyEntity, setEnt, nextRandom, List.range_succ,
    List.range_zero, List.flatMap_cons, List.flatMap_nil, List.filterMap_cons,
    List.filterMap_nil, List.foldl_cons, List.foldl_nil, Int.toNat, c6mid, c6fin,
    c6p2, c6p1, c6parent, c6child, initEntityAI, mkTile]

/-- The child after its own AI tick (run in the same update call). -/
def c6c1child : Entity :=
  { c6child with
    age := 1/100,
    needs := { hunger := 99/100, thirst := 197/200, rest := 199/200, social := 499/500 } }

/-- The store after the child's AI pass. -/
def c6c1 : EntityManager :=
  { entities := [({ c6p2 with status := ["reproduced"] }, initEntityAI),
                 (c6c1child, initEntityAI)],
    tiles := [[{ mkTile 0 0 .grassland 0.5 true with entities := [0] }],
              [{ mkTile 1 0 .grassland 0.5 true with entities := [1] }]],
    entityPopulationDensity := .medium,
    reproductionProbability := 0.001, deathProbability := 0.0005, agingRate := 0.01,
    nextId := 2, rng := [9/10] }

theorem c6_ai_child : EntityAI.update (fun q => q) c6fin 1 1 = c6c1 := by
  norm_num +decide [EntityAI.update, updateNeeds, handleIdleState, canReproduce,
    moveRandomly, findWaterSource, findFoodSource, findSocialInteraction, modifyEntity,
    setEnt, nextRandom, min_def, max_def, c6fin, c6c1, c6p2, c6p1, c6parent, c6child,
    c6c1child, initEntityAI, mkTile]

/-- The store after the child's lifecycle pass: the child has aged to 1/50.  -/
def c6d1 : EntityManager :=
  { entities := [({ c6p2 with status := ["reproduced"] }, initEntityAI),
                 ({ c6c1child with age := 1/50 }, initEntityAI)],
    tiles := [[{ mkTile 0 0 .grassland 0.5 true with entities := [0] }],
              [{ mkTile 1 0 .grassland 0.5 true with entities := [1] }]],
    entityPopulationDensity := .medium,
    reproductionProbability := 0.001, deathProbability := 0.0005, agingRate := 0.01,
    nextId := 2, rng := [] }

theorem c6_lifecycle_child :
    processLifecycleEvents c6c1 1 1 = (c6d1, none) := by
  norm_num +decide [processLifecycleEvents, getPopulationDensityMultiplier, setEnt,
    nextRandom, c6c1, c6d1, c6c1child, c6child, c6p2, c6p1, c6parent, initEntityAI,
    mkTile]

theorem c6mgr_fuel : updateFuel c6mgr = 817 := by
  norm_num [updateFuel, c6mgr, allEntityTypes, getMaxEntityCount, baseMaxCounts,
    getPopulationDensityMultiplier, c6parent, initEntityAI]

/-- C6 counterexample.  Structural mutations are applied immediately, not
deferred: the update loop runs under JavaScript Map iteration semantics, so a
child spawned mid-tick is appended to the live collection and processed in
that same tick — after one `update(1)` on the one-parent world the child
already has age 1/50 (two ageing increments of its own tick), not the age 0 a
deferred insertion would leave. -/
theorem deferred_mutation_counterexample :
    c6mgr.entities.length = 1 ∧
    ((EntityManager.update (fun q => q) c6mgr 1).entities.map
        (fun p => (p.1.id, p.1.age, p.1.status))) =
      [((0 : Nat), (1501/50 : ℚ), ["reproduced"]), (1, 1/50, [])] ∧
    (1/50 : ℚ) ≠ 0 := by
  refine ⟨by norm_num [c6mgr], ?_, by norm_num⟩
  have hstep1a : (updateStep (fun q => q) c6mgr 0 1).1 = c6fin := by
    simp [updateStep, c6_ai_parent, c6_lifecycle_parent, c6_reproduce]
  have hstep1b : (updateStep (fun q => q) c6mgr 0 1).2 = false := by
    simp [updateStep, c6_ai_parent, c6_lifecycle_parent]
  have hstep2a : (updateStep (fun q => q) c6fin 1 1).1 = c6d1 := by
    simp [updateStep, c6_ai_child, c6_lifecycle_child]
  have hstep2b : (updateStep (fun q => q) c6fin 1 1).2 = false := by
    simp [updateStep, c6_ai_child, c6_lifecycle_child]
  have hfuel : updateFuel c6mgr = 815 + 1 + 1 := by rw [c6mgr_fuel]
  show (updateLoop (fun q => q) (updateFuel c6mgr) c6mgr 0 1).entities.map _ = _
  rw [hfuel, updateLoop_succ,
    if_pos (show (0 : Nat) < c6mgr.entities.length by norm_num [c6mgr]),
    hstep1a, hstep1b, if_neg (by norm_num),
    updateLoop_succ,
    if_pos (show 0 + 1 < c6fin.entities.length by norm_num [c6fin]),
    hstep2a, hstep2b, if_neg (by norm_num),
    updateLoop_stable _ _ _ _ _ (show ¬ 0 + 1 + 1 < c6d1.entities.length by norm_num [c6d1])]
  norm_num [c6d1, c6p2, c6p1, c6parent, c6c1child, c6child, initEntityAI]

theorem modifyEntity_entity_ids (m : EntityManager) (i : Nat) (f : Entity → Entity)
    (hid : ∀ e, (f e).id = e.id) :
    (modifyEntity m i f).entities.map (fun p => p.1.id)
      = m.entities.map (fun p => p.1.id) := by
  unfold modifyEntity
  split
  · rfl
  · rename_i e ai h
    show ((m.entities.set i (f e, ai)).map (fun p => p.1.id)) = _
    rw [List.map_set]
    have hx : (m.entities.map (fun p => p.1.id))[i]? = some (f e).id := by
      rw [List.getElem?_map, h]
      simp [hid]
    rw [set_getElem?_self _ _ _ hx]

theorem spawn_then_tag_ids (m2 : EntityManager) (i : Nat) (ty : EntityType) (x y : Int) :
    ((modifyEntity (spawnEntity m2 ty x y).2 i
        (fun e => { e with status := e.status ++ ["reproduced"] })).entities.map
      (fun p => p.1.id) = m2.entities.map (fun p => p.1.id)) ∨
    ((modifyEntity (spawnEntity m2 ty x y).2 i
        (fun e => { e with status := e.status ++ ["reproduced"] })).entities.map
      (fun p => p.1.id) = m2.entities.map (fun p => p.1.id) ++ [m2.nextId]) := by
  have hmod := modifyEntity_entity_ids (spawnEntity m2 ty x y).2 i
    (fun e => { e with status := e.status ++ ["reproduced"] }) (fun _ => rfl)
  rcases spawnEntity_entities_ids m2 ty x y with ⟨he, _⟩ | ⟨e', he, _, hid, _, _, _⟩
  · rw [hmod, he]
    exact Or.inl rfl
  · rw [hmod, he, List.map_append, List.map_cons, List.map_nil, hid]
    exact Or.inr rfl

/-- C6 amended: structural mutations of the entity collection are applied
immediately, under JavaScript Map iteration semantics, with no deferral:
(i) a kill splices the current entry out of the collection on the spot;
(ii) a reproduction event appends at most one fresh child at the end of the
collection — in insertion order, so the loop visits it later in the same
tick (the counterexample run shows the child aging in its birth tick);
(iii) the loop keeps the index in place exactly when the processed entry was
killed (the deletion shifts the next entry into the current slot) and
advances it otherwise, so no surviving entry is skipped or visited twice. -/
theorem immediate_mutation_semantics (m : EntityManager) (i : Nat) :
    (∀ e ai, m.entities[i]? = some (e, ai) →
      (killEntity m i).entities = m.entities.eraseIdx i) ∧
    ((reproduceEntity m i).entities.map (fun p => p.1.id)
        = m.entities.map (fun p => p.1.id) ∨
      (reproduceEntity m i).entities.map (fun p => p.1.id)
        = m.entities.map (fun p => p.1.id) ++ [m.nextId]) ∧
    (∀ sq fuel delta, updateLoop sq (fuel + 1) m i delta =
      if i < m.entities.length then
        updateLoop sq fuel (updateStep sq m i delta).1
          (if (updateStep sq m i delta).2 then i else i + 1) delta
      else m) := by
  refine ⟨?_, ?_, fun sq fuel delta => updateLoop_succ sq fuel m i delta⟩
  · intro e ai h
    simp only [killEntity, h]
    split <;> rfl
  · simp only [reproduceEntity]
    split
    · exact Or.inl rfl
    · rename_i e ai h
      split
      · exact Or.inl rfl
      · split
        · exact Or.inl rfl
        · split
          · exact Or.inl rfl
          · rename_i chosen hchosen
            exact spawn_then_tag_ids _ i e.type chosen.x chosen.y

/-- C6 amended, witness: killing the single entity of the lifecycle world
splices it out of the collection on the spot. -/
theorem immediate_mutation_semantics_witness :
    (killEntity lifecycleMgr 0).entities = lifecycleMgr.entities.eraseIdx 0 :=
  (immediate_mutation_semantics lifecycleMgr 0).1 deadOldHuman initEntityAI
    (by simp [lifecycleMgr])

/-- The game's grids are rectangular: every row has the width of the first. -/
def Rect (tiles : List (List Tile)) : Prop :=
  ∀ row ∈ tiles, row.length = (tiles.headD []).length

/-- In-bounds grid positions (the bounds the source checks neighbours
against). -/
def validPos (tiles : List (List Tile)) (p : GridPos) : Prop :=
  p.1 < tiles.length ∧ p.2 < (tiles.headD []).length

/-- Reachability along the 8-neighbour relation through tiles traversable for
the entity type (the target tile of each step must be walkable; the start is
not checked, as in the source). -/
inductive Reach (tiles : List (List Tile)) (ty : EntityType) (s : GridPos) : GridPos → Prop
  | refl : Reach tiles ty s s
  | step {p n : GridPos} {ntile : Tile} : Reach tiles ty s p →
      n ∈ neighborPositions tiles p →
      gridGet? tiles n.1 n.2 = some ntile →
      isWalkableForEntity ntile ty = true →
      Reach tiles ty s n

theorem neighborPositions_valid (tiles : List (List Tile)) (p n : GridPos)
    (h : n ∈ neighborPositions tiles p) : validPos tiles n := by
  simp only [neighborPositions, List.mem_flatMap, List.mem_filterMap, List.mem_range] at h
  obtain ⟨dxi, -, dyi, -, hn⟩ := h
  split at hn
  · exact absurd hn (by simp)
  · split at hn
    · rename_i hb
      obtain ⟨h1, h2, h3, h4⟩ := hb
      obtain ⟨rfl⟩ := Option.some_injective _ hn
      constructor <;> simp only [validPos] <;> omega
    · exact absurd hn (by simp)

theorem gridGet?_isSome_of_valid (tiles : List (List Tile)) (p : GridPos)
    (hrect : Rect tiles) (hv : validPos tiles p) :
    ∃ tile, gridGet? tiles p.1 p.2 = some tile := by
  obtain ⟨h1, h2⟩ := hv
  have hrow : tiles[p.1]? = some tiles[p.1] := List.getElem?_eq_getElem h1
  have hw : tiles[p.1].length = (tiles.headD []).length :=
    hrect tiles[p.1] (List.getElem_mem h1)
  have h2' : p.2 < tiles[p.1].length := hw ▸ h2
  refine ⟨tiles[p.1][p.2], ?_⟩
  unfold gridGet?
  rw [hrow]
  simp [List.getElem?_eq_getElem h2']

/-- All in-bounds positions of the grid. -/
def allPositions (tiles : List (List Tile)) : List GridPos :=
  (List.range tiles.length).flatMap (fun i =>
    (List.range (tiles.headD []).length).map (fun j => (i, j)))

theorem mem_allPositions (tiles : List (List Tile)) (p : GridPos)
    (hv : validPos tiles p) : p ∈ allPositions tiles := by
  obtain ⟨h1, h2⟩ := hv
  simp only [allPositions, List.mem_flatMap, List.mem_map, List.mem_range]
  exact ⟨p.1, h1, p.2, h2, rfl⟩

theorem allPositions_length_of_rect (tiles : List (List Tile)) (hrect : Rect tiles) :
    (allPositions tiles).length = totalTiles tiles := by
  have h1 : (List.map (List.length ∘ fun i =>
        List.map (fun j => ((i, j) : GridPos)) (List.range (tiles.headD []).length))
      (List.range tiles.length))
      = List.replicate tiles.length (tiles.headD []).length := by
    refine (List.eq_replicate_iff).mpr ⟨by simp, ?_⟩
    intro b hb
    simp only [List.mem_map, Function.comp] at hb
    obtain ⟨i, -, rfl⟩ := hb
    simp
  have h2 : List.map List.length tiles
      = List.replicate tiles.length (tiles.headD []).length := by
    refine (List.eq_replicate_iff).mpr ⟨by simp, ?_⟩
    intro b hb
    obtain ⟨row, hrow, rfl⟩ := List.mem_map.mp hb
    exact hrect row hrow
  simp only [allPositions, totalTiles, List.length_flatMap, h1, h2]

/-- A duplicate-free list of in-bounds positions is no longer than the grid. -/
theorem nodup_valid_length_le (tiles : List (List Tile)) (hrect : Rect tiles)
    (l : List GridPos) (hnd : l.Nodup) (hv : ∀ p ∈ l, validPos tiles p) :
    l.length ≤ totalTiles tiles := by
  have hsub : l ⊆ allPositions tiles := fun p hp => mem_allPositions tiles p (hv p hp)
  have := (List.subperm_of_subset hnd hsub).length_le
  rw [allPositions_length_of_rect tiles hrect] at this
  exact this

theorem findLowestAux_spec (fC hC : GridPos → Option ℚ) (l : List GridPos) :
    ∀ (rest : List GridPos) (i : Nat) (best : Nat × GridPos),
      l[best.1]? = some best.2 →
      (∀ k, l[i + k]? = rest[k]?) →
      l[(findLowestAux fC hC rest i best).1]? = some (findLowestAux fC hC rest i best).2 := by
  intro rest
  induction rest with
  | nil =>
    intro i best hbest _
    exact hbest
  | cons p rest' ih =>
    intro i best hbest hsuf
    simp only [findLowestAux]
    have hp : l[i]? = some p := by
      have := hsuf 0
      simpa using this
    have hsuf' : ∀ k, l[(i + 1) + k]? = rest'[k]? := by
      intro k
      have := hsuf (k + 1)
      rw [List.getElem?_cons_succ] at this
      rw [← this]
      congr 1
      omega
    split
    · exact ih (i + 1) (i, p) hp hsuf'
    · split
      · exact ih (i + 1) (i, p) hp hsuf'
      · exact ih (i + 1) best hbest hsuf'

theorem findLowestIndex_mem (openSet : List GridPos) (fC hC : GridPos → Option ℚ)
    (h : openSet ≠ []) :
    openSet[(findLowestIndex openSet fC hC).1]? = some (findLowestIndex openSet fC hC).2 := by
  match openSet, h with
  | p0 :: rest, _ =>
    simp only [findLowestIndex]
    refine findLowestAux_spec fC hC (p0 :: rest) rest 1 (0, p0) (by simp) ?_
    intro k
    rw [Nat.add_comm 1 k, List.getElem?_cons_succ]

theorem not_mem_eraseIdx_self (l : List GridPos) (k : Nat) (a : GridPos)
    (hnd : l.Nodup) (hk : l[k]? = some a) : a ∉ l.eraseIdx k := by
  have hklen : k < l.length := (List.getElem?_eq_some.mp hk).1
  have hdrop : l.drop k = a :: l.drop (k + 1) := by
    rw [List.drop_eq_getElem_cons hklen]
    congr 1
    have := List.getElem?_eq_getElem hklen
    rw [hk] at this
    exact (Option.some_injective _ this.symm)
  have hsplit : l = l.take k ++ a :: l.drop (k + 1) := by
    rw [← hdrop, List.take_append_drop]
  rw [List.eraseIdx_eq_take_drop_succ]
  intro hmem
  have hnd2 : (l.take k ++ a :: l.drop (k + 1)).Nodup := hsplit ▸ hnd
  rw [List.nodup_append] at hnd2
  obtain ⟨-, hnd3, hdisj⟩ := hnd2
  rcases List.mem_append.mp hmem with hin | hin
  · exact hdisj hin (by simp)
  · exact (List.nodup_cons.mp hnd3).1 hin

/-- The loop invariant of the A* search. -/
structure WF (tiles : List (List Tile)) (ty : EntityType) (s t : GridPos)
    (st : SearchState) : Prop where
  openNodup : st.openSet.Nodup
  closedNodup : st.closedSet.Nodup
  disj : ∀ p ∈ st.openSet, p ∉ st.closedSet
  openValid : ∀ p ∈ st.openSet, validPos tiles p
  closedValid : ∀ p ∈ st.closedSet, validPos tiles p
  startMem : s ∈ st.openSet ∨ s ∈ st.closedSet
  startOpen : s ∈ st.openSet → st.openSet = [s] ∧ st.closedSet = []
  parentStart : st.parent s = none
  parentOpen : ∀ p ∈ st.openSet, p ≠ s → ∃ q, st.parent p = some q ∧ q ∈ st.closedSet
  parentClosed : ∀ (j : Nat) (p : GridPos), st.closedSet[j]? = some p → p ≠ s →
    ∃ (k : Nat) (q : GridPos), k < j ∧ st.closedSet[k]? = some q ∧ st.parent p = some q
  closure : ∀ c ∈ st.closedSet, ∀ n ∈ neighborPositions tiles c,
    (∀ ntile, gridGet? tiles n.1 n.2 = some ntile → isWalkableForEntity ntile ty = true) →
    n ∈ st.openSet ∨ n ∈ st.closedSet
  targetNotClosed : t ∉ st.closedSet
  reachAll : ∀ p, (p ∈ st.openSet ∨ p ∈ st.closedSet) → Reach tiles ty s p

/-- Following the parent chain of a node of the closed set lands on the start
tile: the path is front-anchored at the start and back-anchored at the node. -/
theorem reconstructPath_spec (closed : List GridPos) (parent : GridPos → Option GridPos)
    (s : GridPos) (hps : parent s = none)
    (hchain : ∀ (j : Nat) (p : GridPos), closed[j]? = some p → p ≠ s →
      ∃ (k : Nat) (q : GridPos), k < j ∧ closed[k]? = some q ∧ parent p = some q) :
    ∀ fuel j p, closed[j]? = some p → j < fuel →
      (reconstructPath parent fuel p).head? = some s ∧
      (reconstructPath parent fuel p).getLast? = some p := by
  intro fuel
  induction fuel with
  | zero =>
    intro j p _ hj
    omega
  | succ f ih =>
    intro j p hp hj
    by_cases hs : p = s
    · subst hs
      simp only [reconstructPath, hps]
      exact ⟨rfl, rfl⟩
    · obtain ⟨k, q, hk, hq, hpar⟩ := hchain j p hp hs
      have hrec := ih k q hq (by omega)
      simp only [reconstructPath, hpar]
      constructor
      · rw [List.head?_append_of_ne_nil]
        · exact hrec.1
        · intro hnil
          rw [hnil] at hrec
          simp at hrec
      · simp

theorem processNeighbor_closedSet (tiles : List (List Tile)) (ty : EntityType)
    (tgt cur : GridPos) (st : SearchState) (n : GridPos) :
    (processNeighbor tiles ty tgt cur st n).closedSet = st.closedSet := by
  simp only [processNeighbor]
  split
  · rfl
  · split <;> try rfl
    split <;> try rfl
    split <;> try rfl
    split <;> rfl

theorem processNeighbor_open_mono (tiles : List (List Tile)) (ty : EntityType)
    (tgt cur : GridPos) (st : SearchState) (n : GridPos) :
    st.openSet ⊆ (processNeighbor tiles ty tgt cur st n).openSet := by
  simp only [processNeighbor]
  split
  · exact fun p hp => hp
  · split
    · split
      · exact fun p hp => hp
      · split
        · split
          · exact fun p hp => List.mem_append_left _ hp
          · exact fun p hp => hp
        · exact fun p hp => hp
    · exact fun p hp => hp

/-- The invariant carried through the neighbour-relaxation fold: the closed
set `C` is frozen, the open set only grows over `base`, every open node has a
closed parent, the parents of closed nodes (recorded in `par0`) are never
touched. -/
structure MidInv (tiles : List (List Tile)) (ty : EntityType) (s : GridPos)
    (C base : List GridPos) (par0 : GridPos → Option GridPos)
    (st : SearchState) : Prop where
  closedEq : st.closedSet = C
  openNodup : st.openSet.Nodup
  openDisj : ∀ p ∈ st.openSet, p ∉ C
  openValid : ∀ p ∈ st.openSet, validPos tiles p
  baseSub : base ⊆ st.openSet
  openNew : ∀ p ∈ st.openSet, p ∈ base ∨ Reach tiles ty s p
  parentStart : st.parent s = none
  parentOpen : ∀ p ∈ st.openSet, p ≠ s → ∃ q, st.parent p = some q ∧ q ∈ C
  parentC : ∀ p ∈ C, st.parent p = par0 p

theorem processNeighbor_midInv (tiles : List (List Tile)) (ty : EntityType)
    (tgt cur s : GridPos) (C base : List GridPos) (par0 : GridPos → Option GridPos)
    (st : SearchState) (n : GridPos)
    (hrect : Rect tiles) (hcv : validPos tiles cur)
    (hcurC : cur ∈ C) (hsC : s ∈ C)
    (hncur : n ∈ neighborPositions tiles cur)
    (hreach : Reach tiles ty s cur)
    (hinv : MidInv tiles ty s C base par0 st) :
    MidInv tiles ty s C base par0 (processNeighbor tiles ty tgt cur st n) ∧
    ((∀ ntile, gridGet? tiles n.1 n.2 = some ntile → isWalkableForEntity ntile ty = true) →
      n ∈ (processNeighbor tiles ty tgt cur st n).openSet ∨ n ∈ C) := by
  obtain ⟨hce, hond, hod, hov, hbs, honew, hps, hpo, hpc⟩ := hinv
  simp only [processNeighbor]
  split
  · rename_i hcont
    refine ⟨⟨hce, hond, hod, hov, hbs, honew, hps, hpo, hpc⟩, fun _ => Or.inr ?_⟩
    rw [← hce]
    simpa using hcont
  · rename_i hcont
    have hnC : n ∉ C := by
      rw [← hce]
      simpa using hcont
    split
    · rename_i ntile ctile hlookn hlookc
      split
      · rename_i hwalkF
        refine ⟨⟨hce, hond, hod, hov, hbs, honew, hps, hpo, hpc⟩, fun hW => ?_⟩
        exact absurd (hW ntile hlookn) (by simp [hwalkF])
      · rename_i hwalkT
        have hwalk : isWalkableForEntity ntile ty = true := by
          revert hwalkT
          cases isWalkableForEntity ntile ty <;> simp
        have hreachn : Reach tiles ty s n := Reach.step hreach hncur hlookn hwalk
        have hns : n ≠ s := fun he => hnC (he ▸ hsC)
        split
        · rename_i hrelax
          split
          · rename_i hnew
            have hnopen : n ∉ st.openSet := by
              simpa using hnew
            refine ⟨⟨hce, ?_, ?_, ?_, ?_, ?_, ?_, ?_, ?_⟩, fun _ => Or.inl ?_⟩
            · simp [List.nodup_append, hond, hnopen]
            · intro p hp
              rcases List.mem_append.mp hp with hp | hp
              · exact hod p hp
              · rw [List.mem_singleton] at hp
                exact hp ▸ hnC
            · intro p hp
              rcases List.mem_append.mp hp with hp | hp
              · exact hov p hp
              · rw [List.mem_singleton] at hp
                exact hp ▸ neighborPositions_valid tiles cur n hncur
            · exact fun p hp => List.mem_append_left _ (hbs hp)
            · intro p hp
              rcases List.mem_append.mp hp with hp | hp
              · exact honew p hp
              · rw [List.mem_singleton] at hp
                exact Or.inr (hp ▸ hreachn)
            · show (if s = n then some cur else st.parent s) = none
              rw [if_neg (fun he => hns he.symm), hps]
            · intro p hp hpns
              rcases List.mem_append.mp hp with hp | hp
              · show (∃ q, (if p = n then some cur else st.parent p) = some q ∧ q ∈ C)
                by_cases hpn : p = n
                · exact ⟨cur, by rw [if_pos hpn], hcurC⟩
                · rw [if_neg hpn]
                  exact hpo p hp hpns
              · rw [List.mem_singleton] at hp
                show (∃ q, (if p = n then some cur else st.parent p) = some q ∧ q ∈ C)
                exact ⟨cur, by rw [if_pos hp], hcurC⟩
            · intro p hp
              show (if p = n then some cur else st.parent p) = par0 p
              rw [if_neg (show ¬ p = n from fun he => absurd hp (by rw [he]; exact hnC)),
                hpc p hp]
            · exact List.mem_append_right _ (by simp)
          · rename_i hnew
            have hnopen : n ∈ st.openSet := by
              rw [Bool.not_eq_false] at hnew
              simpa using hnew
            refine ⟨⟨hce, hond, hod, hov, hbs, honew, ?_, ?_, ?_⟩, fun _ => Or.inl hnopen⟩
            · show (if s = n then some cur else st.parent s) = none
              rw [if_neg (fun he => hns he.symm), hps]
            · intro p hp hpns
              show (∃ q, (if p = n then some cur else st.parent p) = some q ∧ q ∈ C)
              by_cases hpn : p = n
              · exact ⟨cur, by rw [if_pos hpn], hcurC⟩
              · rw [if_neg hpn]
                exact hpo p hp hpns
            · intro p hp
              show (if p = n then some cur else st.parent p) = par0 p
              rw [if_neg (show ¬ p = n from fun he => absurd hp (by rw [he]; exact hnC)),
                hpc p hp]
        · rename_i hrelax
          refine ⟨⟨hce, hond, hod, hov, hbs, honew, hps, hpo, hpc⟩, fun _ => Or.inl ?_⟩
          simp only [not_or] at hrelax
          have hnew := hrelax.1
          rw [Bool.not_eq_false] at hnew
          simpa using hnew
    · rename_i hmiss
      obtain ⟨ntile, hlookn⟩ :=
        gridGet?_isSome_of_valid tiles n hrect (neighborPositions_valid tiles cur n hncur)
      obtain ⟨ctile, hlookc⟩ := gridGet?_isSome_of_valid tiles cur hrect hcv
      exact absurd (hmiss ntile ctile (by rw [hlookn]) (by rw [hlookc])) (fun h => h)

theorem foldl_processNeighbor_open_mono (tiles : List (List Tile)) (ty : EntityType)
    (tgt cur : GridPos) :
    ∀ (ns : List GridPos) (st : SearchState),
      st.openSet ⊆ (ns.foldl (fun st n => processNeighbor tiles ty tgt cur st n) st).openSet := by
  intro ns
  induction ns with
  | nil => exact fun st p hp => hp
  | cons n ns' ih =>
    intro st
    exact fun p hp =>
      ih (processNeighbor tiles ty tgt cur st n)
        (processNeighbor_open_mono tiles ty tgt cur st n hp)

theorem foldl_processNeighbor_midInv (tiles : List (List Tile)) (ty : EntityType)
    (tgt cur s : GridPos) (C base : List GridPos) (par0 : GridPos → Option GridPos)
    (hrect : Rect tiles) (hcv : validPos tiles cur)
    (hcurC : cur ∈ C) (hsC : s ∈ C)
    (hreach : Reach tiles ty s cur) :
    ∀ (ns : List GridPos), (∀ n ∈ ns, n ∈ neighborPositions tiles cur) →
    ∀ st, MidInv tiles ty s C base par0 st →
      MidInv tiles ty s C base par0
        (ns.foldl (fun st n => processNeighbor tiles ty tgt cur st n) st) ∧
      (∀ n ∈ ns,
        (∀ ntile, gridGet? tiles n.1 n.2 = some ntile → isWalkableForEntity ntile ty = true) →
        n ∈ (ns.foldl (fun st n => processNeighbor tiles ty tgt cur st n) st).openSet ∨
          n ∈ C) := by
  intro ns
  induction ns with
  | nil =>
    intro _ st hinv
    exact ⟨hinv, by simp⟩
  | cons n ns' ih =>
    intro hns st hinv
    have hstep := processNeighbor_midInv tiles ty tgt cur s C base par0 st n
      hrect hcv hcurC hsC (hns n (by simp)) hreach hinv
    have hrec := ih (fun n' hn' => hns n' (List.mem_cons_of_mem n hn'))
      (processNeighbor tiles ty tgt cur st n) hstep.1
    simp only [List.foldl_cons]
    refine ⟨hrec.1, ?_⟩
    intro n' hn' hW
    rcases List.mem_cons.mp hn' with hn' | hn'
    · subst hn'
      rcases hstep.2 hW with hin | hin
      · exact Or.inl (foldl_processNeighbor_open_mono tiles ty tgt cur ns' _ hin)
      · exact Or.inr hin
    · exact hrec.2 n' hn' hW

theorem getElem?_append_left' {α : Type} (l l' : List α) (j : Nat) (h : j < l.length) :
    (l ++ l')[j]? = l[j]? := by
  rw [List.getElem?_append, if_pos h]

set_option maxHeartbeats 1000000 in
/-- One iteration of the A* body — moving the selected open node to the
closed set and relaxing its neighbours — preserves the loop invariant and
grows the closed set by exactly one. -/
theorem wf_step (tiles : List (List Tile)) (ty : EntityType) (s t : GridPos)
    (hrect : Rect tiles) (st : SearchState) (hwf : WF tiles ty s t st)
    (sel : Nat × GridPos) (hsel : st.openSet[sel.1]? = some sel.2) (hne : sel.2 ≠ t) :
    WF tiles ty s t
      ((neighborPositions tiles sel.2).foldl
        (fun st n => processNeighbor tiles ty t sel.2 st n)
        { st with openSet := st.openSet.eraseIdx sel.1,
                  closedSet := st.closedSet ++ [sel.2] }) ∧
    ((neighborPositions tiles sel.2).foldl
        (fun st n => processNeighbor tiles ty t sel.2 st n)
        { st with openSet := st.openSet.eraseIdx sel.1,
                  closedSet := st.closedSet ++ [sel.2] }).closedSet.length
      = st.closedSet.length + 1 := by
  set cur := sel.2 with hcur
  set C := st.closedSet ++ [cur] with hC
  set base := st.openSet.eraseIdx sel.1 with hbase
  have hcuro : cur ∈ st.openSet := mem_of_getElem?_aux _ _ _ hsel
  have hcv : validPos tiles cur := hwf.openValid cur hcuro
  have hcurC : cur ∈ C := List.mem_append_right _ (by simp)
  have hcurnotbase : cur ∉ base := not_mem_eraseIdx_self _ _ _ hwf.openNodup hsel
  have hsC : s ∈ C := by
    rcases hwf.startMem with hs | hs
    · obtain ⟨hop, -⟩ := hwf.startOpen hs
      have : cur = s := by
        have := hcuro
        rw [hop, List.mem_singleton] at this
        exact this
      rw [← this]
      exact hcurC
    · exact List.mem_append_left _ hs
  have hreach : Reach tiles ty s cur := hwf.reachAll cur (Or.inl hcuro)
  have hbsub : ∀ p ∈ base, p ∈ st.openSet :=
    fun p hp => List.eraseIdx_subset _ _ hp
  have hinv0 : MidInv tiles ty s C base st.parent
      { st with openSet := base, closedSet := C } := by
    refine ⟨rfl, hwf.openNodup.sublist (List.eraseIdx_sublist _ _), ?_, ?_, ?_, ?_,
      hwf.parentStart, ?_, fun p _ => rfl⟩
    · intro p hp hpc
      rcases List.mem_append.mp hpc with hin | hin
      · exact hwf.disj p (hbsub p hp) hin
      · rw [List.mem_singleton] at hin
        exact hcurnotbase (hin ▸ hp)
    · exact fun p hp => hwf.openValid p (hbsub p hp)
    · exact fun p hp => hp
    · exact fun p hp => Or.inl hp
    · intro p hp hps
      obtain ⟨q, hq, hqc⟩ := hwf.parentOpen p (hbsub p hp) hps
      exact ⟨q, hq, List.mem_append_left _ hqc⟩
  have hfold := foldl_processNeighbor_midInv tiles ty t cur s C base st.parent
    hrect hcv hcurC hsC hreach (neighborPositions tiles cur) (fun n hn => hn)
    { st with openSet := base, closedSet := C } hinv0
  obtain ⟨hmid, hcover⟩ := hfold
  set st3 := (neighborPositions tiles cur).foldl
    (fun st n => processNeighbor tiles ty t cur st n)
    { st with openSet := base, closedSet := C } with hst3
  have hclosed3 : st3.closedSet = C := hmid.closedEq
  have hcurnotclosed : cur ∉ st.closedSet := hwf.disj cur hcuro
  refine ⟨⟨hmid.openNodup, ?_, ?_, hmid.openValid, ?_, ?_, ?_, ?_, ?_, ?_, ?_, ?_, ?_⟩, ?_⟩
  · rw [hclosed3, hC]
    simp [List.nodup_append, hwf.closedNodup, hcurnotclosed]
  · intro p hp
    rw [hclosed3]
    exact hmid.openDisj p hp
  · intro p hp
    rw [hclosed3] at hp
    rcases List.mem_append.mp hp with hin | hin
    · exact hwf.closedValid p hin
    · rw [List.mem_singleton] at hin
      exact hin ▸ hcv
  · refine Or.inr ?_
    rw [hclosed3]
    exact hsC
  · intro hs
    exact absurd hsC (hclosed3 ▸ hmid.openDisj s hs)
  · exact hmid.parentStart
  · intro p hp hps
    obtain ⟨q, hq, hqC⟩ := hmid.parentOpen p hp hps
    exact ⟨q, hq, hclosed3 ▸ hqC⟩
  · intro j p hjp hps
    rw [hclosed3] at hjp
    have hjlen : j < C.length := (List.getElem?_eq_some.mp hjp).1
    rw [hC, List.length_append, List.length_singleton] at hjlen
    by_cases hjold : j < st.closedSet.length
    · have hjp' : st.closedSet[j]? = some p := by
        rw [hC, getElem?_append_left' _ _ _ hjold] at hjp
        exact hjp
      obtain ⟨k, q, hk, hkq, hpar⟩ := hwf.parentClosed j p hjp' hps
      have hpmem : p ∈ C :=
        List.mem_append_left _ (mem_of_getElem?_aux _ _ _ hjp')
      refine ⟨k, q, hk, ?_, ?_⟩
      · rw [hclosed3, hC, getElem?_append_left' _ _ _ (by omega)]
        exact hkq
      · rw [hmid.parentC p hpmem]
        exact hpar
    · have hj : j = st.closedSet.length := by omega
      have hpcur : p = cur := by
        subst hj
        rw [hC, List.getElem?_concat_length] at hjp
        exact (Option.some_injective _ hjp).symm
      obtain ⟨q, hq, hqc⟩ := hwf.parentOpen p (hpcur ▸ hcuro) hps
      obtain ⟨k, hkq⟩ := List.getElem?_of_mem hqc
      have hklen : k < st.closedSet.length := (List.getElem?_eq_some.mp hkq).1
      refine ⟨k, q, by omega, ?_, ?_⟩
      · rw [hclosed3, hC, getElem?_append_left' _ _ _ hklen]
        exact hkq
      · rw [hmid.parentC p (hpcur ▸ hcurC)]
        exact hq
  · intro c hc n hn hW
    rw [hclosed3] at hc
    rw [hclosed3]
    rcases List.mem_append.mp hc with hcold | hccur
    · rcases hwf.closure c hcold n hn hW with hno | hnc
      · by_cases hncur : n = cur
        · exact Or.inr (List.mem_append_right _ (by simp [hncur]))
        · refine Or.inl ?_
          have hnbase : n ∈ base := mem_eraseIdx_of_ne _ _ _ _ hno hsel hncur
          exact foldl_processNeighbor_open_mono tiles ty t cur _ _ hnbase
      · exact Or.inr (List.mem_append_left _ hnc)
    · rw [List.mem_singleton] at hccur
      subst hccur
      exact hcover n hn hW
  · rw [hclosed3]
    intro hmem
    rcases List.mem_append.mp hmem with hin | hin
    · exact hwf.targetNotClosed hin
    · rw [List.mem_singleton] at hin
      exact hne hin.symm
  · intro p hp
    rcases hp with hp | hp
    · rcases hmid.openNew p hp with hin | hr
      · exact hwf.reachAll p (Or.inl (hbsub p hin))
      · exact hr
    · rw [hclosed3] at hp
      rcases List.mem_append.mp hp with hin | hin
      · exact hwf.reachAll p (Or.inr hin)
      · rw [List.mem_singleton] at hin
        exact hin ▸ hreach
  · rw [hclosed3, hC, List.length_append, List.length_singleton]

set_option maxHeartbeats 1000000 in
/-- The A* loop, run with enough fuel on an invariant-satisfying state,
either returns a path from the start to the target (and the target is
reachable), or returns the empty path (and the target is unreachable). -/
theorem aStarLoop_spec (tiles : List (List Tile)) (ty : EntityType) (s t : GridPos)
    (hrect : Rect tiles) :
    ∀ (fuel : Nat) (st : SearchState), WF tiles ty s t st →
      totalTiles tiles + 1 ≤ fuel + st.closedSet.length →
      ((aStarLoop tiles ty t fuel st).head? = some s ∧
        (aStarLoop tiles ty t fuel st).getLast? = some t ∧ Reach tiles ty s t) ∨
      (aStarLoop tiles ty t fuel st = [] ∧ ¬ Reach tiles ty s t) := by
  intro fuel
  induction fuel with
  | zero =>
    intro st hwf hfuel
    have hbound := nodup_valid_length_le tiles hrect st.closedSet
      hwf.closedNodup hwf.closedValid
    omega
  | succ f ih =>
    intro st hwf hfuel
    simp only [aStarLoop]
    split
    · rename_i hempty
      have hopen : st.openSet = [] := by simpa [List.isEmpty_iff] using hempty
      refine Or.inr ⟨rfl, ?_⟩
      have hclosed : ∀ p, Reach tiles ty s p → p ∈ st.closedSet := by
        intro p hr
        induction hr with
        | refl =>
          rcases hwf.startMem with hs | hs
          · rw [hopen] at hs
            simp at hs
          · exact hs
        | step hp hn hlook hwalk ihp =>
          rename_i p' n' ntile'
          have hW : ∀ ntile, gridGet? tiles n'.1 n'.2 = some ntile →
              isWalkableForEntity ntile ty = true := by
            intro nt hnt
            rw [hlook] at hnt
            rw [← Option.some_injective _ hnt]
            exact hwalk
          rcases hwf.closure p' ihp n' hn hW with hin | hin
          · rw [hopen] at hin
            simp at hin
          · exact hin
      exact fun hr => hwf.targetNotClosed (hclosed t hr)
    · rename_i hempty
      have hopenne : st.openSet ≠ [] := by
        simpa [List.isEmpty_iff] using hempty
      have hsel := findLowestIndex_mem st.openSet st.fCost st.hCost hopenne
      split
      · rename_i hcurt
        have hcuro : (findLowestIndex st.openSet st.fCost st.hCost).2 ∈ st.openSet :=
          mem_of_getElem?_aux _ _ _ hsel
        have hreacht : Reach tiles ty s t :=
          hcurt ▸ hwf.reachAll _ (Or.inl hcuro)
        refine Or.inl ⟨?_, ?_, hreacht⟩
        · by_cases hts : (findLowestIndex st.openSet st.fCost st.hCost).2 = s
          · rw [hts]
            show (reconstructPath st.parent (st.closedSet.length + 1) s).head? = some s
            simp only [reconstructPath, hwf.parentStart]
            rfl
          · obtain ⟨q, hq, hqc⟩ := hwf.parentOpen _ hcuro hts
            obtain ⟨k, hkq⟩ := List.getElem?_of_mem hqc
            have hklen : k < st.closedSet.length := (List.getElem?_eq_some.mp hkq).1
            have hrec := reconstructPath_spec st.closedSet st.parent s hwf.parentStart
              hwf.parentClosed st.closedSet.length k q hkq hklen
            show (reconstructPath st.parent (st.closedSet.length + 1) _).head? = some s
            simp only [reconstructPath, hq]
            rw [List.head?_append_of_ne_nil]
            · exact hrec.1
            · intro hnil
              rw [hnil] at hrec
              simp at hrec
        · by_cases hts : (findLowestIndex st.openSet st.fCost st.hCost).2 = s
          · rw [hts]
            show (reconstructPath st.parent (st.closedSet.length + 1) s).getLast? = some t
            simp only [reconstructPath, hwf.parentStart]
            rw [← hts, hcurt]
            rfl
          · obtain ⟨q, hq, hqc⟩ := hwf.parentOpen _ hcuro hts
            show (reconstructPath st.parent (st.closedSet.length + 1) _).getLast? = some t
            simp only [reconstructPath, hq]
            rw [← hcurt]
            simp
      · rename_i hcurt
        have hstep := wf_step tiles ty s t hrect st hwf
          (findLowestIndex st.openSet st.fCost st.hCost) hsel hcurt
        have := ih _ hstep.1 (by rw [hstep.2]; omega)
        exact this

/-- The seeded search state satisfies the loop invariant (whatever the cost
maps hold). -/
theorem wf_init (tiles : List (List Tile)) (ty : EntityType) (s t : GridPos)
    (hs : validPos tiles s) (g h f : GridPos → Option ℚ) :
    WF tiles ty s t
      { openSet := [s], closedSet := [], gCost := g, hCost := h, fCost := f,
        parent := fun _ => none } := by
  refine ⟨by simp, by simp, by simp, ?_, by simp, Or.inl (by simp), fun _ => ⟨rfl, rfl⟩,
    rfl, ?_, ?_, by simp, by simp, ?_⟩
  · intro p hp
    rw [List.mem_singleton] at hp
    exact hp ▸ hs
  · intro p hp hps
    rw [List.mem_singleton] at hp
    exact absurd hp hps
  · intro j p hjp
    simp at hjp
  · intro p hp
    rcases hp with hp | hp
    · rw [List.mem_singleton] at hp
      exact hp ▸ Reach.refl
    · simp at hp

/-- C9: on a rectangular grid with an in-bounds start, `findPath` returns a
tile sequence that begins at the start tile and ends at the goal tile exactly
when the goal is reachable through tiles traversable for the entity type, and
returns the empty sequence when the goal is unreachable — in particular when
the goal is fully enclosed by non-traversable tiles. -/
theorem findPath_spec (tiles : List (List Tile)) (startTile targetTile : GridPos)
    (entityType : EntityType) (hrect : Rect tiles) (hs : validPos tiles startTile) :
    (Reach tiles entityType startTile targetTile →
      (findPath tiles startTile targetTile entityType).head? = some startTile ∧
      (findPath tiles startTile targetTile entityType).getLast? = some targetTile) ∧
    (¬ Reach tiles entityType startTile targetTile →
      findPath tiles startTile targetTile entityType = []) := by
  simp only [findPath]
  rcases aStarLoop_spec tiles entityType startTile targetTile hrect
      (totalTiles tiles + 1) _
      (wf_init tiles entityType startTile targetTile hs _ _ _)
      (by simp) with ⟨h1, h2, h3⟩ | ⟨h1, h2⟩
  · exact ⟨fun _ => ⟨h1, h2⟩, fun hnr => absurd h3 hnr⟩
  · exact ⟨fun hr => absurd hr h2, fun _ => h1⟩

/-- A 3×1 all-grassland corridor. -/
def c9line : List (List Tile) :=
  [[mkTile 0 0 .grassland (1/2) true], [mkTile 1 0 .grassland (1/2) true],
   [mkTile 2 0 .grassland (1/2) true]]

/-- A 3×3 grid whose goal corner (2,2) is fully enclosed by ocean tiles,
which a human cannot traverse. -/
def c9walled : List (List Tile) :=
  [[mkTile 0 0 .grassland (1/2) true, mkTile 0 1 .ocean (1/2) true,
    mkTile 0 2 .ocean (1/2) true],
   [mkTile 1 0 .ocean (1/2) true, mkTile 1 1 .ocean (1/2) true,
    mkTile 1 2 .ocean (1/2) true],
   [mkTile 2 0 .ocean (1/2) true, mkTile 2 1 .ocean (1/2) true,
    mkTile 2 2 .grassland (1/2) true]]

/-- C9, witness: on the corridor the path runs from (0,0) to (2,0); on the
walled grid the enclosed goal yields the empty path. -/
theorem findPath_spec_witness :
    ((findPath c9line (0, 0) (2, 0) .human).head? = some (0, 0) ∧
      (findPath c9line (0, 0) (2, 0) .human).getLast? = some (2, 0)) ∧
    findPath c9walled (0, 0) (2, 2) .human = [] := by
  constructor
  · have r1 : Reach c9line .human (0, 0) (1, 0) :=
      @Reach.step c9line .human (0, 0) (0, 0) (1, 0)
        (mkTile 1 0 .grassland (1/2) true) Reach.refl (by decide) rfl (by decide)
    have r2 : Reach c9line .human (0, 0) (2, 0) :=
      @Reach.step c9line .human (0, 0) (1, 0) (2, 0)
        (mkTile 2 0 .grassland (1/2) true) r1 (by decide) rfl (by decide)
    exact (findPath_spec c9line (0, 0) (2, 0) .human
      (by intro row hrow; simp [c9line] at hrow; rcases hrow with rfl | rfl | rfl <;> rfl)
      (by simp [validPos, c9line])).1 r2
  · refine (findPath_spec c9walled (0, 0) (2, 2) .human
      (by intro row hrow; simp [c9walled] at hrow; rcases hrow with rfl | rfl | rfl <;> rfl)
      (by simp [validPos, c9walled])).2 ?_
    intro hr
    have hone : ∀ p, Reach c9walled .human (0, 0) p → p = (0, 0) := by
      intro p hp
      induction hp with
      | refl => rfl
      | step hp' hn hlook hwalk ih =>
        rename_i p' n' ntile'
        rw [ih] at hn
        have hnl : neighborPositions c9walled (0, 0) = [(0, 1), (1, 0), (1, 1)] := by
          decide
        rw [hnl] at hn
        simp only [List.mem_cons, List.not_mem_nil, or_false] at hn
        rcases hn with rfl | rfl | rfl
        · have h2 : some (mkTile 0 1 .ocean (1/2) true) = some ntile' := hlook
          rw [← Option.some_injective _ h2] at hwalk
          exact absurd hwalk (by decide)
        · have h2 : some (mkTile 1 0 .ocean (1/2) true) = some ntile' := hlook
          rw [← Option.some_injective _ h2] at hwalk
          exact absurd hwalk (by decide)
        · have h2 : some (mkTile 1 1 .ocean (1/2) true) = some ntile' := hlook
          rw [← Option.some_injective _ h2] at hwalk
          exact absurd hwalk (by decide)
    exact absurd (hone (2, 2) hr) (by decide)
